import Mathlib

/-!
# WellIndexCalculator: a shallow embedding of `wellindexcalculator.cpp`

The C++ `double` is idealised as a real number (`ℝ`); `sqrt`, `log` and `M_PI` are
`Real.sqrt`, `Real.log` and `Real.pi`, and a division by zero has Lean's value `0`.
Where a statement depends on an operation that leaves the real numbers (a division by zero,
the logarithm or the square root of a negative number), the well index computation is followed
in a second copy, `compute_well_index_checked`, which reports NaN or an infinity in place of a
value and is proved to agree with `compute_well_index` wherever it ends in a number.
The `while (true)` loop of `collect_intersected_cells` is driven by a fuel counter:
`Err.out_of_fuel` is the embedding's reading of "the loop has not stopped yet".
The two `assert`s are modelled as enabled and fail with their own error.
The records under traversal carry a ghost log of the `add_new_segment` calls, which keeps the
order in which the segments were recorded; the translated code never reads it.

The grid, its cells and their faces are external to the translated file and are
taken as parameters (`Grid`, `Cell`, `Face`).
-/

noncomputable section

namespace WellIndexCalculation

/-! ## Eigen `Vector3d` -/

/-- Three real coordinates (Eigen `Vector3d` with `double` read as `ℝ`). -/
@[ext]
structure Vector3d where
  x : ℝ
  y : ℝ
  z : ℝ

namespace Vector3d

/-- Componentwise sum, `a + b`. -/
protected def add (a b : Vector3d) : Vector3d := ⟨a.x + b.x, a.y + b.y, a.z + b.z⟩

/-- Componentwise difference, `a - b`. -/
protected def sub (a b : Vector3d) : Vector3d := ⟨a.x - b.x, a.y - b.y, a.z - b.z⟩

/-- Vector times scalar, `v * s`. -/
protected def scale (v : Vector3d) (s : ℝ) : Vector3d := ⟨v.x * s, v.y * s, v.z * s⟩

/-- Vector divided by scalar, `v / s`. -/
protected def sdiv (v : Vector3d) (s : ℝ) : Vector3d := ⟨v.x / s, v.y / s, v.z / s⟩

instance : Add Vector3d := ⟨Vector3d.add⟩
instance : Sub Vector3d := ⟨Vector3d.sub⟩
instance : HMul Vector3d ℝ Vector3d := ⟨Vector3d.scale⟩
instance : HDiv Vector3d ℝ Vector3d := ⟨Vector3d.sdiv⟩

/-- Inner product, `a.dot(b)`. -/
def dot (a b : Vector3d) : ℝ := a.x * b.x + a.y * b.y + a.z * b.z

/-- Euclidean length, `v.norm()`. -/
def norm (v : Vector3d) : ℝ := Real.sqrt (v.dot v)

end Vector3d

/-! ## External collaborators: faces, cells, grid -/

/-- A cell face (`Grid::Cell::Face`), external: its normal vector and its two operations
are taken as they are used by the translated code. -/
structure Face where
  normal_vector : Vector3d
  intersection_with_line : Vector3d → Vector3d → Vector3d
  point_on_same_side : Vector3d → ℝ → Bool

/-- A grid cell (`Grid::Cell`), external: the accessors the translated code reads. -/
structure Cell where
  global_index : Int
  faces : List Face
  dx : ℝ
  dy : ℝ
  dz : ℝ
  permx : ℝ
  permy : ℝ
  permz : ℝ
  xvec : Vector3d
  yvec : Vector3d
  zvec : Vector3d

/-- The grid query interface (`Grid::Grid`), external. -/
structure Grid where
  GetCellEnvelopingPoint : Vector3d → List Int → Cell
  GetBoundingBoxCellIndices : ℝ → ℝ → ℝ → ℝ → ℝ → ℝ → List Int

/-! ## `IntersectedCell` -/

/-- One well segment inside a cell: entry point, exit point, wellbore radius. -/
structure Segment where
  entry : Vector3d
  exit : Vector3d
  radius : ℝ

/-- Modelled from the spec: the `IntersectedCell` record (its class is not part of the
translated file). It holds the grid cell, the segments in insertion order, the per-segment
diagnostic scalars keyed by segment index and name, and the aggregate well index
(`none` until `set_cell_well_index` is called). -/
structure IntersectedCell where
  cell : Cell
  segments : List Segment
  calculation_data : Nat → String → Option ℝ
  well_index : Option ℝ

namespace IntersectedCell

/-- Modelled from the spec: a fresh record for a grid cell, `IntersectedCell(cell)`, with no
segment, no diagnostic and no well index. -/
def ofCell (c : Cell) : IntersectedCell :=
  { cell := c, segments := [], calculation_data := fun _ _ => none, well_index := none }

/-- Modelled from the spec: `add_new_segment` appends one segment to the record. -/
def add_new_segment (ic : IntersectedCell) (entry_point exit_point : Vector3d) (radius : ℝ) :
    IntersectedCell :=
  { ic with segments := ic.segments ++ [⟨entry_point, exit_point, radius⟩] }

/-- Modelled from the spec: `set_segment_calculation_data` stores one named diagnostic scalar
of one segment. -/
def set_segment_calculation_data (ic : IntersectedCell) (iSegment : Nat) (name : String)
    (value : ℝ) : IntersectedCell :=
  { ic with calculation_data := fun j n =>
      if j = iSegment ∧ n = name then some value else ic.calculation_data j n }

/-- Modelled from the spec: `set_cell_well_index` stores the aggregate well index. -/
def set_cell_well_index (ic : IntersectedCell) (value : ℝ) : IntersectedCell :=
  { ic with well_index := some value }

/-- Modelled from the spec: `GetIntersectedCellIndex` fetches the index of the record that has
the grid cell's global index and appends a fresh record when there is none ("if this is not
yet in the list it will be added"). -/
def GetIntersectedCellIndex (cells : List IntersectedCell) (grdcell : Cell) :
    List IntersectedCell × Nat :=
  let i := cells.findIdx (fun ic => decide (ic.cell.global_index = grdcell.global_index))
  if i < cells.length then (cells, i) else (cells ++ [ofCell grdcell], cells.length)

end IntersectedCell

/-! ## The calculator -/

/-- How a run can fail. `out_of_fuel` is not a C++ outcome: it says that the loop did not stop
within the given number of iterations. -/
inductive Err where
  | out_of_fuel
  | out_of_range
  | traversal_overflow
  | postcondition_failed
  deriving DecidableEq, Repr

/-- The vector of records under traversal, together with a ghost log of the calls of
`add_new_segment` in the order they were made (record index, segment). The log is never read by
the translated code. -/
structure Traversal where
  cells : List IntersectedCell
  recorded : List (Nat × Segment)

/-- The statement `cells.at(idx).add_new_segment(entry, exit, radius)`. -/
def add_segment_at (t : Traversal) (idx : Nat) (entry_point exit_point : Vector3d)
    (radius : ℝ) : Except Err Traversal :=
  match t.cells[idx]? with
  | none => .error .out_of_range
  | some ic =>
    .ok { cells := t.cells.set idx (ic.add_new_segment entry_point exit_point radius),
          recorded := t.recorded ++ [(idx, ⟨entry_point, exit_point, radius⟩)] }

/-- The acceptance test of `find_exit_point` for one intersection point: on the same side of
every face of the cell with slack `10e-6`, farther than `10e-10` from the exception point, and
not beyond the end point. -/
def accept_point (faces : List Face) (entry_point end_point exception_point
    intersect_point : Vector3d) : Bool :=
  faces.all (fun p => p.point_on_same_side intersect_point 10e-6)
    && decide ((exception_point - intersect_point).norm > 10e-10)
    && decide ((end_point - entry_point).dot (end_point - intersect_point) ≥ 0)

/-- The face loop of `find_exit_point`: `some p` when the loop returns `p` early, `none` when
it runs to its end. `all_faces` is the whole face list of the cell, `rest` what is left. -/
def find_exit_loop (all_faces : List Face) (entry_point end_point exception_point : Vector3d) :
    List Face → Option Vector3d
  | [] => none
  | face :: rest =>
    if face.normal_vector.dot (end_point - entry_point) ≠ 0 then
      let intersect_point := face.intersection_with_line entry_point end_point
      if accept_point all_faces entry_point end_point exception_point intersect_point then
        some intersect_point
      else find_exit_loop all_faces entry_point end_point exception_point rest
    else find_exit_loop all_faces entry_point end_point exception_point rest

/-- `WellIndexCalculator::find_exit_point`. -/
def find_exit_point (cells : List IntersectedCell) (cell_index : Nat)
    (entry_point end_point exception_point : Vector3d) : Except Err Vector3d :=
  match cells[cell_index]? with
  | none => .error .out_of_range
  | some ic =>
    match find_exit_loop ic.cell.faces entry_point end_point exception_point ic.cell.faces with
    | some p => .ok p
    | none => .ok entry_point

/-- The search box of `collect_intersected_cells`: `(xi, yi, zi, xf, yf, zf)` after the
inflation statements. -/
def search_box (start_point end_point : Vector3d) : ℝ × ℝ × ℝ × ℝ × ℝ × ℝ :=
  let xi := if start_point.x < end_point.x then start_point.x else end_point.x
  let xf := if start_point.x < end_point.x then end_point.x else start_point.x
  let yi := if start_point.y < end_point.y then start_point.y else end_point.y
  let yf := if start_point.y < end_point.y then end_point.y else start_point.y
  let zi := if start_point.z < end_point.z then start_point.z else end_point.z
  let zf := if start_point.z < end_point.z then end_point.z else start_point.z
  let xi := xi - 0.1 * (xf - xi)
  let xf := xf + 0.1 * (xf - xi)
  let yi := yi - 0.1 * (yf - yi)
  let yf := yf + 0.1 * (yf - yi)
  let zi := zi - 0.1 * (zf - zi)
  let zf := zf + 0.1 * (zf - zi)
  (xi, yi, zi, xf, yf, zf)

/-- The `while (true)` loop of `collect_intersected_cells`. It returns the records and the index
of the record that received the final segment. -/
def traversal_loop (grid : Grid) (bb_cells : List Int) (end_point : Vector3d)
    (wellbore_radius epsilon : ℝ) (last_cell : Cell) :
    Nat → Traversal → Vector3d → Except Err (Traversal × Nat)
  | 0, _, _ => .error .out_of_fuel
  | fuel + 1, t, exit_point =>
    let move_exit_epsilon := exit_point * (1 - epsilon) + end_point * epsilon
    let new_cell := grid.GetCellEnvelopingPoint move_exit_epsilon bb_cells
    let found := IntersectedCell.GetIntersectedCellIndex t.cells new_cell
    let t1 : Traversal := { t with cells := found.1 }
    let intersected_cell_index := found.2
    match t1.cells[intersected_cell_index]? with
    | none => .error .out_of_range
    | some ic =>
      if ic.cell.global_index = last_cell.global_index then
        match add_segment_at t1 intersected_cell_index exit_point end_point wellbore_radius with
        | .error e => .error e
        | .ok t2 => .ok (t2, intersected_cell_index)
      else
        let entry_point := exit_point
        match find_exit_point t1.cells intersected_cell_index entry_point end_point
            exit_point with
        | .error e => .error e
        | .ok new_exit_point =>
          match add_segment_at t1 intersected_cell_index entry_point new_exit_point
              wellbore_radius with
          | .error e => .error e
          | .ok t2 =>
            if t2.cells.length < 500 then
              traversal_loop grid bb_cells end_point wellbore_radius epsilon last_cell
                fuel t2 new_exit_point
            else .error .traversal_overflow

/-- `WellIndexCalculator::collect_intersected_cells`, started on the records and log of `t`. -/
def collect_intersected_cells (grid : Grid) (fuel : Nat) (t : Traversal)
    (start_point end_point : Vector3d) (wellbore_radius : ℝ) : Except Err Traversal :=
  let box := search_box start_point end_point
  let bb_cells : List Int :=
    if (1 : Int) < 0 then
      grid.GetBoundingBoxCellIndices box.1 box.2.1 box.2.2.1 box.2.2.2.1 box.2.2.2.2.1
        box.2.2.2.2.2
    else []
  let first_cell := grid.GetCellEnvelopingPoint start_point bb_cells
  let found := IntersectedCell.GetIntersectedCellIndex t.cells first_cell
  let t1 : Traversal := { t with cells := found.1 }
  let intersected_cell_index := found.2
  let last_cell := grid.GetCellEnvelopingPoint end_point bb_cells
  if last_cell.global_index = first_cell.global_index then
    add_segment_at t1 intersected_cell_index start_point end_point wellbore_radius
  else
    match find_exit_point t1.cells intersected_cell_index start_point end_point
        start_point with
    | .error e => .error e
    | .ok first_try =>
      let retried : Except Err Vector3d :=
        if (end_point - start_point).dot (first_try - start_point) ≤ 0 then
          find_exit_point t1.cells intersected_cell_index start_point end_point first_try
        else .ok first_try
      match retried with
      | .error e => .error e
      | .ok exit_point =>
        match add_segment_at t1 intersected_cell_index start_point exit_point
            wellbore_radius with
        | .error e => .error e
        | .ok t2 =>
          let epsilon := 0.01 / (end_point - exit_point).norm
          match traversal_loop grid bb_cells end_point wellbore_radius epsilon last_cell
              fuel t2 exit_point with
          | .error e => .error e
          | .ok (t3, last_index) =>
            match t3.cells[last_index]? with
            | none => .error .out_of_range
            | some ic =>
              if ic.cell.global_index = last_cell.global_index then .ok t3
              else .error .postcondition_failed

/-- `WellIndexCalculator::dir_wellblock_radius`. -/
def dir_wellblock_radius (dx dy kx ky : ℝ) : ℝ :=
  0.28 * Real.sqrt ((dx * dx) * Real.sqrt (ky / kx) + (dy * dy) * Real.sqrt (kx / ky)) /
    (Real.sqrt (Real.sqrt (kx / ky)) + Real.sqrt (Real.sqrt (ky / kx)))

/-- `WellIndexCalculator::dir_well_index`. -/
def dir_well_index (Lx dy dz ky kz wellbore_radius : ℝ) : ℝ :=
  let silly_eclipse_factor : ℝ := 0.008527
  silly_eclipse_factor * (2 * Real.pi * Real.sqrt (ky * kz) * Lx) /
    Real.log (dir_wellblock_radius dy dz ky kz / wellbore_radius)

/-- The projected length of `current_vec` on an axis vector, as `compute_well_index` computes
it: `(axis * axis.dot(current_vec) / axis.dot(axis)).norm()`. -/
def projected_length (axis current_vec : Vector3d) : ℝ :=
  (axis * axis.dot current_vec / axis.dot axis).norm

/-- The running sums of `compute_well_index` together with the record being updated. -/
structure WellIndexSums where
  well_index_x : ℝ
  well_index_y : ℝ
  well_index_z : ℝ
  icell : IntersectedCell

/-- The body of the segment loop of `compute_well_index` for segment `iSegment`. -/
def segment_step (acc : WellIndexSums) (iSegment : Nat) (seg : Segment) : WellIndexSums :=
  let icell := acc.icell
  let current_vec := seg.exit - seg.entry
  let current_Lx := projected_length icell.cell.xvec current_vec
  let current_Ly := projected_length icell.cell.yvec current_vec
  let current_Lz := projected_length icell.cell.zvec current_vec
  let current_wx := dir_well_index current_Lx icell.cell.dy icell.cell.dz icell.cell.permy
    icell.cell.permz seg.radius
  let current_wy := dir_well_index current_Ly icell.cell.dx icell.cell.dz icell.cell.permx
    icell.cell.permz seg.radius
  let current_wz := dir_well_index current_Lz icell.cell.dx icell.cell.dy icell.cell.permx
    icell.cell.permy seg.radius
  let icell := icell.set_segment_calculation_data iSegment "x" current_vec.x
  let icell := icell.set_segment_calculation_data iSegment "y" current_vec.y
  let icell := icell.set_segment_calculation_data iSegment "z" current_vec.z
  let icell := icell.set_segment_calculation_data iSegment "Lx" current_Lx
  let icell := icell.set_segment_calculation_data iSegment "Ly" current_Ly
  let icell := icell.set_segment_calculation_data iSegment "Lz" current_Lz
  let icell := icell.set_segment_calculation_data iSegment "wx" current_wx
  let icell := icell.set_segment_calculation_data iSegment "wy" current_wy
  let icell := icell.set_segment_calculation_data iSegment "wz" current_wz
  { well_index_x := acc.well_index_x + current_wx,
    well_index_y := acc.well_index_y + current_wy,
    well_index_z := acc.well_index_z + current_wz,
    icell := icell }

/-- The segment loop of `compute_well_index`, from segment index `iSegment` on; `segs` are the
segments of the record from that index. -/
def segment_loop : WellIndexSums → Nat → List Segment → WellIndexSums
  | acc, _, [] => acc
  | acc, iSegment, seg :: segs => segment_loop (segment_step acc iSegment seg) (iSegment + 1) segs

/-- The work of `compute_well_index` on the record `icell = cells.at(cell_index)`. -/
def compute_cell_well_index (icell : IntersectedCell) : IntersectedCell :=
  let sums := segment_loop ⟨0, 0, 0, icell⟩ 0 icell.segments
  sums.icell.set_cell_well_index
    (Real.sqrt (sums.well_index_x * sums.well_index_x + sums.well_index_y * sums.well_index_y
      + sums.well_index_z * sums.well_index_z))

/-- `WellIndexCalculator::compute_well_index`. -/
def compute_well_index (cells : List IntersectedCell) (cell_index : Nat) :
    Except Err (List IntersectedCell) :=
  match cells[cell_index]? with
  | none => .error .out_of_range
  | some icell => .ok (cells.set cell_index (compute_cell_well_index icell))

/-- The loop `for (i = 0; i < intersected_cells.size(); ++i) compute_well_index(cells, i)`,
from index `i` on, with `todo` iterations left. -/
def well_index_loop : Nat → Nat → List IntersectedCell → Except Err (List IntersectedCell)
  | 0, _, cells => .ok cells
  | todo + 1, i, cells =>
    match compute_well_index cells i with
    | .error e => .error e
    | .ok cells1 => well_index_loop todo (i + 1) cells1

/-- `WellIndexCalculator::ComputeWellBlocks`. -/
def ComputeWellBlocks (grid : Grid) (fuel : Nat) (heel toe : Vector3d) (wellbore_radius : ℝ) :
    Except Err (List IntersectedCell) :=
  match collect_intersected_cells grid fuel ⟨[], []⟩ heel toe wellbore_radius with
  | .error e => .error e
  | .ok t => well_index_loop t.cells.length 0 t.cells

/-! ## Concrete geometry used by the examples -/

/-- Modelled from the spec: a face given as a plane through `corner` with inward normal
`normal`. Its intersection with the line through `p0` and `p1` is the line/plane intersection
point, and a point is on the same side when its signed offset from the plane is at least
`-slack`. -/
def planeFace (corner normal : Vector3d) : Face :=
  { normal_vector := normal,
    intersection_with_line := fun p0 p1 =>
      p0 + (p1 - p0) * (normal.dot (corner - p0) / normal.dot (p1 - p0)),
    point_on_same_side := fun point slack => decide ((point - corner).dot normal ≥ 0 - slack) }

/-- An axis-aligned box cell with lower corner `lo` and side lengths `sx`, `sy`, `sz`, faces in
the order x-low, x-high, y-low, y-high, z-low, z-high, permeability `k` in every direction and
the coordinate axes as local axis vectors. -/
def boxCell (index : Int) (lo : Vector3d) (sx sy sz k : ℝ) : Cell :=
  { global_index := index,
    faces := [planeFace lo ⟨1, 0, 0⟩, planeFace ⟨lo.x + sx, lo.y, lo.z⟩ ⟨-1, 0, 0⟩,
              planeFace lo ⟨0, 1, 0⟩, planeFace ⟨lo.x, lo.y + sy, lo.z⟩ ⟨0, -1, 0⟩,
              planeFace lo ⟨0, 0, 1⟩, planeFace ⟨lo.x, lo.y, lo.z + sz⟩ ⟨0, 0, -1⟩],
    dx := sx, dy := sy, dz := sz,
    permx := k, permy := k, permz := k,
    xvec := ⟨1, 0, 0⟩, yvec := ⟨0, 1, 0⟩, zvec := ⟨0, 0, 1⟩ }

/-- A grid made of the single box `[0,10]^3`, which encloses every queried point. -/
def oneCellGrid : Grid :=
  { GetCellEnvelopingPoint := fun _ _ => boxCell 0 ⟨0, 0, 0⟩ 10 10 10 100,
    GetBoundingBoxCellIndices := fun _ _ _ _ _ _ => [] }

/-! ## The formulas as the specification writes them -/

/-- The equivalent wellblock radius in the words of the specification:
`r_eq(d1,d2,k1,k2) = 0.28 * sqrt(d1^2*sqrt(k2/k1) + d2^2*sqrt(k1/k2)) /
((k1/k2)^(1/4) + (k2/k1)^(1/4))`. -/
def spec_r_eq (d1 d2 k1 k2 : ℝ) : ℝ :=
  0.28 * Real.sqrt (d1 ^ 2 * Real.sqrt (k2 / k1) + d2 ^ 2 * Real.sqrt (k1 / k2)) /
    ((k1 / k2) ^ (1 / 4 : ℝ) + (k2 / k1) ^ (1 / 4 : ℝ))

/-- The directional well index in the words of the specification:
`dir(L,d1,d2,k1,k2,r) = 0.008527 * 2*pi * sqrt(k1*k2) * L / ln(r_eq(d1,d2,k1,k2)/r)`. -/
def spec_dir (L d1 d2 k1 k2 r : ℝ) : ℝ :=
  0.008527 * 2 * Real.pi * Real.sqrt (k1 * k2) * L / Real.log (spec_r_eq d1 d2 k1 k2 / r)

/-- The three accumulated directional sums of a record in the words of the specification. -/
def spec_Wx (ic : IntersectedCell) : ℝ :=
  (ic.segments.map (fun s => spec_dir (projected_length ic.cell.xvec (s.exit - s.entry))
    ic.cell.dy ic.cell.dz ic.cell.permy ic.cell.permz s.radius)).sum

/-- See `spec_Wx`. -/
def spec_Wy (ic : IntersectedCell) : ℝ :=
  (ic.segments.map (fun s => spec_dir (projected_length ic.cell.yvec (s.exit - s.entry))
    ic.cell.dx ic.cell.dz ic.cell.permx ic.cell.permz s.radius)).sum

/-- See `spec_Wx`. -/
def spec_Wz (ic : IntersectedCell) : ℝ :=
  (ic.segments.map (fun s => spec_dir (projected_length ic.cell.zvec (s.exit - s.entry))
    ic.cell.dx ic.cell.dy ic.cell.permx ic.cell.permy s.radius)).sum

/-- A record of the box `[0,10]^3` (permeability 100) with two segments of different radii. -/
def twoSegmentRecord : IntersectedCell :=
  { cell := boxCell 0 ⟨0, 0, 0⟩ 10 10 10 100,
    segments := [⟨⟨0, 0, 0⟩, ⟨10, 0, 0⟩, 1 / 10⟩, ⟨⟨10, 5, 0⟩, ⟨0, 5, 5⟩, 1 / 5⟩],
    calculation_data := fun _ _ => none,
    well_index := none }

/-- A fresh record of the box `[0,10]^3`. -/
def boxRecord : IntersectedCell := IntersectedCell.ofCell (boxCell 0 ⟨0, 0, 0⟩ 10 10 10 100)

/-! ## A row of cubes along the x axis -/

/-- Cell `j` of a row of cubes of side `d`: the box `[j*d, (j+1)*d] x [0,d] x [0,d]` with global
index `j` and permeability `k`. -/
def rowCell (d k : ℝ) (j : Nat) : Cell := boxCell (j : Int) ⟨(j : ℝ) * d, 0, 0⟩ d d d k

/-- The part of the x axis inside cell `j` of the row, with radius `r`. -/
def rowSegment (d r : ℝ) (j : Nat) : Segment :=
  ⟨⟨(j : ℝ) * d, 0, 0⟩, ⟨((j : ℝ) + 1) * d, 0, 0⟩, r⟩

/-- The record of cell `j` of the row after the traversal: one segment, nothing computed. -/
def rowRecord (d k r : ℝ) (j : Nat) : IntersectedCell :=
  { cell := rowCell d k j, segments := [rowSegment d r j],
    calculation_data := fun _ _ => none, well_index := none }

/-- A grid of three cubes of side 10 and permeability 100 along the x axis; a point is resolved
by its x coordinate. -/
def threeCellGrid : Grid :=
  { GetCellEnvelopingPoint := fun p _ =>
      if p.x < 10 then rowCell 10 100 0 else if p.x < 20 then rowCell 10 100 1
      else rowCell 10 100 2,
    GetBoundingBoxCellIndices := fun _ _ _ _ _ _ => [] }

/-- The records and the log of the traversal of `threeCellGrid` from the origin to
`(30,0,0)` with radius `1/10`. -/
def threeCellTraversal : Traversal :=
  ⟨(List.range 3).map (rowRecord 10 100 (1 / 10)),
    (List.range 3).map (fun i => (i, rowSegment 10 (1 / 10) i))⟩

/-! ## A path that grazes an edge of a regular grid -/

/-- Three boxes of side 10: index 0 is `[0,10] x [-10,0] x [0,10]`, index 1 is `[0,10]^3` above
it, index 2 is `[10,20] x [0,10] x [0,10]` to the right of index 1. A point is resolved by its
x and y coordinates. -/
def cornerGrid : Grid :=
  { GetCellEnvelopingPoint := fun p _ =>
      if p.x < 10 then
        (if p.y < 0 then boxCell 0 ⟨0, -10, 0⟩ 10 10 10 100
          else boxCell 1 ⟨0, 0, 0⟩ 10 10 10 100)
      else boxCell 2 ⟨10, 0, 0⟩ 10 10 10 100,
    GetBoundingBoxCellIndices := fun _ _ _ _ _ _ => [] }

/-- A heel in box 0, five millionths of a length unit before the path enters box 1 next to the
edge `x = 0, y = 0`. -/
def cornerHeel : Vector3d := ⟨1 / 250000, -3 / 1000000, 5⟩

/-- The toe, in box 2, of the path from `cornerHeel` in the direction `(4,3,0)`. -/
def cornerToe : Vector3d := ⟨12, 9 - 3 / 500000, 5⟩

/-- Where the line of the path meets the plane `y = 0`. -/
def cornerA : Vector3d := ⟨1 / 125000, 0, 5⟩

/-- Where the line of the path meets the plane `x = 0`, behind the heel. -/
def cornerB : Vector3d := ⟨0, -3 / 500000, 5⟩

/-- Where the line of the path meets the plane `x = 10`. -/
def cornerF : Vector3d := ⟨10, 15 / 2 - 3 / 500000, 5⟩

/-- The probe fraction `0.01 / norm(toe - exit)` of the traversal from `cornerHeel` to
`cornerToe`, whose first exit point is `cornerA`. -/
def cornerEps : ℝ := 0.01 / (15 - 1 / 100000)

/-- The records and the log of the traversal of `cornerGrid` from `cornerHeel` to `cornerToe`
with radius `1/10`. -/
def cornerTraversal : Traversal :=
  ⟨[{ cell := boxCell 0 ⟨0, -10, 0⟩ 10 10 10 100,
      segments := [⟨cornerHeel, cornerA, 1 / 10⟩],
      calculation_data := fun _ _ => none, well_index := none },
    { cell := boxCell 1 ⟨0, 0, 0⟩ 10 10 10 100,
      segments := [⟨cornerA, cornerB, 1 / 10⟩, ⟨cornerB, cornerF, 1 / 10⟩],
      calculation_data := fun _ _ => none, well_index := none },
    { cell := boxCell 2 ⟨10, 0, 0⟩ 10 10 10 100,
      segments := [⟨cornerF, cornerToe, 1 / 10⟩],
      calculation_data := fun _ _ => none, well_index := none }],
   [(0, ⟨cornerHeel, cornerA, 1 / 10⟩), (1, ⟨cornerA, cornerB, 1 / 10⟩),
    (1, ⟨cornerB, cornerF, 1 / 10⟩), (2, ⟨cornerF, cornerToe, 1 / 10⟩)]⟩

/-! ## A path that starts inside a cell and, extended backwards, grazes an edge of it -/

/-- Two boxes of side 10: index 0 is `[0,10]^3`, index 1 is `[0,10] x [10,20] x [0,10]` above
it. A point is resolved by its y coordinate. -/
def edgeGrid : Grid :=
  { GetCellEnvelopingPoint := fun p _ =>
      if p.y < 10 then boxCell 0 ⟨0, 0, 0⟩ 10 10 10 100 else boxCell 1 ⟨0, 10, 0⟩ 10 10 10 100,
    GetBoundingBoxCellIndices := fun _ _ _ _ _ _ => [] }

/-- A heel well inside box 0. -/
def edgeHeel : Vector3d := ⟨3, 4 - 1 / 125000, 5⟩

/-- The toe, in box 1, of the path from `edgeHeel` in the direction `(3,4,0)`. -/
def edgeToe : Vector3d := ⟨9, 12 - 1 / 125000, 5⟩

/-- Where the line of the path meets the plane `x = 0`, behind the heel and eight millionths
below the box. -/
def edgeB1 : Vector3d := ⟨0, -1 / 125000, 5⟩

/-- Where the line of the path meets the plane `y = 0`, behind the heel. -/
def edgeB2 : Vector3d := ⟨3 / 500000, 0, 5⟩

/-- The probe fraction `0.01 / norm(toe - exit)` of the traversal from `edgeHeel` to `edgeToe`,
whose first exit point is `edgeB2`. -/
def edgeEps : ℝ := 0.01 / (15 - 1 / 100000)

/-! ## Predicates on the traversal log -/

/-- The segments that the log attributes to the record with index `i`, in logging order. -/
def segments_of_log (log : List (Nat × Segment)) (i : Nat) : List Segment :=
  (log.filter (fun e => decide (e.1 = i))).map Prod.snd

/-- The log and the records agree: every logged index is an index of a record, and every
record holds exactly the segments that the log attributes to it, in logging order. -/
def Consistent (t : Traversal) : Prop :=
  (∀ e ∈ t.recorded, e.1 < t.cells.length)
    ∧ ∀ (i : Nat) (ic : IntersectedCell), t.cells[i]? = some ic →
        ic.segments = segments_of_log t.recorded i

/-- The segments form a gapless polyline from `a` to `b`: the first starts at `a`, each one
starts where the previous one ends, and the last ends at `b`. -/
def Linked : Vector3d → List Segment → Vector3d → Prop
  | a, [], b => a = b
  | a, s :: rest, b => s.entry = a ∧ Linked s.exit rest b

/-- The sum of the lengths `norm(exit - entry)` of the segments. -/
def total_length (segs : List Segment) : ℝ :=
  (segs.map (fun s => (s.exit - s.entry).norm)).sum

/-- The point `x` lies on the line through heel and toe. -/
def OnLine (heel toe x : Vector3d) : Prop := ∃ σ : ℝ, x = heel + (toe - heel) * σ

/-- Every face of the cell meets the heel-toe line in a point of that line: for an entry point
on the line, the intersection of a face with the line through the entry point and the toe lies
on the heel-toe line. -/
def FacesOnLine (heel toe : Vector3d) (c : Cell) : Prop :=
  ∀ f ∈ c.faces, ∀ entry : Vector3d, OnLine heel toe entry →
    OnLine heel toe (f.intersection_with_line entry toe)

/-! ## What the segment loop stores -/

/-- The diagnostic scalar that the body of the segment loop of `compute_well_index` stores under
`name` for a segment of a cell (`none` for a name it does not store): the components of
`exit - entry`, the three projected lengths and the three directional well indices. -/
def stored_value (c : Cell) (seg : Segment) (name : String) : Option ℝ :=
  if name = "wz" then
    some (dir_well_index (projected_length c.zvec (seg.exit - seg.entry)) c.dx c.dy c.permx
      c.permy seg.radius)
  else if name = "wy" then
    some (dir_well_index (projected_length c.yvec (seg.exit - seg.entry)) c.dx c.dz c.permx
      c.permz seg.radius)
  else if name = "wx" then
    some (dir_well_index (projected_length c.xvec (seg.exit - seg.entry)) c.dy c.dz c.permy
      c.permz seg.radius)
  else if name = "Lz" then some (projected_length c.zvec (seg.exit - seg.entry))
  else if name = "Ly" then some (projected_length c.yvec (seg.exit - seg.entry))
  else if name = "Lx" then some (projected_length c.xvec (seg.exit - seg.entry))
  else if name = "z" then some (seg.exit - seg.entry).z
  else if name = "y" then some (seg.exit - seg.entry).y
  else if name = "x" then some (seg.exit - seg.entry).x
  else none

/-- The segment with entry point and exit point exchanged. -/
def Segment.reversed (seg : Segment) : Segment := ⟨seg.exit, seg.entry, seg.radius⟩

/-- A record of the box `[0,10]^3` (permeability 100) with two segments of radius `1/10`. -/
def equalRadiusRecord : IntersectedCell :=
  { cell := boxCell 0 ⟨0, 0, 0⟩ 10 10 10 100,
    segments := [⟨⟨0, 0, 0⟩, ⟨10, 0, 0⟩, 1 / 10⟩, ⟨⟨10, 5, 0⟩, ⟨0, 5, 5⟩, 1 / 10⟩],
    calculation_data := fun _ _ => none,
    well_index := none }

/-- A record of the box `[0,10]^3` (permeability 100) with one segment along the space
diagonal, of radius `1/10`. -/
def diagonalRecord : IntersectedCell :=
  { cell := boxCell 0 ⟨0, 0, 0⟩ 10 10 10 100,
    segments := [⟨⟨0, 0, 0⟩, ⟨5, 5, 5⟩, 1 / 10⟩],
    calculation_data := fun _ _ => none,
    well_index := none }

/-- The record `twoSegmentRecord` with entry and exit point of its second segment exchanged. -/
def reversedRecord : IntersectedCell :=
  { twoSegmentRecord with
    segments := twoSegmentRecord.segments.set 1
      (Segment.reversed ⟨⟨10, 5, 0⟩, ⟨0, 5, 5⟩, 1 / 5⟩) }

/-! ## The traversal with a log of its probe points -/

/-- The `while (true)` loop of `collect_intersected_cells` once more, returning next to its
outcome a ghost log with, for every iteration run, the exit point on entry of the iteration
and the probe point `move_exit_epsilon` that the iteration passes to the grid. -/
def traversal_loop_traced (grid : Grid) (bb_cells : List Int) (end_point : Vector3d)
    (wellbore_radius epsilon : ℝ) (last_cell : Cell) :
    Nat → Traversal → Vector3d → Except Err (Traversal × Nat) × List (Vector3d × Vector3d)
  | 0, _, _ => (.error .out_of_fuel, [])
  | fuel + 1, t, exit_point =>
    let move_exit_epsilon := exit_point * (1 - epsilon) + end_point * epsilon
    let new_cell := grid.GetCellEnvelopingPoint move_exit_epsilon bb_cells
    let found := IntersectedCell.GetIntersectedCellIndex t.cells new_cell
    let t1 : Traversal := { t with cells := found.1 }
    let intersected_cell_index := found.2
    match t1.cells[intersected_cell_index]? with
    | none => (.error .out_of_range, [(exit_point, move_exit_epsilon)])
    | some ic =>
      if ic.cell.global_index = last_cell.global_index then
        match add_segment_at t1 intersected_cell_index exit_point end_point wellbore_radius with
        | .error e => (.error e, [(exit_point, move_exit_epsilon)])
        | .ok t2 => (.ok (t2, intersected_cell_index), [(exit_point, move_exit_epsilon)])
      else
        let entry_point := exit_point
        match find_exit_point t1.cells intersected_cell_index entry_point end_point
            exit_point with
        | .error e => (.error e, [(exit_point, move_exit_epsilon)])
        | .ok new_exit_point =>
          match add_segment_at t1 intersected_cell_index entry_point new_exit_point
              wellbore_radius with
          | .error e => (.error e, [(exit_point, move_exit_epsilon)])
          | .ok t2 =>
            if t2.cells.length < 500 then
              ((traversal_loop_traced grid bb_cells end_point wellbore_radius epsilon last_cell
                  fuel t2 new_exit_point).1,
                (exit_point, move_exit_epsilon) ::
                  (traversal_loop_traced grid bb_cells end_point wellbore_radius epsilon
                    last_cell fuel t2 new_exit_point).2)
            else (.error .traversal_overflow, [(exit_point, move_exit_epsilon)])

/-- `collect_intersected_cells` once more, returning next to its outcome the first exit point
(the one `epsilon` is computed from, `none` when the function returns before that) and the
probe log of the loop. -/
def collect_intersected_cells_traced (grid : Grid) (fuel : Nat) (t : Traversal)
    (start_point end_point : Vector3d) (wellbore_radius : ℝ) :
    Except Err Traversal × Option Vector3d × List (Vector3d × Vector3d) :=
  let box := search_box start_point end_point
  let bb_cells : List Int :=
    if (1 : Int) < 0 then
      grid.GetBoundingBoxCellIndices box.1 box.2.1 box.2.2.1 box.2.2.2.1 box.2.2.2.2.1
        box.2.2.2.2.2
    else []
  let first_cell := grid.GetCellEnvelopingPoint start_point bb_cells
  let found := IntersectedCell.GetIntersectedCellIndex t.cells first_cell
  let t1 : Traversal := { t with cells := found.1 }
  let intersected_cell_index := found.2
  let last_cell := grid.GetCellEnvelopingPoint end_point bb_cells
  if last_cell.global_index = first_cell.global_index then
    (add_segment_at t1 intersected_cell_index start_point end_point wellbore_radius, none, [])
  else
    match find_exit_point t1.cells intersected_cell_index start_point end_point
        start_point with
    | .error e => (.error e, none, [])
    | .ok first_try =>
      let retried : Except Err Vector3d :=
        if (end_point - start_point).dot (first_try - start_point) ≤ 0 then
          find_exit_point t1.cells intersected_cell_index start_point end_point first_try
        else .ok first_try
      match retried with
      | .error e => (.error e, none, [])
      | .ok exit_point =>
        match add_segment_at t1 intersected_cell_index start_point exit_point
            wellbore_radius with
        | .error e => (.error e, some exit_point, [])
        | .ok t2 =>
          let epsilon := 0.01 / (end_point - exit_point).norm
          let looped := traversal_loop_traced grid bb_cells end_point wellbore_radius epsilon
            last_cell fuel t2 exit_point
          (match looped.1 with
            | .error e => .error e
            | .ok (t3, last_index) =>
              match t3.cells[last_index]? with
              | none => .error .out_of_range
              | some ic =>
                if ic.cell.global_index = last_cell.global_index then .ok t3
                else .error .postcondition_failed,
            some exit_point, looped.2)

/-- Two boxes of side 10 along the x axis, `[0,10]^3` with index 0 and
`[10,20] x [0,10] x [0,10]` with index 1; a point of the shared face `x = 10` is resolved to
the box with index 1. -/
def faceGrid : Grid :=
  { GetCellEnvelopingPoint := fun p _ =>
      if p.x < 10 then boxCell 0 ⟨0, 0, 0⟩ 10 10 10 100 else boxCell 1 ⟨10, 0, 0⟩ 10 10 10 100,
    GetBoundingBoxCellIndices := fun _ _ _ _ _ _ => [] }

/-- Heel of the path along the x axis through `threeCellGrid`. -/
def rowHeel : Vector3d := ⟨0, 0, 0⟩

/-- Toe of the path along the x axis through `threeCellGrid`. -/
def rowToe : Vector3d := ⟨30, 0, 0⟩

/-- Exit point of the first cell of `threeCellGrid` on the path from `rowHeel` to `rowToe`. -/
def rowExit1 : Vector3d := ⟨10, 0, 0⟩

/-- Exit point of the second cell of `threeCellGrid` on the path from `rowHeel` to `rowToe`. -/
def rowExit2 : Vector3d := ⟨20, 0, 0⟩

/-- The probe fraction `0.01 / norm(toe - exit)` of the traversal from `rowHeel` to `rowToe`,
whose first exit point is `rowExit1`. -/
def rowEps : ℝ := 0.01 / 20

/-- A heel in the middle of the first box of `faceGrid`. -/
def faceHeel : Vector3d := ⟨5, 5, 5⟩

/-- A toe on the face `x = 10` that the two boxes of `faceGrid` share. -/
def faceToe : Vector3d := ⟨10, 5, 5⟩

/-- Where the line from `faceHeel` to `faceToe` meets the plane `x = 0`, behind the heel. -/
def faceBack : Vector3d := ⟨0, 5, 5⟩

/-! ## The well index with the domain of every operation checked -/

/-- What a `double` operation yields when its result is not a real number. `nan` is the IEEE
754 NaN, which every later `+`, `*`, `/`, `sqrt` and `log` hands on, so a computation that
ends in `nan` stores NaN. `unbounded` says that an infinity arose; the value is not followed
beyond that point and nothing is said about what is stored. -/
inductive Special where
  | nan
  | unbounded
  deriving DecidableEq, Repr

/-- `a / b` on doubles: `0 / 0` is NaN, any other division by zero is an infinity. -/
def checked_div (a b : ℝ) : Except Special ℝ :=
  if b = 0 then (if a = 0 then .error .nan else .error .unbounded) else .ok (a / b)

/-- `sqrt(a)` on doubles: NaN for a negative argument. -/
def checked_sqrt (a : ℝ) : Except Special ℝ :=
  if a < 0 then .error .nan else .ok (Real.sqrt a)

/-- `log(a)` on doubles: NaN for a negative argument, minus infinity at zero. -/
def checked_log (a : ℝ) : Except Special ℝ :=
  if a < 0 then .error .nan else if a = 0 then .error .unbounded else .ok (Real.log a)

/-- `WellIndexCalculator::dir_wellblock_radius`, every operation checked. -/
def dir_wellblock_radius_checked (dx dy kx ky : ℝ) : Except Special ℝ := do
  let ky_kx ← checked_div ky kx
  let root_ky_kx ← checked_sqrt ky_kx
  let kx_ky ← checked_div kx ky
  let root_kx_ky ← checked_sqrt kx_ky
  let numerator ← checked_sqrt ((dx * dx) * root_ky_kx + (dy * dy) * root_kx_ky)
  let fourth_kx_ky ← checked_sqrt root_kx_ky
  let fourth_ky_kx ← checked_sqrt root_ky_kx
  checked_div (0.28 * numerator) (fourth_kx_ky + fourth_ky_kx)

/-- `WellIndexCalculator::dir_well_index`, every operation checked. -/
def dir_well_index_checked (Lx dy dz ky kz wellbore_radius : ℝ) : Except Special ℝ := do
  let silly_eclipse_factor : ℝ := 0.008527
  let root ← checked_sqrt (ky * kz)
  let r_eq ← dir_wellblock_radius_checked dy dz ky kz
  let ratio ← checked_div r_eq wellbore_radius
  let logarithm ← checked_log ratio
  checked_div (silly_eclipse_factor * (2 * Real.pi * root * Lx)) logarithm

/-- The projected length `(axis * axis.dot(current_vec) / axis.dot(axis)).norm()`, every
operation checked: the division is done on each coordinate. -/
def projected_length_checked (axis current_vec : Vector3d) : Except Special ℝ := do
  let scaled := axis * axis.dot current_vec
  let px ← checked_div scaled.x (axis.dot axis)
  let py ← checked_div scaled.y (axis.dot axis)
  let pz ← checked_div scaled.z (axis.dot axis)
  checked_sqrt (px * px + py * py + pz * pz)

/-- The body of the segment loop of `compute_well_index`, every operation checked: the three
running sums after the segment `seg` of a record of the cell `c`. -/
def segment_step_checked (c : Cell) (acc : ℝ × ℝ × ℝ) (seg : Segment) :
    Except Special (ℝ × ℝ × ℝ) := do
  let current_vec := seg.exit - seg.entry
  let current_Lx ← projected_length_checked c.xvec current_vec
  let current_Ly ← projected_length_checked c.yvec current_vec
  let current_Lz ← projected_length_checked c.zvec current_vec
  let current_wx ← dir_well_index_checked current_Lx c.dy c.dz c.permy c.permz seg.radius
  let current_wy ← dir_well_index_checked current_Ly c.dx c.dz c.permx c.permz seg.radius
  let current_wz ← dir_well_index_checked current_Lz c.dx c.dy c.permx c.permy seg.radius
  pure (acc.1 + current_wx, acc.2.1 + current_wy, acc.2.2 + current_wz)

/-- The segment loop of `compute_well_index`, every operation checked. -/
def segment_loop_checked (c : Cell) : ℝ × ℝ × ℝ → List Segment → Except Special (ℝ × ℝ × ℝ)
  | acc, [] => .ok acc
  | acc, seg :: segs =>
    match segment_step_checked c acc seg with
    | .error e => .error e
    | .ok acc1 => segment_loop_checked c acc1 segs

/-- The value that `compute_well_index` hands to `set_cell_well_index` for the record `icell`,
every operation checked. -/
def compute_well_index_checked (icell : IntersectedCell) : Except Special ℝ :=
  match segment_loop_checked icell.cell (0, 0, 0) icell.segments with
  | .error e => .error e
  | .ok sums => checked_sqrt (sums.1 * sums.1 + sums.2.1 * sums.2.1 + sums.2.2 * sums.2.2)

/-- A record of the box `[0,10]^3` (permeability 100) with one segment along the x axis whose
radius is negative. -/
def negativeRadiusRecord : IntersectedCell :=
  { cell := boxCell 0 ⟨0, 0, 0⟩ 10 10 10 100,
    segments := [⟨⟨0, 0, 0⟩, ⟨10, 0, 0⟩, -(1 / 10)⟩],
    calculation_data := fun _ _ => none,
    well_index := none }

/-- A record of the box `[0,10]^3` (permeability 100) with two segments: the first, along the
x axis, has a radius below the equivalent radius of the box (`0.14 * sqrt 200`, about 1.98),
the second, along the y axis, a radius above it. -/
def mixedSignRecord : IntersectedCell :=
  { cell := boxCell 0 ⟨0, 0, 0⟩ 10 10 10 100,
    segments := [⟨⟨0, 0, 0⟩, ⟨10, 0, 0⟩, 1 / 10⟩, ⟨⟨10, 0, 0⟩, ⟨10, 10, 0⟩, 5⟩],
    calculation_data := fun _ _ => none,
    well_index := none }

/-! ## Basic facts -/

namespace Vector3d

@[simp] theorem add_x (a b : Vector3d) : (a + b).x = a.x + b.x := rfl
@[simp] theorem add_y (a b : Vector3d) : (a + b).y = a.y + b.y := rfl
@[simp] theorem add_z (a b : Vector3d) : (a + b).z = a.z + b.z := rfl
@[simp] theorem sub_x (a b : Vector3d) : (a - b).x = a.x - b.x := rfl
@[simp] theorem sub_y (a b : Vector3d) : (a - b).y = a.y - b.y := rfl
@[simp] theorem sub_z (a b : Vector3d) : (a - b).z = a.z - b.z := rfl
@[simp] theorem scale_x (a : Vector3d) (s : ℝ) : (a * s).x = a.x * s := rfl
@[simp] theorem scale_y (a : Vector3d) (s : ℝ) : (a * s).y = a.y * s := rfl
@[simp] theorem scale_z (a : Vector3d) (s : ℝ) : (a * s).z = a.z * s := rfl
@[simp] theorem sdiv_x (a : Vector3d) (s : ℝ) : (a / s).x = a.x / s := rfl
@[simp] theorem sdiv_y (a : Vector3d) (s : ℝ) : (a / s).y = a.y / s := rfl
@[simp] theorem sdiv_z (a : Vector3d) (s : ℝ) : (a / s).z = a.z / s := rfl

@[simp] theorem mk_add_mk (a b c d e f : ℝ) :
    (⟨a, b, c⟩ : Vector3d) + ⟨d, e, f⟩ = ⟨a + d, b + e, c + f⟩ := rfl
@[simp] theorem mk_sub_mk (a b c d e f : ℝ) :
    (⟨a, b, c⟩ : Vector3d) - ⟨d, e, f⟩ = ⟨a - d, b - e, c - f⟩ := rfl
@[simp] theorem mk_scale (a b c s : ℝ) : (⟨a, b, c⟩ : Vector3d) * s = ⟨a * s, b * s, c * s⟩ := rfl
@[simp] theorem mk_sdiv (a b c s : ℝ) : (⟨a, b, c⟩ : Vector3d) / s = ⟨a / s, b / s, c / s⟩ := rfl
@[simp] theorem mk_dot_mk (a b c d e f : ℝ) :
    (⟨a, b, c⟩ : Vector3d).dot ⟨d, e, f⟩ = a * d + b * e + c * f := rfl

theorem norm_nonneg (v : Vector3d) : 0 ≤ v.norm := Real.sqrt_nonneg _

theorem lt_norm_iff {c : ℝ} (hc : 0 ≤ c) (v : Vector3d) : c < v.norm ↔ c ^ 2 < v.dot v :=
  Real.lt_sqrt hc

theorem dot_self_nonneg (v : Vector3d) : 0 ≤ v.dot v := by
  unfold dot; nlinarith [mul_self_nonneg v.x, mul_self_nonneg v.y, mul_self_nonneg v.z]

end Vector3d

theorem GetIntersectedCellIndex_nil (c : Cell) :
    IntersectedCell.GetIntersectedCellIndex [] c = ([IntersectedCell.ofCell c], 0) := by
  simp [IntersectedCell.GetIntersectedCellIndex]

/-- The segment loop never touches the segments or the cell of the record. -/
theorem segment_loop_icell (segs : List Segment) :
    ∀ (acc : WellIndexSums) (i : Nat),
      (segment_loop acc i segs).icell.segments = acc.icell.segments
        ∧ (segment_loop acc i segs).icell.cell = acc.icell.cell := by
  induction segs with
  | nil => intro acc i; simp [segment_loop]
  | cons s rest ih =>
    intro acc i
    have h := ih (segment_step acc i s) (i + 1)
    simp only [segment_loop]
    rw [h.1, h.2]
    simp [segment_step, IntersectedCell.set_segment_calculation_data]

theorem compute_cell_well_index_segments (ic : IntersectedCell) :
    (compute_cell_well_index ic).segments = ic.segments := by
  simp [compute_cell_well_index, IntersectedCell.set_cell_well_index,
    (segment_loop_icell ic.segments ⟨0, 0, 0, ic⟩ 0).1]

theorem compute_cell_well_index_cell (ic : IntersectedCell) :
    (compute_cell_well_index ic).cell = ic.cell := by
  simp [compute_cell_well_index, IntersectedCell.set_cell_well_index,
    (segment_loop_icell ic.segments ⟨0, 0, 0, ic⟩ 0).2]

/-- When heel and toe resolve to cells of one global index, the run is the early return of
`collect_intersected_cells` followed by one call of `compute_well_index`. -/
theorem ComputeWellBlocks_same_cell (grid : Grid) (fuel : Nat) (heel toe : Vector3d) (r : ℝ)
    (h : (grid.GetCellEnvelopingPoint toe []).global_index
      = (grid.GetCellEnvelopingPoint heel []).global_index) :
    ComputeWellBlocks grid fuel heel toe r
      = .ok [compute_cell_well_index
          ((IntersectedCell.ofCell (grid.GetCellEnvelopingPoint heel [])).add_new_segment
            heel toe r)] := by
  simp [ComputeWellBlocks, collect_intersected_cells, h, GetIntersectedCellIndex_nil,
    add_segment_at, well_index_loop, compute_well_index]

/-! ## C1: a path inside one cell -/

/-- C1: when the grid resolves heel and toe to cells with the same global index,
`ComputeWellBlocks` returns exactly one record, for the heel's cell, and that record holds
exactly one segment, from heel to toe with the given radius. This holds for every fuel, zero
included, so no iteration of the exit-point loop is run. -/
theorem ComputeWellBlocks_single_cell (grid : Grid) (fuel : Nat) (heel toe : Vector3d)
    (wellbore_radius : ℝ)
    (h : (grid.GetCellEnvelopingPoint toe []).global_index
      = (grid.GetCellEnvelopingPoint heel []).global_index) :
    ∃ ic : IntersectedCell,
      ComputeWellBlocks grid fuel heel toe wellbore_radius = .ok [ic]
        ∧ ic.cell = grid.GetCellEnvelopingPoint heel []
        ∧ ic.segments = [⟨heel, toe, wellbore_radius⟩] := by
  refine ⟨_, ComputeWellBlocks_same_cell grid fuel heel toe wellbore_radius h, ?_, ?_⟩
  · rw [compute_cell_well_index_cell]; rfl
  · rw [compute_cell_well_index_segments]; rfl

/-- Witness for C1: a path inside the single box of `oneCellGrid`. -/
theorem ComputeWellBlocks_single_cell_witness :
    ∃ ic : IntersectedCell,
      ComputeWellBlocks oneCellGrid 0 ⟨1, 2, 3⟩ ⟨4, 5, 6⟩ (1 / 10) = .ok [ic]
        ∧ ic.cell = oneCellGrid.GetCellEnvelopingPoint ⟨1, 2, 3⟩ []
        ∧ ic.segments = [⟨⟨1, 2, 3⟩, ⟨4, 5, 6⟩, 1 / 10⟩] :=
  ComputeWellBlocks_single_cell oneCellGrid 0 ⟨1, 2, 3⟩ ⟨4, 5, 6⟩ (1 / 10) rfl

/-! ## C2: the well index formula -/

/-- The fourth root of the specification is the double square root of the code on
non-negative arguments. -/
theorem sqrt_sqrt_eq_rpow {x : ℝ} (hx : 0 ≤ x) : Real.sqrt (Real.sqrt x) = x ^ (1 / 4 : ℝ) := by
  rw [Real.sqrt_eq_rpow, Real.sqrt_eq_rpow, ← Real.rpow_mul hx]
  norm_num

theorem dir_wellblock_radius_eq_spec (d1 d2 k1 k2 : ℝ) (h1 : 0 ≤ k1) (h2 : 0 ≤ k2) :
    dir_wellblock_radius d1 d2 k1 k2 = spec_r_eq d1 d2 k1 k2 := by
  unfold dir_wellblock_radius spec_r_eq
  rw [sqrt_sqrt_eq_rpow (div_nonneg h1 h2), sqrt_sqrt_eq_rpow (div_nonneg h2 h1), sq, sq]

theorem dir_well_index_eq_spec (L d1 d2 k1 k2 r : ℝ) (h1 : 0 ≤ k1) (h2 : 0 ≤ k2) :
    dir_well_index L d1 d2 k1 k2 r = spec_dir L d1 d2 k1 k2 r := by
  unfold dir_well_index spec_dir
  rw [dir_wellblock_radius_eq_spec d1 d2 k1 k2 h1 h2]
  ring

/-- The three running sums after the segment loop: the sums on entry plus the contributions of
the segments, each computed with the segment's own radius. -/
theorem segment_loop_sums (segs : List Segment) :
    ∀ (acc : WellIndexSums) (i : Nat),
      (segment_loop acc i segs).well_index_x = acc.well_index_x +
          (segs.map (fun s => dir_well_index
            (projected_length acc.icell.cell.xvec (s.exit - s.entry))
            acc.icell.cell.dy acc.icell.cell.dz acc.icell.cell.permy acc.icell.cell.permz
            s.radius)).sum
      ∧ (segment_loop acc i segs).well_index_y = acc.well_index_y +
          (segs.map (fun s => dir_well_index
            (projected_length acc.icell.cell.yvec (s.exit - s.entry))
            acc.icell.cell.dx acc.icell.cell.dz acc.icell.cell.permx acc.icell.cell.permz
            s.radius)).sum
      ∧ (segment_loop acc i segs).well_index_z = acc.well_index_z +
          (segs.map (fun s => dir_well_index
            (projected_length acc.icell.cell.zvec (s.exit - s.entry))
            acc.icell.cell.dx acc.icell.cell.dy acc.icell.cell.permx acc.icell.cell.permy
            s.radius)).sum := by
  induction segs with
  | nil => intro acc i; simp [segment_loop]
  | cons s rest ih =>
    intro acc i
    have h := ih (segment_step acc i s) (i + 1)
    have hc : (segment_step acc i s).icell.cell = acc.icell.cell := by
      simp [segment_step, IntersectedCell.set_segment_calculation_data]
    simp only [segment_loop, List.map_cons, List.sum_cons]
    rw [h.1, h.2.1, h.2.2, hc]
    refine ⟨?_, ?_, ?_⟩ <;> simp [segment_step, add_assoc]

/-- The value `compute_well_index` passes to `set_cell_well_index`. -/
theorem compute_cell_well_index_value (ic : IntersectedCell) :
    (compute_cell_well_index ic).well_index = some (Real.sqrt (
      (segment_loop ⟨0, 0, 0, ic⟩ 0 ic.segments).well_index_x
          * (segment_loop ⟨0, 0, 0, ic⟩ 0 ic.segments).well_index_x
        + (segment_loop ⟨0, 0, 0, ic⟩ 0 ic.segments).well_index_y
          * (segment_loop ⟨0, 0, 0, ic⟩ 0 ic.segments).well_index_y
        + (segment_loop ⟨0, 0, 0, ic⟩ 0 ic.segments).well_index_z
          * (segment_loop ⟨0, 0, 0, ic⟩ 0 ic.segments).well_index_z)) := by
  simp [compute_cell_well_index, IntersectedCell.set_cell_well_index]

/-- C2: for a record with any number of segments (and non-negative permeabilities, where the
fourth roots of the specification's formula are defined), `compute_well_index` succeeds on an
index in range and stores `well_index = sqrt(Wx^2 + Wy^2 + Wz^2)`, with `Wx`, `Wy`, `Wz` the
sums over the segments of the specification's `dir` formula applied to the projected lengths
with each segment's own radius. -/
theorem compute_well_index_formula (cells : List IntersectedCell) (cell_index : Nat)
    (ic : IntersectedCell) (hic : cells[cell_index]? = some ic)
    (hx : 0 ≤ ic.cell.permx) (hy : 0 ≤ ic.cell.permy) (hz : 0 ≤ ic.cell.permz) :
    ∃ ic1 : IntersectedCell,
      compute_well_index cells cell_index = .ok (cells.set cell_index ic1)
        ∧ ic1.segments = ic.segments
        ∧ ic1.well_index
          = some (Real.sqrt (spec_Wx ic ^ 2 + spec_Wy ic ^ 2 + spec_Wz ic ^ 2)) := by
  refine ⟨compute_cell_well_index ic, by simp [compute_well_index, hic],
    compute_cell_well_index_segments ic, ?_⟩
  rw [compute_cell_well_index_value]
  obtain ⟨h1, h2, h3⟩ := segment_loop_sums ic.segments ⟨0, 0, 0, ic⟩ 0
  rw [h1, h2, h3]
  simp only [zero_add, spec_Wx, spec_Wy, spec_Wz, dir_well_index_eq_spec _ _ _ _ _ _ hx hy,
    dir_well_index_eq_spec _ _ _ _ _ _ hx hz, dir_well_index_eq_spec _ _ _ _ _ _ hy hz, sq]

/-- Witness for C2: the record with two segments of different radii. -/
theorem compute_well_index_formula_witness :
    ∃ ic1 : IntersectedCell,
      compute_well_index [twoSegmentRecord] 0 = .ok ([twoSegmentRecord].set 0 ic1)
        ∧ ic1.segments = twoSegmentRecord.segments
        ∧ ic1.well_index = some (Real.sqrt (spec_Wx twoSegmentRecord ^ 2
            + spec_Wy twoSegmentRecord ^ 2 + spec_Wz twoSegmentRecord ^ 2)) :=
  compute_well_index_formula [twoSegmentRecord] 0 twoSegmentRecord rfl
    (by norm_num [twoSegmentRecord, boxCell]) (by norm_num [twoSegmentRecord, boxCell])
    (by norm_num [twoSegmentRecord, boxCell])

/-! ## C6: degenerate input -/

/-- C6 fails on the code: with heel equal to toe and a negative radius, `ComputeWellBlocks`
raises no error; it returns one record holding the zero-length segment with that radius. -/
theorem ComputeWellBlocks_degenerate_accepted :
    ∃ ic : IntersectedCell,
      ComputeWellBlocks oneCellGrid 0 ⟨1, 2, 3⟩ ⟨1, 2, 3⟩ (-1) = .ok [ic]
        ∧ ic.segments = [⟨⟨1, 2, 3⟩, ⟨1, 2, 3⟩, -1⟩] :=
  ⟨_, ComputeWellBlocks_same_cell oneCellGrid 0 ⟨1, 2, 3⟩ ⟨1, 2, 3⟩ (-1) rfl,
    by rw [compute_cell_well_index_segments]; rfl⟩

/-- C6 as amended: `ComputeWellBlocks` has no degenerate-input check. With heel equal to toe
and any radius (zero and negative included) it looks the heel up in the grid and returns one
record, for the heel's cell, holding the single segment from heel to heel with that radius. -/
theorem ComputeWellBlocks_zero_length (grid : Grid) (fuel : Nat) (heel : Vector3d)
    (wellbore_radius : ℝ) :
    ∃ ic : IntersectedCell,
      ComputeWellBlocks grid fuel heel heel wellbore_radius = .ok [ic]
        ∧ ic.cell = grid.GetCellEnvelopingPoint heel []
        ∧ ic.segments = [⟨heel, heel, wellbore_radius⟩] := by
  refine ⟨_, ComputeWellBlocks_same_cell grid fuel heel heel wellbore_radius rfl, ?_, ?_⟩
  · rw [compute_cell_well_index_cell]; rfl
  · rw [compute_cell_well_index_segments]; rfl

/-! ## C9 and C10: the exit point solver -/

/-- The face loop of `find_exit_point`, characterised: either it returns the intersection point
of the first face of `rest` that is not parallel to the line and whose intersection point is
accepted, or no face of `rest` qualifies and it runs to its end. -/
theorem find_exit_loop_first (all_faces : List Face) (entry_point end_point exception_point :
    Vector3d) (rest : List Face) :
    (∃ (pre : List Face) (face : Face) (post : List Face),
        rest = pre ++ face :: post
        ∧ (∀ g ∈ pre, g.normal_vector.dot (end_point - entry_point) = 0
            ∨ accept_point all_faces entry_point end_point exception_point
                (g.intersection_with_line entry_point end_point) = false)
        ∧ face.normal_vector.dot (end_point - entry_point) ≠ 0
        ∧ accept_point all_faces entry_point end_point exception_point
            (face.intersection_with_line entry_point end_point) = true
        ∧ find_exit_loop all_faces entry_point end_point exception_point rest
            = some (face.intersection_with_line entry_point end_point))
    ∨ ((∀ g ∈ rest, g.normal_vector.dot (end_point - entry_point) = 0
            ∨ accept_point all_faces entry_point end_point exception_point
                (g.intersection_with_line entry_point end_point) = false)
        ∧ find_exit_loop all_faces entry_point end_point exception_point rest = none) := by
  induction rest with
  | nil => right; simp [find_exit_loop]
  | cons f rest ih =>
    by_cases hpar : f.normal_vector.dot (end_point - entry_point) = 0
    · rcases ih with ⟨pre, face, post, hsplit, hpre, hnp, hacc, hres⟩ | ⟨hall, hres⟩
      · left
        refine ⟨f :: pre, face, post, by simp [hsplit], ?_, hnp, hacc, ?_⟩
        · intro g hg
          rcases List.mem_cons.1 hg with rfl | hg
          · exact Or.inl hpar
          · exact hpre g hg
        · simp [find_exit_loop, hpar, hres]
      · right
        refine ⟨?_, by simp [find_exit_loop, hpar, hres]⟩
        intro g hg
        rcases List.mem_cons.1 hg with rfl | hg
        · exact Or.inl hpar
        · exact hall g hg
    · by_cases hacc : accept_point all_faces entry_point end_point exception_point
          (f.intersection_with_line entry_point end_point) = true
      · left
        exact ⟨[], f, rest, rfl, by simp, hpar, hacc, by simp [find_exit_loop, hpar, hacc]⟩
      · have hrej : accept_point all_faces entry_point end_point exception_point
            (f.intersection_with_line entry_point end_point) = false := by
          simpa using hacc
        rcases ih with ⟨pre, face, post, hsplit, hpre, hnp, hacc1, hres⟩ | ⟨hall, hres⟩
        · left
          refine ⟨f :: pre, face, post, by simp [hsplit], ?_, hnp, hacc1, ?_⟩
          · intro g hg
            rcases List.mem_cons.1 hg with rfl | hg
            · exact Or.inr hrej
            · exact hpre g hg
          · simp [find_exit_loop, hpar, hrej, hres]
        · right
          refine ⟨?_, by simp [find_exit_loop, hpar, hrej, hres]⟩
          intro g hg
          rcases List.mem_cons.1 hg with rfl | hg
          · exact Or.inr hrej
          · exact hall g hg

/-- The face loop does not look at the intersection operation of a face that is parallel to
the line: replacing it leaves the result unchanged. -/
theorem find_exit_loop_parallel_irrelevant (all_faces : List Face)
    (entry_point end_point exception_point : Vector3d) (other : Face → Face)
    (hother : ∀ f : Face, (other f).normal_vector = f.normal_vector
      ∧ (other f).point_on_same_side = f.point_on_same_side
      ∧ (f.normal_vector.dot (end_point - entry_point) ≠ 0 →
          (other f).intersection_with_line = f.intersection_with_line))
    (rest : List Face) :
    find_exit_loop (all_faces.map other) entry_point end_point exception_point (rest.map other)
      = find_exit_loop all_faces entry_point end_point exception_point rest := by
  have hacc : ∀ p : Vector3d,
      accept_point (all_faces.map other) entry_point end_point exception_point p
        = accept_point all_faces entry_point end_point exception_point p := by
    intro p
    simp [accept_point, List.all_map, Function.comp_def, (hother _).2.1]
  induction rest with
  | nil => simp [find_exit_loop]
  | cons f rest ih =>
    by_cases hpar : f.normal_vector.dot (end_point - entry_point) = 0
    · simp [find_exit_loop, (hother f).1, hpar, ih]
    · simp [find_exit_loop, (hother f).1, hpar, ih, (hother f).2.2 hpar, hacc]

/-- C9: for every cell record, entry point, end point and exception point, `find_exit_point`
returns the line/plane intersection point of the first face, in the cell's face order, that is
not parallel to the line and whose intersection point passes the acceptance test; when no face
qualifies the result is exactly the entry point; and a face parallel to the line is never
intersected, in that replacing the intersection operation of the parallel faces by any other
leaves the result unchanged. -/
theorem find_exit_point_first_face (cells : List IntersectedCell) (cell_index : Nat)
    (ic : IntersectedCell) (hic : cells[cell_index]? = some ic)
    (entry_point end_point exception_point : Vector3d) :
    ((∃ (pre : List Face) (face : Face) (post : List Face),
        ic.cell.faces = pre ++ face :: post
        ∧ (∀ g ∈ pre, g.normal_vector.dot (end_point - entry_point) = 0
            ∨ accept_point ic.cell.faces entry_point end_point exception_point
                (g.intersection_with_line entry_point end_point) = false)
        ∧ face.normal_vector.dot (end_point - entry_point) ≠ 0
        ∧ accept_point ic.cell.faces entry_point end_point exception_point
            (face.intersection_with_line entry_point end_point) = true
        ∧ find_exit_point cells cell_index entry_point end_point exception_point
            = .ok (face.intersection_with_line entry_point end_point))
      ∨ ((∀ g ∈ ic.cell.faces, g.normal_vector.dot (end_point - entry_point) = 0
            ∨ accept_point ic.cell.faces entry_point end_point exception_point
                (g.intersection_with_line entry_point end_point) = false)
          ∧ find_exit_point cells cell_index entry_point end_point exception_point
            = .ok entry_point))
    ∧ ∀ other : Face → Face,
        (∀ f : Face, (other f).normal_vector = f.normal_vector
          ∧ (other f).point_on_same_side = f.point_on_same_side
          ∧ (f.normal_vector.dot (end_point - entry_point) ≠ 0 →
              (other f).intersection_with_line = f.intersection_with_line)) →
        find_exit_point
            (cells.set cell_index
              { ic with cell := { ic.cell with faces := ic.cell.faces.map other } })
            cell_index entry_point end_point exception_point
          = find_exit_point cells cell_index entry_point end_point exception_point := by
  constructor
  · rcases find_exit_loop_first ic.cell.faces entry_point end_point exception_point
        ic.cell.faces with ⟨pre, face, post, hsplit, hpre, hnp, hacc, hres⟩ | ⟨hall, hres⟩
    · left
      exact ⟨pre, face, post, hsplit, hpre, hnp, hacc, by simp [find_exit_point, hic, hres]⟩
    · right
      exact ⟨hall, by simp [find_exit_point, hic, hres]⟩
  · intro other hother
    have hlt : cell_index < cells.length := by
      rcases List.getElem?_eq_some_iff.1 hic with ⟨h, _⟩
      exact h
    simp [find_exit_point, hic, List.getElem?_set, hlt,
      find_exit_loop_parallel_irrelevant ic.cell.faces entry_point end_point exception_point
        other hother]

/-- C10 on the code: in the box `[0,10]^3` with entry point `(5,5,5)`, end point `(15,5,5)`
and the entry point as exception point (the first call made for a heel `(5,5,5)` and a toe
`(15,5,5)`), the face loop accepts the intersection with the face `x = 0` and
`find_exit_point` returns it, although it lies behind the entry point:
`(end_point - entry_point) . (candidate - entry_point) < 0`. The source comment asks for a point
"going in the correct direction"; the test compares with `end_point - intersect_point`
instead. -/
theorem find_exit_point_behind_entry :
    find_exit_loop (boxCell 0 ⟨0, 0, 0⟩ 10 10 10 100).faces ⟨5, 5, 5⟩ ⟨15, 5, 5⟩ ⟨5, 5, 5⟩
        (boxCell 0 ⟨0, 0, 0⟩ 10 10 10 100).faces = some ⟨0, 5, 5⟩
      ∧ find_exit_point [IntersectedCell.ofCell (boxCell 0 ⟨0, 0, 0⟩ 10 10 10 100)] 0
          ⟨5, 5, 5⟩ ⟨15, 5, 5⟩ ⟨5, 5, 5⟩ = .ok ⟨0, 5, 5⟩
      ∧ ((⟨15, 5, 5⟩ : Vector3d) - ⟨5, 5, 5⟩).dot ((⟨0, 5, 5⟩ : Vector3d) - ⟨5, 5, 5⟩) < 0 := by
  have h : find_exit_loop (boxCell 0 ⟨0, 0, 0⟩ 10 10 10 100).faces ⟨5, 5, 5⟩ ⟨15, 5, 5⟩
      ⟨5, 5, 5⟩ (boxCell 0 ⟨0, 0, 0⟩ 10 10 10 100).faces = some ⟨0, 5, 5⟩ := by
    norm_num [boxCell, find_exit_loop, planeFace, accept_point, Vector3d.norm, Real.lt_sqrt]
  refine ⟨h, ?_, by norm_num⟩
  simp only [find_exit_point, IntersectedCell.ofCell, List.getElem?_cons_zero, h]

/-- What the direction test of `find_exit_point` does establish: a point returned from a face
intersection (an accepted candidate of the face loop) does not lie beyond the end point,
`(end_point - entry_point) . (end_point - candidate) >= 0`. It says nothing about the side of
the entry point. -/
theorem find_exit_point_not_beyond_end (cells : List IntersectedCell) (cell_index : Nat)
    (ic : IntersectedCell) (hic : cells[cell_index]? = some ic)
    (entry_point end_point exception_point candidate : Vector3d)
    (h : find_exit_loop ic.cell.faces entry_point end_point exception_point ic.cell.faces
      = some candidate) :
    find_exit_point cells cell_index entry_point end_point exception_point = .ok candidate
      ∧ (end_point - entry_point).dot (end_point - candidate) ≥ 0 := by
  refine ⟨by simp [find_exit_point, hic, h], ?_⟩
  rcases find_exit_loop_first ic.cell.faces entry_point end_point exception_point
      ic.cell.faces with ⟨pre, face, post, _, _, _, hacc, hres⟩ | ⟨_, hres⟩
  · rw [hres] at h
    have hc : face.intersection_with_line entry_point end_point = candidate := by
      simpa using h
    rw [hc] at hacc
    simp only [accept_point, Bool.and_eq_true, decide_eq_true_eq] at hacc
    exact hacc.2
  · rw [hres] at h
    cases h

/-- An instance of `find_exit_point_not_beyond_end`: the accepted candidate `(0,5,5)` of the
box `[0,10]^3`. -/
theorem find_exit_point_not_beyond_end_witness :
    find_exit_point [IntersectedCell.ofCell (boxCell 0 ⟨0, 0, 0⟩ 10 10 10 100)] 0
        ⟨5, 5, 5⟩ ⟨15, 5, 5⟩ ⟨5, 5, 5⟩ = .ok ⟨0, 5, 5⟩
      ∧ ((⟨15, 5, 5⟩ : Vector3d) - ⟨5, 5, 5⟩).dot ((⟨15, 5, 5⟩ : Vector3d) - ⟨0, 5, 5⟩) ≥ 0 :=
  find_exit_point_not_beyond_end [IntersectedCell.ofCell (boxCell 0 ⟨0, 0, 0⟩ 10 10 10 100)] 0
    (IntersectedCell.ofCell (boxCell 0 ⟨0, 0, 0⟩ 10 10 10 100)) rfl
    ⟨5, 5, 5⟩ ⟨15, 5, 5⟩ ⟨5, 5, 5⟩ ⟨0, 5, 5⟩
    (by norm_num [IntersectedCell.ofCell, boxCell, find_exit_loop, planeFace, accept_point,
      Vector3d.norm, Real.lt_sqrt])

/-- Witness for C9: the box `[0,10]^3` with the line from `(5,5,5)` to `(15,5,5)` and
exception point `(0,5,5)`. -/
theorem find_exit_point_first_face_witness :
    ((∃ (pre : List Face) (face : Face) (post : List Face),
        boxRecord.cell.faces = pre ++ face :: post
        ∧ (∀ g ∈ pre, g.normal_vector.dot ((⟨15, 5, 5⟩ : Vector3d) - ⟨5, 5, 5⟩) = 0
            ∨ accept_point boxRecord.cell.faces ⟨5, 5, 5⟩ ⟨15, 5, 5⟩ ⟨0, 5, 5⟩
                (g.intersection_with_line ⟨5, 5, 5⟩ ⟨15, 5, 5⟩) = false)
        ∧ face.normal_vector.dot ((⟨15, 5, 5⟩ : Vector3d) - ⟨5, 5, 5⟩) ≠ 0
        ∧ accept_point boxRecord.cell.faces ⟨5, 5, 5⟩ ⟨15, 5, 5⟩ ⟨0, 5, 5⟩
            (face.intersection_with_line ⟨5, 5, 5⟩ ⟨15, 5, 5⟩) = true
        ∧ find_exit_point [boxRecord] 0 ⟨5, 5, 5⟩ ⟨15, 5, 5⟩ ⟨0, 5, 5⟩
            = .ok (face.intersection_with_line ⟨5, 5, 5⟩ ⟨15, 5, 5⟩))
      ∨ ((∀ g ∈ boxRecord.cell.faces,
            g.normal_vector.dot ((⟨15, 5, 5⟩ : Vector3d) - ⟨5, 5, 5⟩) = 0
            ∨ accept_point boxRecord.cell.faces ⟨5, 5, 5⟩ ⟨15, 5, 5⟩ ⟨0, 5, 5⟩
                (g.intersection_with_line ⟨5, 5, 5⟩ ⟨15, 5, 5⟩) = false)
          ∧ find_exit_point [boxRecord] 0 ⟨5, 5, 5⟩ ⟨15, 5, 5⟩ ⟨0, 5, 5⟩ = .ok ⟨5, 5, 5⟩))
    ∧ ∀ other : Face → Face,
        (∀ f : Face, (other f).normal_vector = f.normal_vector
          ∧ (other f).point_on_same_side = f.point_on_same_side
          ∧ (f.normal_vector.dot ((⟨15, 5, 5⟩ : Vector3d) - ⟨5, 5, 5⟩) ≠ 0 →
              (other f).intersection_with_line = f.intersection_with_line)) →
        find_exit_point
            ([boxRecord].set 0
              { boxRecord with
                cell := { boxRecord.cell with faces := boxRecord.cell.faces.map other } })
            0 ⟨5, 5, 5⟩ ⟨15, 5, 5⟩ ⟨0, 5, 5⟩
          = find_exit_point [boxRecord] 0 ⟨5, 5, 5⟩ ⟨15, 5, 5⟩ ⟨0, 5, 5⟩ :=
  find_exit_point_first_face [boxRecord] 0 boxRecord rfl ⟨5, 5, 5⟩ ⟨15, 5, 5⟩ ⟨0, 5, 5⟩

/-! ## The traversal log (used by C3 and C4) -/

theorem GetIntersectedCellIndex_cases (cells : List IntersectedCell) (c : Cell) :
    (IntersectedCell.GetIntersectedCellIndex cells c).1 = cells
        ∧ (IntersectedCell.GetIntersectedCellIndex cells c).2 < cells.length
      ∨ (IntersectedCell.GetIntersectedCellIndex cells c).1
          = cells ++ [IntersectedCell.ofCell c]
        ∧ (IntersectedCell.GetIntersectedCellIndex cells c).2 = cells.length := by
  unfold IntersectedCell.GetIntersectedCellIndex
  by_cases h : cells.findIdx (fun ic => decide (ic.cell.global_index = c.global_index))
      < cells.length
  · left; simp [h]
  · right; simp [h]

/-- Looking a cell up in the records keeps the log and the records in agreement. -/
theorem GetIntersectedCellIndex_consistent (t : Traversal) (c : Cell) (h : Consistent t) :
    Consistent { t with cells := (IntersectedCell.GetIntersectedCellIndex t.cells c).1 } := by
  rcases GetIntersectedCellIndex_cases t.cells c with ⟨h1, _⟩ | ⟨h1, _⟩
  · rw [h1]; exact h
  · rw [h1]
    refine ⟨fun e he => ?_, fun i ic hi => ?_⟩
    · have := h.1 e he
      simp only [List.length_append, List.length_singleton]
      omega
    · by_cases hlt : i < t.cells.length
      · rw [List.getElem?_append_left hlt] at hi
        exact h.2 i ic hi
      · rw [List.getElem?_append_right (by omega)] at hi
        have hnil : segments_of_log t.recorded i = [] := by
          simp only [segments_of_log, List.map_eq_nil_iff, List.filter_eq_nil_iff,
            decide_eq_true_eq]
          intro e he heq
          have := h.1 e he
          omega
        rw [hnil]
        cases hk : i - t.cells.length with
        | zero =>
          rw [hk] at hi
          simp only [List.getElem?_cons_zero, Option.some.injEq] at hi
          rw [← hi]; rfl
        | succ k =>
          rw [hk] at hi
          simp at hi

theorem add_segment_at_ok (t t2 : Traversal) (idx : Nat) (a b : Vector3d) (r : ℝ)
    (h : add_segment_at t idx a b r = .ok t2) :
    ∃ ic, t.cells[idx]? = some ic
      ∧ t2.cells = t.cells.set idx (ic.add_new_segment a b r)
      ∧ t2.recorded = t.recorded ++ [(idx, ⟨a, b, r⟩)] := by
  unfold add_segment_at at h
  cases hic : t.cells[idx]? with
  | none => rw [hic] at h; cases h
  | some ic =>
    rw [hic] at h
    simp only [Except.ok.injEq] at h
    exact ⟨ic, rfl, by rw [← h], by rw [← h]⟩

/-- Appending a segment to a record keeps the log and the records in agreement. -/
theorem add_segment_at_consistent (t t2 : Traversal) (idx : Nat) (a b : Vector3d) (r : ℝ)
    (h : add_segment_at t idx a b r = .ok t2) (hc : Consistent t) : Consistent t2 := by
  obtain ⟨ic, hic, hcells, hlog⟩ := add_segment_at_ok t t2 idx a b r h
  have hlt : idx < t.cells.length := (List.getElem?_eq_some_iff.1 hic).1
  refine ⟨fun e he => ?_, fun i ic2 hi => ?_⟩
  · rw [hcells, List.length_set]
    rw [hlog] at he
    rcases List.mem_append.1 he with he | he
    · exact hc.1 e he
    · simp only [List.mem_singleton] at he
      rw [he]; exact hlt
  · rw [hcells] at hi
    rw [hlog]
    by_cases hidx : idx = i
    · subst hidx
      rw [List.getElem?_set_self hlt] at hi
      simp only [Option.some.injEq] at hi
      rw [← hi]
      have hseg := hc.2 idx ic hic
      simp only [segments_of_log] at hseg
      simp [segments_of_log, IntersectedCell.add_new_segment, List.filter_append, hseg]
    · rw [List.getElem?_set_ne hidx] at hi
      rw [hc.2 i ic2 hi]
      simp [segments_of_log, List.filter_append, hidx]

theorem GetIntersectedCellIndex_cells_prop (G : Cell → Prop) (cells : List IntersectedCell)
    (c : Cell) (hc : G c) (h : ∀ ic ∈ cells, G ic.cell) :
    ∀ ic ∈ (IntersectedCell.GetIntersectedCellIndex cells c).1, G ic.cell := by
  rcases GetIntersectedCellIndex_cases cells c with ⟨h1, _⟩ | ⟨h1, _⟩
  · rw [h1]; exact h
  · rw [h1]
    intro ic hic
    rcases List.mem_append.1 hic with hic | hic
    · exact h ic hic
    · simp only [List.mem_singleton] at hic
      rw [hic]; exact hc

theorem add_segment_at_cells_prop (G : Cell → Prop) (t t2 : Traversal) (idx : Nat)
    (a b : Vector3d) (r : ℝ) (h : add_segment_at t idx a b r = .ok t2)
    (hG : ∀ ic ∈ t.cells, G ic.cell) : ∀ ic ∈ t2.cells, G ic.cell := by
  obtain ⟨ic0, hic0, hcells, _⟩ := add_segment_at_ok t t2 idx a b r h
  intro ic hic
  rw [hcells] at hic
  rcases List.mem_or_eq_of_mem_set hic with hic | hic
  · exact hG ic hic
  · rw [hic]
    exact hG ic0 (List.getElem?_mem hic0)

/-- What one run of the traversal loop adds to the log: a non-empty gapless polyline from the
exit point on entry to the end point. `G` is any property of the cells the grid returns and
`S` any property of a segment that holds for a segment ending at the end point and for a
segment whose exit point `find_exit_point` computed in a cell with property `G`. -/
theorem traversal_loop_log (grid : Grid) (bb_cells : List Int) (end_point : Vector3d)
    (r epsilon : ℝ) (last_cell : Cell) (G : Cell → Prop) (S : Segment → Prop)
    (hG : ∀ p b, G (grid.GetCellEnvelopingPoint p b))
    (hfinal : ∀ a, S ⟨a, end_point, r⟩)
    (hsolver : ∀ (cells : List IntersectedCell) (idx : Nat) (ic : IntersectedCell)
      (entry exc p : Vector3d), cells[idx]? = some ic → G ic.cell →
      find_exit_point cells idx entry end_point exc = .ok p → S ⟨entry, p, r⟩) :
    ∀ (fuel : Nat) (t : Traversal) (exit_point : Vector3d) (t1 : Traversal) (idx : Nat),
      Consistent t → (∀ ic ∈ t.cells, G ic.cell) →
      traversal_loop grid bb_cells end_point r epsilon last_cell fuel t exit_point
        = .ok (t1, idx) →
      Consistent t1 ∧ (∀ ic ∈ t1.cells, G ic.cell)
        ∧ ∃ new : List (Nat × Segment), t1.recorded = t.recorded ++ new ∧ new ≠ []
            ∧ Linked exit_point (new.map Prod.snd) end_point ∧ ∀ e ∈ new, S e.2 := by
  intro fuel
  induction fuel with
  | zero => intro t exit_point t1 idx _ _ h; simp [traversal_loop] at h
  | succ fuel ih =>
    intro t exit_point t1 idx hc hg h
    simp only [traversal_loop] at h
    have hc1 := GetIntersectedCellIndex_consistent t
      (grid.GetCellEnvelopingPoint (exit_point * (1 - epsilon) + end_point * epsilon) bb_cells) hc
    have hg1 := GetIntersectedCellIndex_cells_prop G t.cells
      (grid.GetCellEnvelopingPoint (exit_point * (1 - epsilon) + end_point * epsilon) bb_cells)
      (hG _ _) hg
    generalize IntersectedCell.GetIntersectedCellIndex t.cells
      (grid.GetCellEnvelopingPoint (exit_point * (1 - epsilon) + end_point * epsilon) bb_cells)
      = found at h hc1 hg1
    split at h
    · cases h
    · rename_i ic hic
      split at h
      · split at h
        · cases h
        · rename_i t2 hadd
          simp only [Except.ok.injEq, Prod.mk.injEq] at h
          obtain ⟨h1, _⟩ := h
          subst h1
          obtain ⟨_, _, _, hlog⟩ := add_segment_at_ok _ _ _ _ _ _ hadd
          refine ⟨add_segment_at_consistent _ _ _ _ _ _ hadd hc1,
            add_segment_at_cells_prop G _ _ _ _ _ _ hadd hg1, _, hlog, by simp, ?_, ?_⟩
          · simp [Linked]
          · intro e he
            simp only [List.mem_singleton] at he
            rw [he]; exact hfinal _
      · split at h
        · cases h
        · rename_i p hp
          split at h
          · cases h
          · rename_i t2 hadd
            split at h
            · obtain ⟨_, _, _, hlog⟩ := add_segment_at_ok _ _ _ _ _ _ hadd
              obtain ⟨hc3, hg3, new, hnew, _, hlinked, hS⟩ := ih t2 p t1 idx
                (add_segment_at_consistent _ _ _ _ _ _ hadd hc1)
                (add_segment_at_cells_prop G _ _ _ _ _ _ hadd hg1) h
              refine ⟨hc3, hg3, (found.2, ⟨exit_point, p, r⟩) :: new, ?_, List.cons_ne_nil _ _, ?_, ?_⟩
              · rw [hnew, hlog]; simp
              · simp [Linked, hlinked]
              · intro e he
                rcases List.mem_cons.1 he with he | he
                · rw [he]
                  exact hsolver _ _ ic _ _ _ hic (hg1 ic (List.getElem?_mem hic)) hp
                · exact hS e he
            · cases h

/-- What `collect_intersected_cells` adds to the log: a non-empty gapless polyline from the
start point to the end point (`G` and `S` as in `traversal_loop_log`). -/
theorem collect_intersected_cells_log (grid : Grid) (start_point end_point : Vector3d) (r : ℝ)
    (G : Cell → Prop) (S : Segment → Prop)
    (hG : ∀ p b, G (grid.GetCellEnvelopingPoint p b))
    (hfinal : ∀ a, S ⟨a, end_point, r⟩)
    (hsolver : ∀ (cells : List IntersectedCell) (idx : Nat) (ic : IntersectedCell)
      (entry exc p : Vector3d), cells[idx]? = some ic → G ic.cell →
      find_exit_point cells idx entry end_point exc = .ok p → S ⟨entry, p, r⟩)
    (fuel : Nat) (t t1 : Traversal) (hc : Consistent t) (hg : ∀ ic ∈ t.cells, G ic.cell)
    (h : collect_intersected_cells grid fuel t start_point end_point r = .ok t1) :
    Consistent t1 ∧ (∀ ic ∈ t1.cells, G ic.cell)
      ∧ ∃ new : List (Nat × Segment), t1.recorded = t.recorded ++ new ∧ new ≠ []
          ∧ Linked start_point (new.map Prod.snd) end_point ∧ ∀ e ∈ new, S e.2 := by
  simp only [collect_intersected_cells, Int.reduceLT, if_false] at h
  have hc1 := GetIntersectedCellIndex_consistent t
    (grid.GetCellEnvelopingPoint start_point []) hc
  have hg1 := GetIntersectedCellIndex_cells_prop G t.cells
    (grid.GetCellEnvelopingPoint start_point []) (hG _ _) hg
  generalize IntersectedCell.GetIntersectedCellIndex t.cells
    (grid.GetCellEnvelopingPoint start_point []) = found at h hc1 hg1
  split at h
  · obtain ⟨_, _, _, hlog⟩ := add_segment_at_ok _ _ _ _ _ _ h
    refine ⟨add_segment_at_consistent _ _ _ _ _ _ h hc1,
      add_segment_at_cells_prop G _ _ _ _ _ _ h hg1, _, hlog, by simp, ?_, ?_⟩
    · simp [Linked]
    · intro e he
      simp only [List.mem_singleton] at he
      rw [he]; exact hfinal _
  · split at h
    · cases h
    · rename_i first_try hfirst
      split at h
      · cases h
      · rename_i exit_point hexit
        split at h
        · cases h
        · rename_i t2 hadd
          split at h
          · cases h
          · rename_i t3 last_index hloop
            split at h
            · cases h
            · split at h
              · simp only [Except.ok.injEq] at h
                subst h
                obtain ⟨ic0, hic0, _, hlog⟩ := add_segment_at_ok _ _ _ _ _ _ hadd
                obtain ⟨hc3, hg3, new, hnew, _, hlinked, hS⟩ :=
                  traversal_loop_log grid [] end_point r _ _ G S hG hfinal hsolver fuel t2
                    exit_point t3 last_index (add_segment_at_consistent _ _ _ _ _ _ hadd hc1)
                    (add_segment_at_cells_prop G _ _ _ _ _ _ hadd hg1) hloop
                refine ⟨hc3, hg3, (found.2, ⟨start_point, exit_point, r⟩) :: new, ?_,
                  List.cons_ne_nil _ _, ?_, ?_⟩
                · rw [hnew, hlog]; simp
                · simp [Linked, hlinked]
                · intro e he
                  rcases List.mem_cons.1 he with he | he
                  · rw [he]
                    have hg0 := hg1 ic0 (List.getElem?_mem hic0)
                    split at hexit
                    · exact hsolver _ _ ic0 _ _ _ hic0 hg0 hexit
                    · simp only [Except.ok.injEq] at hexit
                      rw [← hexit]
                      exact hsolver _ _ ic0 _ _ _ hic0 hg0 hfirst
                  · exact hS e he
              · cases h

/-- A non-empty gapless polyline from `a` to `b` in the words of the claim. -/
theorem Linked_spelled_out : ∀ (segs : List Segment) (a b : Vector3d), segs ≠ [] →
    Linked a segs b →
    segs.head?.map Segment.entry = some a ∧ segs.getLast?.map Segment.exit = some b
      ∧ List.Chain' (fun s s1 => s.exit = s1.entry) segs := by
  intro segs
  induction segs with
  | nil => intro a b h; exact absurd rfl h
  | cons s rest ih =>
    intro a b _ hl
    obtain ⟨h1, h2⟩ := hl
    cases rest with
    | nil =>
      simp only [Linked] at h2
      simp [h1, h2]
    | cons s1 rest1 =>
      obtain ⟨ha, hb, hch⟩ := ih s.exit b (List.cons_ne_nil _ _) h2
      refine ⟨by simp [h1], ?_, ?_⟩
      · rw [List.getLast?_cons_cons]; exact hb
      · refine List.Chain'.cons ?_ hch
        simp only [List.head?_cons, Option.map_some', Option.some.injEq] at ha
        exact ha.symm

/-! ## Lengths along a line (used by C4) -/

namespace Vector3d

theorem norm_scale (v : Vector3d) (s : ℝ) : (v * s).norm = |s| * v.norm := by
  have h : (v * s).dot (v * s) = s ^ 2 * v.dot v := by
    simp only [dot, scale_x, scale_y, scale_z]; ring
  rw [norm, norm, h, Real.sqrt_mul (sq_nonneg s), Real.sqrt_sq_eq_abs]

theorem norm_sub_self (v : Vector3d) : (v - v).norm = 0 := by
  simp [norm, dot]

theorem eq_of_dot_sub_self_eq_zero (a b : Vector3d) (h : (b - a).dot (b - a) = 0) : a = b := by
  simp only [dot, sub_x, sub_y, sub_z] at h
  have hx : (b.x - a.x) * (b.x - a.x) = 0 := by
    nlinarith [mul_self_nonneg (b.x - a.x), mul_self_nonneg (b.y - a.y),
      mul_self_nonneg (b.z - a.z)]
  have hy : (b.y - a.y) * (b.y - a.y) = 0 := by
    nlinarith [mul_self_nonneg (b.x - a.x), mul_self_nonneg (b.y - a.y),
      mul_self_nonneg (b.z - a.z)]
  have hz : (b.z - a.z) * (b.z - a.z) = 0 := by
    nlinarith [mul_self_nonneg (b.x - a.x), mul_self_nonneg (b.y - a.y),
      mul_self_nonneg (b.z - a.z)]
  ext
  · linarith [mul_self_eq_zero.1 hx]
  · linarith [mul_self_eq_zero.1 hy]
  · linarith [mul_self_eq_zero.1 hz]

/-- A point `b` between `a` and `e` on their line splits the distance from `a` to `e`. -/
theorem norm_split (a b e : Vector3d) (τ : ℝ) (hb : b = a + (e - a) * τ)
    (hend : (e - a).dot (e - b) ≥ 0) (hfwd : (e - a).dot (b - a) ≥ 0) :
    (b - a).norm + (e - b).norm = (e - a).norm := by
  by_cases hv : (e - a).dot (e - a) = 0
  · have hae : a = e := eq_of_dot_sub_self_eq_zero a e hv
    have hba : b = a := by
      rw [hb, ← hae]; ext <;> simp
    rw [hba, ← hae, norm_sub_self]; simp
  · have hpos : 0 < (e - a).dot (e - a) := lt_of_le_of_ne (dot_self_nonneg _) (Ne.symm hv)
    have h1 : b - a = (e - a) * τ := by rw [hb]; ext <;> simp
    have h2 : e - b = (e - a) * (1 - τ) := by rw [hb]; ext <;> simp <;> ring
    have d1 : (e - a).dot ((e - a) * τ) = τ * (e - a).dot (e - a) := by
      simp only [dot, scale_x, scale_y, scale_z]; ring
    have d2 : (e - a).dot ((e - a) * (1 - τ)) = (1 - τ) * (e - a).dot (e - a) := by
      simp only [dot, scale_x, scale_y, scale_z]; ring
    rw [h1, d1] at hfwd
    rw [h2, d2] at hend
    have hτ0 : 0 ≤ τ := by
      by_contra hneg
      push_neg at hneg
      nlinarith
    have hτ1 : 0 ≤ 1 - τ := by
      by_contra hneg
      push_neg at hneg
      nlinarith
    rw [h1, h2, norm_scale, norm_scale, abs_of_nonneg hτ0, abs_of_nonneg hτ1]
    ring

end Vector3d

/-- The lengths of a gapless polyline from a point `a` of the heel-toe line to the toe add up
to the distance from `a` to the toe when every segment that starts on the line ends on the line
from its entry point to the toe, not beyond the toe, and no segment ends behind its entry
point. -/
theorem Linked_total_length (heel toe : Vector3d) : ∀ (segs : List Segment) (a : Vector3d),
    OnLine heel toe a → Linked a segs toe →
    (∀ s ∈ segs, (OnLine heel toe s.entry →
        OnLine heel toe s.exit ∧ (∃ τ : ℝ, s.exit = s.entry + (toe - s.entry) * τ)
          ∧ (toe - s.entry).dot (toe - s.exit) ≥ 0)
      ∧ (toe - s.entry).dot (s.exit - s.entry) ≥ 0) →
    total_length segs = (toe - a).norm := by
  intro segs
  induction segs with
  | nil =>
    intro a _ hl _
    simp only [Linked] at hl
    rw [hl, Vector3d.norm_sub_self]
    simp [total_length]
  | cons s rest ih =>
    intro a ha hl hs
    obtain ⟨h1, h2⟩ := hl
    obtain ⟨hon, hfwd⟩ := hs s (List.mem_cons_self _ _)
    obtain ⟨hexit, ⟨τ, hτ⟩, hend⟩ := hon (by rw [h1]; exact ha)
    have hrest := ih s.exit hexit h2 (fun s1 hs1 => hs s1 (List.mem_cons_of_mem _ hs1))
    have hsplit := Vector3d.norm_split s.entry s.exit toe τ hτ hend hfwd
    simp only [total_length, List.map_cons, List.sum_cons] at hrest ⊢
    rw [hrest, ← h1]
    exact hsplit

/-- Every exit point that `find_exit_point` computes from an entry point on the heel-toe line,
in a cell whose faces meet that line in points of the line, lies on the heel-toe line, on the
line from the entry point to the toe, and not beyond the toe. -/
theorem find_exit_point_on_line (heel toe : Vector3d) (cells : List IntersectedCell)
    (idx : Nat) (ic : IntersectedCell) (entry exc p : Vector3d)
    (hic : cells[idx]? = some ic) (hfaces : FacesOnLine heel toe ic.cell)
    (h : find_exit_point cells idx entry toe exc = .ok p) (hentry : OnLine heel toe entry) :
    OnLine heel toe p ∧ (∃ τ : ℝ, p = entry + (toe - entry) * τ)
      ∧ (toe - entry).dot (toe - p) ≥ 0 := by
  simp only [find_exit_point, hic] at h
  rcases find_exit_loop_first ic.cell.faces entry toe exc ic.cell.faces with
    ⟨pre, face, post, hsplit, _, hnp, hacc, hres⟩ | ⟨_, hres⟩
  · rw [hres] at h
    simp only [Except.ok.injEq] at h
    rw [← h]
    have hp := hfaces face (by rw [hsplit]; simp) entry hentry
    obtain ⟨σ, hσ⟩ := hentry
    obtain ⟨σ1, hσ1⟩ := hp
    have hne : 1 - σ ≠ 0 := by
      intro h0
      apply hnp
      have hσ' : σ = 1 := by linarith
      have hzero : toe - entry = ⟨0, 0, 0⟩ := by
        rw [hσ, hσ']; ext <;> simp
      rw [hzero]
      simp [Vector3d.dot]
    refine ⟨⟨σ1, hσ1⟩, ⟨(σ1 - σ) / (1 - σ), ?_⟩, ?_⟩
    · rw [hσ1, hσ]
      ext <;> simp <;> field_simp <;> ring
    · simp only [accept_point, Bool.and_eq_true, decide_eq_true_eq] at hacc
      exact hacc.2
  · rw [hres] at h
    simp only [Except.ok.injEq] at h
    rw [← h]
    exact ⟨hentry, ⟨0, by ext <;> simp⟩, Vector3d.dot_self_nonneg _⟩

/-! ## C8: a row of cubes -/

/-- The exit point of a row cell entered at its low x face by a line along the x axis: the
candidate of the low face is the exception point itself and is rejected, the candidate of the
high face is accepted. -/
theorem find_exit_loop_row (i : Int) (a e d k : ℝ) (hd : 0.01 < d) (hae : a + d ≤ e) :
    find_exit_loop (boxCell i ⟨a, 0, 0⟩ d d d k).faces ⟨a, 0, 0⟩ ⟨e, 0, 0⟩ ⟨a, 0, 0⟩
      (boxCell i ⟨a, 0, 0⟩ d d d k).faces = some ⟨a + d, 0, 0⟩ := by
  have hd0 : 0 < d := by norm_num at hd; linarith
  have hne : e - a ≠ 0 := by
    intro h; linarith
  have hne1 : a - e ≠ 0 := by
    intro h; linarith
  have hk : (e - a) * (-d / (a - e)) = d := by
    field_simp
    ring
  have hsqrt : (10e-10 : ℝ) < √(d * d) := by
    rw [Real.sqrt_mul_self hd0.le]; norm_num at hd ⊢; linarith
  have hdir : 0 ≤ (e - a) * (e - (a + d)) := mul_nonneg (by linarith) (by linarith)
  have hs1 : (-10e-6 : ℝ) ≤ d := by norm_num; linarith
  have hs2 : d ≤ d + (10e-6 : ℝ) := by norm_num
  have hs3 : (0 : ℝ) ≤ 10e-6 := by norm_num
  have hrej : ¬ ((10e-10 : ℝ) < 0) := by norm_num
  simp [find_exit_loop, boxCell, planeFace, accept_point, hne, Vector3d.norm, hk, hne1, hsqrt,
    hdir, hs1, hs2, hs3, hrej]

theorem GetIntersectedCellIndex_row (d k r : ℝ) (j : Nat) :
    IntersectedCell.GetIntersectedCellIndex ((List.range j).map (rowRecord d k r)) (rowCell d k j)
      = ((List.range j).map (rowRecord d k r) ++ [IntersectedCell.ofCell (rowCell d k j)], j) := by
  have h : ((List.range j).map (rowRecord d k r)).findIdx
      (fun ic => decide (ic.cell.global_index = (rowCell d k j).global_index))
      = ((List.range j).map (rowRecord d k r)).length := by
    apply List.findIdx_eq_length_of_false
    intro ic hic
    obtain ⟨i, hi, rfl⟩ := List.mem_map.1 hic
    have hij : i < j := List.mem_range.1 hi
    simp only [rowRecord, rowCell, boxCell, decide_eq_false_iff_not, Nat.cast_inj]
    omega
  simp [IntersectedCell.GetIntersectedCellIndex, h]

/-- The probe point of the traversal loop on a row of cubes lies strictly inside cell `j`. -/
theorem probe_row (n j d : ℝ) (hj : 1 ≤ j) (hjn : j + 1 ≤ n) (hd : 0.01 < d) :
    j * d < j * d * (1 - 0.01 / (n * d - d)) + n * d * (0.01 / (n * d - d))
      ∧ j * d * (1 - 0.01 / (n * d - d)) + n * d * (0.01 / (n * d - d)) < (j + 1) * d := by
  have hd0 : 0 < d := by norm_num at hd; linarith
  have hpos : 0 < n * d - d := by nlinarith
  have he : 0 < 0.01 / (n * d - d) := div_pos (by norm_num) hpos
  have hmul : 0.01 / (n * d - d) * (n * d - d) = 0.01 := by
    field_simp
  have hle : n * d - j * d ≤ n * d - d := by nlinarith
  have hge : 0 < n * d - j * d := by nlinarith
  have h1 : 0 < 0.01 / (n * d - d) * (n * d - j * d) := mul_pos he hge
  have h2 : 0.01 / (n * d - d) * (n * d - j * d) ≤ 0.01 := by
    calc 0.01 / (n * d - d) * (n * d - j * d)
        ≤ 0.01 / (n * d - d) * (n * d - d) := mul_le_mul_of_nonneg_left hle he.le
      _ = 0.01 := hmul
  constructor
  · nlinarith
  · nlinarith

theorem traversal_loop_row_step (grid : Grid) (n : Nat) (d k r : ℝ)
    (hd : 0.01 < d)
    (hin : ∀ j : Nat, j < n → ∀ x : ℝ, (j : ℝ) * d < x → x < ((j : ℝ) + 1) * d →
      grid.GetCellEnvelopingPoint ⟨x, 0, 0⟩ [] = rowCell d k j)
    (j : Nat) (hj : 1 ≤ j) (hjn : j < n) :
    IntersectedCell.GetIntersectedCellIndex ((List.range j).map (rowRecord d k r))
        (grid.GetCellEnvelopingPoint
          ((⟨(j : ℝ) * d, 0, 0⟩ : Vector3d) * (1 - 0.01 / ((n : ℝ) * d - d))
            + (⟨(n : ℝ) * d, 0, 0⟩ : Vector3d) * (0.01 / ((n : ℝ) * d - d))) [])
      = ((List.range j).map (rowRecord d k r) ++ [IntersectedCell.ofCell (rowCell d k j)], j) := by
  have hj1 : (1 : ℝ) ≤ (j : ℝ) := by exact_mod_cast hj
  have hjn1 : (j : ℝ) + 1 ≤ (n : ℝ) := by exact_mod_cast hjn
  obtain ⟨h1, h2⟩ := probe_row n j d hj1 hjn1 hd
  have hprobe : (⟨(j : ℝ) * d, 0, 0⟩ : Vector3d) * (1 - 0.01 / ((n : ℝ) * d - d))
      + (⟨(n : ℝ) * d, 0, 0⟩ : Vector3d) * (0.01 / ((n : ℝ) * d - d))
      = ⟨(j : ℝ) * d * (1 - 0.01 / ((n : ℝ) * d - d))
          + (n : ℝ) * d * (0.01 / ((n : ℝ) * d - d)), 0, 0⟩ := by
    ext <;> simp
  rw [hprobe, hin j hjn _ h1 h2, GetIntersectedCellIndex_row]
/-- The traversal loop on a row of `n` cubes, entered with the records of cells `0 .. j-1` and
the exit point on the low face of cell `j`: it stops with the records of all `n` cells. -/
theorem traversal_loop_row (grid : Grid) (n : Nat) (d k r : ℝ) (hn : n < 500)
    (hd : 0.01 < d)
    (hin : ∀ j : Nat, j < n → ∀ x : ℝ, (j : ℝ) * d < x → x < ((j : ℝ) + 1) * d →
      grid.GetCellEnvelopingPoint ⟨x, 0, 0⟩ [] = rowCell d k j) :
    ∀ (m j fuel : Nat), 1 ≤ j → j + m + 1 = n → m < fuel →
      traversal_loop grid [] ⟨(n : ℝ) * d, 0, 0⟩ r (0.01 / ((n : ℝ) * d - d))
          (rowCell d k (n - 1)) fuel
          ⟨(List.range j).map (rowRecord d k r),
            (List.range j).map (fun i => (i, rowSegment d r i))⟩
          ⟨(j : ℝ) * d, 0, 0⟩
        = .ok (⟨(List.range n).map (rowRecord d k r),
            (List.range n).map (fun i => (i, rowSegment d r i))⟩, n - 1) := by
  have hd0 : 0 < d := by norm_num at hd; linarith
  have hget : ∀ j : Nat, ((List.range j).map (rowRecord d k r)
      ++ [IntersectedCell.ofCell (rowCell d k j)])[j]?
        = some (IntersectedCell.ofCell (rowCell d k j)) := by
    intro j
    rw [List.getElem?_append_right (by simp)]
    simp
  have hset : ∀ (j : Nat) (b : Vector3d), b = ⟨((j : ℝ) + 1) * d, 0, 0⟩ →
      ((List.range j).map (rowRecord d k r) ++ [IntersectedCell.ofCell (rowCell d k j)]).set j
        ((IntersectedCell.ofCell (rowCell d k j)).add_new_segment ⟨(j : ℝ) * d, 0, 0⟩ b r)
      = (List.range (j + 1)).map (rowRecord d k r) := by
    intro j b hb
    rw [List.range_succ, List.map_append, hb]
    have hl : ((List.range j).map (rowRecord d k r)).length = j := by simp
    conv_lhs => rw [show j = ((List.range j).map (rowRecord d k r)).length + 0 by simp]
    simp only [hl]
    rw [List.set_append_right _ _ (by simp)]
    simp [rowRecord, rowSegment, IntersectedCell.ofCell, IntersectedCell.add_new_segment]
  intro m
  induction m with
  | zero =>
    intro j fuel hj hjn hfuel
    obtain ⟨fuel, rfl⟩ : ∃ f, fuel = f + 1 := ⟨fuel - 1, by omega⟩
    have hjlast : j = n - 1 := by omega
    have hnj : ((n : ℝ)) = (j : ℝ) + 1 := by
      have : n = j + 1 := by omega
      rw [this]; push_cast; ring
    simp only [traversal_loop]
    rw [traversal_loop_row_step grid n d k r hd hin j hj (by omega)]
    simp only [hget]
    rw [if_pos (by rw [hjlast]; rfl)]
    simp only [add_segment_at, hget]
    rw [hset j _ (by rw [hnj])]
    have hn1 : j + 1 = n := by omega
    simp only [hn1, ← hjlast]
    rw [← hn1, List.range_succ, List.map_append]
    simp [rowSegment, hnj]
  | succ m ih =>
    intro j fuel hj hjn hfuel
    obtain ⟨fuel, rfl⟩ : ∃ f, fuel = f + 1 := ⟨fuel - 1, by omega⟩
    have hne : ¬ ((IntersectedCell.ofCell (rowCell d k j)).cell.global_index
        = (rowCell d k (n - 1)).global_index) := by
      simp only [IntersectedCell.ofCell, rowCell, boxCell, Nat.cast_inj]
      omega
    have hae : (j : ℝ) * d + d ≤ (n : ℝ) * d := by
      have : (j : ℝ) + 1 ≤ (n : ℝ) := by exact_mod_cast (show j + 1 ≤ n by omega)
      nlinarith
    simp only [traversal_loop]
    rw [traversal_loop_row_step grid n d k r hd hin j hj (by omega)]
    simp only [hget]
    rw [if_neg hne]
    have hfind : find_exit_point ((List.range j).map (rowRecord d k r)
        ++ [IntersectedCell.ofCell (rowCell d k j)]) j ⟨(j : ℝ) * d, 0, 0⟩ ⟨(n : ℝ) * d, 0, 0⟩
        ⟨(j : ℝ) * d, 0, 0⟩ = .ok ⟨(j : ℝ) * d + d, 0, 0⟩ := by
      have hloop := find_exit_loop_row (j : Int) ((j : ℝ) * d) ((n : ℝ) * d) d k hd hae
      simp only [find_exit_point, hget]
      rw [show (IntersectedCell.ofCell (rowCell d k j)).cell.faces
        = (boxCell (j : Int) ⟨(j : ℝ) * d, 0, 0⟩ d d d k).faces from rfl, hloop]
    simp only [hfind, add_segment_at, hget]
    rw [hset j ⟨(j : ℝ) * d + d, 0, 0⟩ (by congr 1; ring)]
    rw [if_pos (by simp; omega)]
    have hlog : (List.range j).map (fun i => (i, rowSegment d r i))
        ++ [(j, (⟨⟨(j : ℝ) * d, 0, 0⟩, ⟨(j : ℝ) * d + d, 0, 0⟩, r⟩ : Segment))]
        = (List.range (j + 1)).map (fun i => (i, rowSegment d r i)) := by
      rw [List.range_succ, List.map_append]
      simp only [List.map_cons, List.map_nil, rowSegment]
      rw [show (j : ℝ) * d + d = ((j : ℝ) + 1) * d by ring]
    rw [hlog]
    have hexit : (⟨(j : ℝ) * d + d, 0, 0⟩ : Vector3d) = ⟨((j + 1 : Nat) : ℝ) * d, 0, 0⟩ := by
      congr 1; push_cast; ring
    rw [hexit]
    exact ih (j + 1) fuel (by omega) (by omega) (by omega)

/-- The whole traversal on a row of `n` cubes along the x axis, from the origin to the far face
of the last cube: one record per cube, in order, each with the part of the axis inside it. -/
theorem collect_intersected_cells_row (grid : Grid) (n : Nat) (d k r : ℝ) (hn2 : 2 ≤ n)
    (hn : n < 500) (hd : 0.01 < d)
    (hheel : grid.GetCellEnvelopingPoint ⟨0, 0, 0⟩ [] = rowCell d k 0)
    (htoe : grid.GetCellEnvelopingPoint ⟨(n : ℝ) * d, 0, 0⟩ [] = rowCell d k (n - 1))
    (hin : ∀ j : Nat, j < n → ∀ x : ℝ, (j : ℝ) * d < x → x < ((j : ℝ) + 1) * d →
      grid.GetCellEnvelopingPoint ⟨x, 0, 0⟩ [] = rowCell d k j)
    (fuel : Nat) (hfuel : n - 1 ≤ fuel) :
    collect_intersected_cells grid fuel ⟨[], []⟩ ⟨0, 0, 0⟩ ⟨(n : ℝ) * d, 0, 0⟩ r
      = .ok ⟨(List.range n).map (rowRecord d k r),
          (List.range n).map (fun i => (i, rowSegment d r i))⟩ := by
  have hd0 : 0 < d := by norm_num at hd; linarith
  have hn2r : (2 : ℝ) ≤ (n : ℝ) := by exact_mod_cast hn2
  have hcell0 : rowCell d k 0 = boxCell 0 ⟨0, 0, 0⟩ d d d k := by simp [rowCell]
  have hidx : ¬ ((rowCell d k (n - 1)).global_index = (rowCell d k 0).global_index) := by
    simp only [rowCell, boxCell, Nat.cast_inj]; omega
  have hfind : find_exit_point [IntersectedCell.ofCell (rowCell d k 0)] 0 ⟨0, 0, 0⟩
      ⟨(n : ℝ) * d, 0, 0⟩ ⟨0, 0, 0⟩ = .ok ⟨0 + d, 0, 0⟩ := by
    have hloop := find_exit_loop_row 0 0 ((n : ℝ) * d) d k hd (by nlinarith)
    simp only [find_exit_point, List.getElem?_cons_zero, IntersectedCell.ofCell, hcell0, hloop]
  have hdot : ¬ (((⟨(n : ℝ) * d, 0, 0⟩ : Vector3d) - ⟨0, 0, 0⟩).dot
      ((⟨0 + d, 0, 0⟩ : Vector3d) - ⟨0, 0, 0⟩) ≤ 0) := by
    simp only [Vector3d.mk_sub_mk, Vector3d.mk_dot_mk, sub_zero, zero_add, mul_zero, add_zero,
      not_le]
    have : 0 < (n : ℝ) * d := by nlinarith
    exact mul_pos this hd0
  have hnorm : ((⟨(n : ℝ) * d, 0, 0⟩ : Vector3d) - ⟨0 + d, 0, 0⟩).norm = (n : ℝ) * d - d := by
    simp only [Vector3d.norm, Vector3d.mk_sub_mk, Vector3d.mk_dot_mk, zero_add, sub_zero,
      mul_zero, add_zero]
    exact Real.sqrt_mul_self (by nlinarith)
  have hloop := traversal_loop_row grid n d k r hn hd hin (n - 2) 1 fuel le_rfl (by omega)
    (by omega)
  have hr1 : List.range 1 = [0] := rfl
  simp only [hr1, List.map_cons, List.map_nil, Nat.cast_one, one_mul] at hloop
  have hlast : ((List.range n).map (rowRecord d k r))[n - 1]? = some (rowRecord d k r (n - 1)) := by
    rw [List.getElem?_map, List.getElem?_range (by omega)]; rfl
  simp only [collect_intersected_cells, Int.reduceLT, if_false, hheel, htoe,
    GetIntersectedCellIndex_nil, if_neg hidx, hfind, if_neg hdot, add_segment_at,
    List.getElem?_cons_zero, List.set_cons_zero, hnorm, List.nil_append]
  have hrec0 : (IntersectedCell.ofCell (rowCell d k 0)).add_new_segment ⟨0, 0, 0⟩ ⟨0 + d, 0, 0⟩ r
      = rowRecord d k r 0 := by
    simp [rowRecord, rowSegment, IntersectedCell.ofCell, IntersectedCell.add_new_segment]
  have hseg0 : (⟨⟨0, 0, 0⟩, ⟨0 + d, 0, 0⟩, r⟩ : Segment) = rowSegment d r 0 := by
    simp [rowSegment]
  rw [hrec0, hseg0, zero_add, hloop]
  simp only [hlast]
  exact if_pos rfl

/-- The loop over all records applies `compute_well_index` to each record in turn. -/
theorem well_index_loop_all : ∀ (post pre : List IntersectedCell),
    well_index_loop post.length pre.length (pre ++ post)
      = .ok (pre ++ post.map compute_cell_well_index) := by
  intro post
  induction post with
  | nil => intro pre; simp [well_index_loop]
  | cons x rest ih =>
    intro pre
    have hget : (pre ++ x :: rest)[pre.length]? = some x := by
      rw [List.getElem?_append_right (le_refl _)]; simp
    have hset : (pre ++ x :: rest).set pre.length (compute_cell_well_index x)
        = (pre ++ [compute_cell_well_index x]) ++ rest := by
      rw [List.set_append_right _ _ (le_refl _)]; simp
    have h := ih (pre ++ [compute_cell_well_index x])
    simp only [List.length_append, List.length_singleton] at h
    simp only [List.length_cons, well_index_loop, compute_well_index, hget, hset, h]
    simp

theorem ComputeWellBlocks_of_collect (grid : Grid) (fuel : Nat) (heel toe : Vector3d) (r : ℝ)
    (t : Traversal) (h : collect_intersected_cells grid fuel ⟨[], []⟩ heel toe r = .ok t) :
    ComputeWellBlocks grid fuel heel toe r = .ok (t.cells.map compute_cell_well_index) := by
  have hl := well_index_loop_all t.cells []
  simp only [List.length_nil, List.nil_append] at hl
  simp only [ComputeWellBlocks, h, hl]

/-- The projected lengths stored for the single segment of a row record. -/
theorem compute_cell_well_index_row (d k r : ℝ) (hd : 0 ≤ d) (j : Nat) :
    (compute_cell_well_index (rowRecord d k r j)).calculation_data 0 "Lx" = some d
      ∧ (compute_cell_well_index (rowRecord d k r j)).calculation_data 0 "Ly" = some 0
      ∧ (compute_cell_well_index (rowRecord d k r j)).calculation_data 0 "Lz" = some 0 := by
  have hx : projected_length ⟨1, 0, 0⟩ ⟨((j : ℝ) + 1) * d - (j : ℝ) * d, 0, 0⟩ = d := by
    simp only [projected_length, Vector3d.norm, Vector3d.mk_dot_mk, Vector3d.mk_scale,
      Vector3d.mk_sdiv]
    rw [show (1 * (1 * (((j : ℝ) + 1) * d - (j : ℝ) * d) + 0 * 0 + 0 * 0)
        / (1 * 1 + 0 * 0 + 0 * 0)
      * (1 * (1 * (((j : ℝ) + 1) * d - (j : ℝ) * d) + 0 * 0 + 0 * 0)
        / (1 * 1 + 0 * 0 + 0 * 0))
      + 0 * (1 * (((j : ℝ) + 1) * d - (j : ℝ) * d) + 0 * 0 + 0 * 0)
        / (1 * 1 + 0 * 0 + 0 * 0)
      * (0 * (1 * (((j : ℝ) + 1) * d - (j : ℝ) * d) + 0 * 0 + 0 * 0)
        / (1 * 1 + 0 * 0 + 0 * 0))
      + 0 * (1 * (((j : ℝ) + 1) * d - (j : ℝ) * d) + 0 * 0 + 0 * 0)
        / (1 * 1 + 0 * 0 + 0 * 0)
      * (0 * (1 * (((j : ℝ) + 1) * d - (j : ℝ) * d) + 0 * 0 + 0 * 0)
        / (1 * 1 + 0 * 0 + 0 * 0))) = d * d by ring]
    exact Real.sqrt_mul_self hd
  have hy : projected_length ⟨0, 1, 0⟩ ⟨((j : ℝ) + 1) * d - (j : ℝ) * d, 0, 0⟩ = 0 := by
    simp [projected_length, Vector3d.norm]
  have hz : projected_length ⟨0, 0, 1⟩ ⟨((j : ℝ) + 1) * d - (j : ℝ) * d, 0, 0⟩ = 0 := by
    simp [projected_length, Vector3d.norm]
  simp [compute_cell_well_index, segment_loop, segment_step, rowRecord, rowSegment, rowCell,
    boxCell, IntersectedCell.set_cell_well_index, IntersectedCell.set_segment_calculation_data,
    hx, hy, hz]

theorem threeCellGrid_heel :
    threeCellGrid.GetCellEnvelopingPoint ⟨0, 0, 0⟩ [] = rowCell 10 100 0 := by
  simp [threeCellGrid]

theorem threeCellGrid_toe :
    threeCellGrid.GetCellEnvelopingPoint ⟨((3 : Nat) : ℝ) * 10, 0, 0⟩ []
      = rowCell 10 100 (3 - 1) := by
  norm_num [threeCellGrid]

theorem threeCellGrid_inside : ∀ j : Nat, j < 3 → ∀ x : ℝ, (j : ℝ) * 10 < x →
    x < ((j : ℝ) + 1) * 10 →
    threeCellGrid.GetCellEnvelopingPoint ⟨x, 0, 0⟩ [] = rowCell 10 100 j := by
  intro j hj x h1 h2
  interval_cases j
  · have : x < 10 := by norm_num at h2; linarith
    simp [threeCellGrid, this]
  · have ha : ¬ x < 10 := by norm_num at h1; linarith
    have hb : x < 20 := by norm_num at h2; linarith
    simp [threeCellGrid, ha, hb]
  · have ha : ¬ x < 10 := by norm_num at h1; linarith
    have hb : ¬ x < 20 := by norm_num at h1; linarith
    simp [threeCellGrid, ha, hb]

/-- The traversal of `threeCellGrid` from the origin to `(30,0,0)` stops after two iterations
of the loop with `threeCellTraversal`. -/
theorem threeCellGrid_collect :
    collect_intersected_cells threeCellGrid 2 ⟨[], []⟩ ⟨0, 0, 0⟩ ⟨((3 : Nat) : ℝ) * 10, 0, 0⟩
      (1 / 10) = .ok threeCellTraversal :=
  collect_intersected_cells_row threeCellGrid 3 10 100 (1 / 10) (by decide) (by decide)
    (by norm_num) threeCellGrid_heel threeCellGrid_toe threeCellGrid_inside 2 (by decide)

/-- A plane face meets the line through a point of the heel-toe line and the toe in a point
of the heel-toe line. -/
theorem planeFace_on_line (heel toe corner normal entry : Vector3d)
    (hentry : OnLine heel toe entry) :
    OnLine heel toe ((planeFace corner normal).intersection_with_line entry toe) := by
  obtain ⟨σ, hσ⟩ := hentry
  refine ⟨σ + (1 - σ) * (normal.dot (corner - entry) / normal.dot (toe - entry)), ?_⟩
  simp only [planeFace]
  generalize normal.dot (corner - entry) / normal.dot (toe - entry) = s
  rw [hσ]
  ext <;> simp <;> ring

/-- A box cell, whose faces are planes, meets every line in points of that line. -/
theorem boxCell_faces_on_line (heel toe : Vector3d) (i : Int) (lo : Vector3d)
    (sx sy sz k : ℝ) : FacesOnLine heel toe (boxCell i lo sx sy sz k) := by
  intro f hf entry hentry
  simp only [boxCell, List.mem_cons, List.mem_singleton, List.not_mem_nil, or_false] at hf
  rcases hf with rfl | rfl | rfl | rfl | rfl | rfl <;>
    exact planeFace_on_line _ _ _ _ _ hentry

theorem threeCellGrid_faces_on_line (heel toe : Vector3d) : ∀ (p : Vector3d) (b : List Int),
    FacesOnLine heel toe (threeCellGrid.GetCellEnvelopingPoint p b) := by
  intro p b
  simp only [threeCellGrid]
  split
  · exact boxCell_faces_on_line _ _ _ _ _ _ _ _
  · split
    · exact boxCell_faces_on_line _ _ _ _ _ _ _ _
    · exact boxCell_faces_on_line _ _ _ _ _ _ _ _

/-- C8: for a row of `n` cubes (`2 <= n < 500`) of side `d > 0.01` along the x axis, with the
grid resolving the origin to cell 0, `(n*d,0,0)` to cell `n-1` and every point of the axis
strictly inside cell `j` to cell `j`, `ComputeWellBlocks` from the origin to `(n*d,0,0)` returns
(for every fuel of at least `n-1` loop iterations) `n` records in order of cell index; record
`j` is the record of cell `j`, holds exactly one segment, from `(j*d,0,0)` to `((j+1)*d,0,0)`
with the given radius, and has `Lx = d`, `Ly = 0`, `Lz = 0` stored for that segment. -/
theorem ComputeWellBlocks_row (grid : Grid) (n : Nat) (d k r : ℝ) (hn2 : 2 ≤ n)
    (hn : n < 500) (hd : 0.01 < d)
    (hheel : grid.GetCellEnvelopingPoint ⟨0, 0, 0⟩ [] = rowCell d k 0)
    (htoe : grid.GetCellEnvelopingPoint ⟨(n : ℝ) * d, 0, 0⟩ [] = rowCell d k (n - 1))
    (hin : ∀ j : Nat, j < n → ∀ x : ℝ, (j : ℝ) * d < x → x < ((j : ℝ) + 1) * d →
      grid.GetCellEnvelopingPoint ⟨x, 0, 0⟩ [] = rowCell d k j)
    (fuel : Nat) (hfuel : n - 1 ≤ fuel) :
    ∃ cells : List IntersectedCell,
      ComputeWellBlocks grid fuel ⟨0, 0, 0⟩ ⟨(n : ℝ) * d, 0, 0⟩ r = .ok cells
        ∧ cells.length = n
        ∧ ∀ j : Nat, j < n → ∃ ic : IntersectedCell, cells[j]? = some ic
            ∧ ic.cell = rowCell d k j
            ∧ ic.cell.global_index = (j : Int)
            ∧ ic.segments = [⟨⟨(j : ℝ) * d, 0, 0⟩, ⟨((j : ℝ) + 1) * d, 0, 0⟩, r⟩]
            ∧ ic.calculation_data 0 "Lx" = some d
            ∧ ic.calculation_data 0 "Ly" = some 0
            ∧ ic.calculation_data 0 "Lz" = some 0 := by
  have hd0 : 0 ≤ d := by norm_num at hd; linarith
  have hcollect := collect_intersected_cells_row grid n d k r hn2 hn hd hheel htoe hin fuel hfuel
  refine ⟨_, ComputeWellBlocks_of_collect grid fuel _ _ r _ hcollect, by simp, ?_⟩
  intro j hj
  refine ⟨compute_cell_well_index (rowRecord d k r j), ?_, ?_, ?_, ?_,
    compute_cell_well_index_row d k r hd0 j⟩
  · simp [List.getElem?_range hj]
  · rw [compute_cell_well_index_cell]; rfl
  · rw [compute_cell_well_index_cell]; rfl
  · rw [compute_cell_well_index_segments]; rfl

/-- Witness for C8: three cubes of side 10 and permeability 100, radius 1/10. -/
theorem ComputeWellBlocks_row_witness :
    ∃ cells : List IntersectedCell,
      ComputeWellBlocks threeCellGrid 2 ⟨0, 0, 0⟩ ⟨((3 : Nat) : ℝ) * 10, 0, 0⟩ (1 / 10)
          = .ok cells
        ∧ cells.length = 3
        ∧ ∀ j : Nat, j < 3 → ∃ ic : IntersectedCell, cells[j]? = some ic
            ∧ ic.cell = rowCell 10 100 j
            ∧ ic.cell.global_index = (j : Int)
            ∧ ic.segments = [⟨⟨(j : ℝ) * 10, 0, 0⟩, ⟨((j : ℝ) + 1) * 10, 0, 0⟩, 1 / 10⟩]
            ∧ ic.calculation_data 0 "Lx" = some 10
            ∧ ic.calculation_data 0 "Ly" = some 0
            ∧ ic.calculation_data 0 "Lz" = some 0 :=
  ComputeWellBlocks_row threeCellGrid 3 10 100 (1 / 10) (by decide) (by decide) (by norm_num)
    threeCellGrid_heel threeCellGrid_toe threeCellGrid_inside 2 (by decide)

/-! ## C3: the recorded segments are contiguous -/

/-- C3: whenever the traversal terminates, the log of recorded segments (which lists, record by
record, exactly the segments the records hold, in recording order) starts at the heel, ends at
the toe, and the exit point of each segment is the entry point of the next one. -/
theorem collect_intersected_cells_contiguous (grid : Grid) (fuel : Nat) (heel toe : Vector3d)
    (wellbore_radius : ℝ) (t : Traversal)
    (h : collect_intersected_cells grid fuel ⟨[], []⟩ heel toe wellbore_radius = .ok t) :
    Consistent t
      ∧ (t.recorded.map Prod.snd).head?.map Segment.entry = some heel
      ∧ (t.recorded.map Prod.snd).getLast?.map Segment.exit = some toe
      ∧ List.Chain' (fun s s1 => s.exit = s1.entry) (t.recorded.map Prod.snd) := by
  have h0 : Consistent ⟨[], []⟩ := ⟨by simp, by simp⟩
  obtain ⟨hc, _, new, hnew, hne, hlinked, _⟩ :=
    collect_intersected_cells_log grid heel toe wellbore_radius (fun _ => True) (fun _ => True)
      (fun _ _ => trivial) (fun _ => trivial) (fun _ _ _ _ _ _ _ _ _ => trivial) fuel
      ⟨[], []⟩ t h0 (by simp) h
  simp only [List.nil_append] at hnew
  rw [hnew]
  exact ⟨hc, Linked_spelled_out _ heel toe (by simpa using hne) hlinked⟩

/-- Witness for C3: the traversal of `threeCellGrid`. -/
theorem collect_intersected_cells_contiguous_witness :
    Consistent threeCellTraversal
      ∧ (threeCellTraversal.recorded.map Prod.snd).head?.map Segment.entry = some ⟨0, 0, 0⟩
      ∧ (threeCellTraversal.recorded.map Prod.snd).getLast?.map Segment.exit
          = some ⟨((3 : Nat) : ℝ) * 10, 0, 0⟩
      ∧ List.Chain' (fun s s1 => s.exit = s1.entry) (threeCellTraversal.recorded.map Prod.snd) :=
  collect_intersected_cells_contiguous threeCellGrid 2 ⟨0, 0, 0⟩ ⟨((3 : Nat) : ℝ) * 10, 0, 0⟩
    (1 / 10) threeCellTraversal threeCellGrid_collect

/-! ## C4: the total length of the recorded segments -/

/-- The lengths add up as soon as no segment runs backwards: whenever the traversal
terminates, with every face's line intersection lying on the heel-toe line, and the exit point
of no recorded segment is behind its entry point (seen towards the toe), the lengths of the
recorded segments add up to the distance from heel to toe. A backward exit point is therefore
the only way in which a terminating traversal misses that sum. -/
theorem total_length_eq_of_forward (grid : Grid) (fuel : Nat) (heel toe : Vector3d)
    (wellbore_radius : ℝ) (t : Traversal)
    (hfaces : ∀ (p : Vector3d) (b : List Int),
      FacesOnLine heel toe (grid.GetCellEnvelopingPoint p b))
    (h : collect_intersected_cells grid fuel ⟨[], []⟩ heel toe wellbore_radius = .ok t)
    (hfwd : ∀ e ∈ t.recorded, (toe - e.2.entry).dot (e.2.exit - e.2.entry) ≥ 0) :
    total_length (t.recorded.map Prod.snd) = (toe - heel).norm := by
  have h0 : Consistent ⟨[], []⟩ := ⟨by simp, by simp⟩
  have htoe : OnLine heel toe toe := ⟨1, by ext <;> simp⟩
  obtain ⟨_, _, new, hnew, _, hlinked, hS⟩ :=
    collect_intersected_cells_log grid heel toe wellbore_radius (FacesOnLine heel toe)
      (fun s => OnLine heel toe s.entry →
        OnLine heel toe s.exit ∧ (∃ τ : ℝ, s.exit = s.entry + (toe - s.entry) * τ)
          ∧ (toe - s.entry).dot (toe - s.exit) ≥ 0)
      hfaces
      (fun a _ => ⟨htoe, ⟨1, by ext <;> simp⟩, by simp [Vector3d.dot]⟩)
      (fun cells idx ic entry exc p hic hg hp hentry =>
        find_exit_point_on_line heel toe cells idx ic entry exc p hic hg hp hentry)
      fuel ⟨[], []⟩ t h0 (by simp) h
  simp only [List.nil_append] at hnew
  rw [hnew] at hfwd ⊢
  apply Linked_total_length heel toe _ heel ⟨0, by ext <;> simp⟩ hlinked
  intro s hs
  obtain ⟨e, he, rfl⟩ := List.mem_map.1 hs
  exact ⟨hS e he, hfwd e he⟩

/-- An instance of `total_length_eq_of_forward`: the traversal of `threeCellGrid`. -/
theorem total_length_eq_of_forward_witness :
    total_length (threeCellTraversal.recorded.map Prod.snd)
      = ((⟨((3 : Nat) : ℝ) * 10, 0, 0⟩ : Vector3d) - ⟨0, 0, 0⟩).norm :=
  total_length_eq_of_forward threeCellGrid 2 ⟨0, 0, 0⟩ ⟨((3 : Nat) : ℝ) * 10, 0, 0⟩ (1 / 10)
    threeCellTraversal (threeCellGrid_faces_on_line _ _) threeCellGrid_collect
    (by
      intro e he
      have hr : List.range 3 = [0, 1, 2] := rfl
      simp only [threeCellTraversal, hr, List.map_cons, List.map_nil, List.mem_cons,
        List.mem_singleton, List.not_mem_nil, or_false] at he
      rcases he with rfl | rfl | rfl <;> norm_num [rowSegment])

@[simp] theorem boxCell_global_index (i : Int) (lo : Vector3d) (sx sy sz k : ℝ) :
    (boxCell i lo sx sy sz k).global_index = i := rfl

theorem cornerGrid_exit_first : find_exit_loop (boxCell 0 ⟨0, -10, 0⟩ 10 10 10 100).faces
    cornerHeel cornerToe cornerHeel (boxCell 0 ⟨0, -10, 0⟩ 10 10 10 100).faces
      = some cornerB := by
  norm_num [cornerHeel, cornerToe, cornerB, boxCell, find_exit_loop, planeFace, accept_point,
    Vector3d.lt_norm_iff]

theorem cornerGrid_exit_retry : find_exit_loop (boxCell 0 ⟨0, -10, 0⟩ 10 10 10 100).faces
    cornerHeel cornerToe cornerB (boxCell 0 ⟨0, -10, 0⟩ 10 10 10 100).faces
      = some cornerA := by
  norm_num [cornerHeel, cornerToe, cornerB, cornerA, boxCell, find_exit_loop, planeFace,
    accept_point, Vector3d.lt_norm_iff]

theorem cornerGrid_exit_back : find_exit_loop (boxCell 1 ⟨0, 0, 0⟩ 10 10 10 100).faces
    cornerA cornerToe cornerA (boxCell 1 ⟨0, 0, 0⟩ 10 10 10 100).faces = some cornerB := by
  norm_num [cornerToe, cornerB, cornerA, boxCell, find_exit_loop, planeFace,
    accept_point, Vector3d.lt_norm_iff]

theorem cornerGrid_exit_forth : find_exit_loop (boxCell 1 ⟨0, 0, 0⟩ 10 10 10 100).faces
    cornerB cornerToe cornerB (boxCell 1 ⟨0, 0, 0⟩ 10 10 10 100).faces = some cornerF := by
  norm_num [cornerToe, cornerB, cornerF, boxCell, find_exit_loop, planeFace,
    accept_point, Vector3d.lt_norm_iff]

theorem cornerGrid_eps : 0.01 / (cornerToe - cornerA).norm = cornerEps := by
  have h : (cornerToe - cornerA).norm = 15 - 1 / 100000 := by
    rw [Vector3d.norm, Real.sqrt_eq_iff_mul_self_eq_of_pos (by norm_num)]
    norm_num [cornerToe, cornerA]
  rw [h, cornerEps]

theorem cornerGrid_collect :
    collect_intersected_cells cornerGrid 3 ⟨[], []⟩ cornerHeel cornerToe (1 / 10)
      = .ok cornerTraversal := by
  have hq : cornerGrid.GetCellEnvelopingPoint cornerHeel []
      = boxCell 0 ⟨0, -10, 0⟩ 10 10 10 100 := by
    norm_num [cornerGrid, cornerHeel]
  have hr : cornerGrid.GetCellEnvelopingPoint cornerToe []
      = boxCell 2 ⟨10, 0, 0⟩ 10 10 10 100 := by
    norm_num [cornerGrid, cornerToe]
  have hp1 : cornerGrid.GetCellEnvelopingPoint
      (cornerA * (1 - cornerEps) + cornerToe * cornerEps) []
      = boxCell 1 ⟨0, 0, 0⟩ 10 10 10 100 := by
    norm_num [cornerGrid, cornerA, cornerToe, cornerEps]
  have hp2 : cornerGrid.GetCellEnvelopingPoint
      (cornerB * (1 - cornerEps) + cornerToe * cornerEps) []
      = boxCell 1 ⟨0, 0, 0⟩ 10 10 10 100 := by
    norm_num [cornerGrid, cornerB, cornerToe, cornerEps]
  have hp3 : cornerGrid.GetCellEnvelopingPoint
      (cornerF * (1 - cornerEps) + cornerToe * cornerEps) []
      = boxCell 2 ⟨10, 0, 0⟩ 10 10 10 100 := by
    norm_num [cornerGrid, cornerF, cornerToe, cornerEps]
  have hdot : (cornerToe - cornerHeel).dot (cornerB - cornerHeel) ≤ 0 := by
    norm_num [cornerToe, cornerHeel, cornerB]
  simp [collect_intersected_cells, traversal_loop, hq, hr, hp1, hp2, hp3, hdot,
    GetIntersectedCellIndex_nil, IntersectedCell.GetIntersectedCellIndex, find_exit_point,
    IntersectedCell.ofCell, cornerGrid_exit_first, cornerGrid_exit_retry, cornerGrid_exit_back,
    cornerGrid_exit_forth, cornerGrid_eps, add_segment_at, IntersectedCell.add_new_segment,
    cornerTraversal, List.findIdx_cons]

namespace Vector3d

theorem norm_eq_of_dot (v : Vector3d) (c : ℝ) (hc : 0 ≤ c) (h : v.dot v = c * c) :
    v.norm = c := by
  rw [norm, h, Real.sqrt_mul_self hc]

end Vector3d

/-- C4 on the code: on the regular grid `cornerGrid`, whose faces are planes, the traversal
from `cornerHeel` to `cornerToe` terminates, yet its second segment runs backwards (from
`cornerA` to `cornerB`, an exit point that the loop takes from `find_exit_point` without the
direction check of the first cell), so the segment lengths add up to `15 + 3/200000`, more than
the distance `15 - 1/200000` from heel to toe. -/
theorem total_length_backtracks :
    (∀ (p : Vector3d) (b : List Int),
      FacesOnLine cornerHeel cornerToe (cornerGrid.GetCellEnvelopingPoint p b))
    ∧ collect_intersected_cells cornerGrid 3 ⟨[], []⟩ cornerHeel cornerToe (1 / 10)
        = .ok cornerTraversal
    ∧ total_length (cornerTraversal.recorded.map Prod.snd) = 15 + 3 / 200000
    ∧ (cornerToe - cornerHeel).norm = 15 - 1 / 200000
    ∧ total_length (cornerTraversal.recorded.map Prod.snd) ≠ (cornerToe - cornerHeel).norm := by
  have hfaces : ∀ (p : Vector3d) (b : List Int),
      FacesOnLine cornerHeel cornerToe (cornerGrid.GetCellEnvelopingPoint p b) := by
    intro p b
    simp only [cornerGrid]
    split
    · split
      · exact boxCell_faces_on_line _ _ _ _ _ _ _ _
      · exact boxCell_faces_on_line _ _ _ _ _ _ _ _
    · exact boxCell_faces_on_line _ _ _ _ _ _ _ _
  have h1 : (cornerA - cornerHeel).norm = 1 / 200000 :=
    Vector3d.norm_eq_of_dot _ _ (by norm_num) (by norm_num [cornerA, cornerHeel])
  have h2 : (cornerB - cornerA).norm = 1 / 100000 :=
    Vector3d.norm_eq_of_dot _ _ (by norm_num) (by norm_num [cornerA, cornerB])
  have h3 : (cornerF - cornerB).norm = 25 / 2 :=
    Vector3d.norm_eq_of_dot _ _ (by norm_num) (by norm_num [cornerF, cornerB])
  have h4 : (cornerToe - cornerF).norm = 5 / 2 :=
    Vector3d.norm_eq_of_dot _ _ (by norm_num) (by norm_num [cornerF, cornerToe])
  have h5 : (cornerToe - cornerHeel).norm = 15 - 1 / 200000 :=
    Vector3d.norm_eq_of_dot _ _ (by norm_num) (by norm_num [cornerHeel, cornerToe])
  have hsum : total_length (cornerTraversal.recorded.map Prod.snd) = 15 + 3 / 200000 := by
    simp only [total_length, cornerTraversal, List.map_cons, List.map_nil, List.sum_cons,
      List.sum_nil, h1, h2, h3, h4]
    norm_num
  refine ⟨hfaces, cornerGrid_collect, hsum, h5, ?_⟩
  rw [hsum, h5]
  norm_num

/-! ## C5: a traversal that never stops -/

theorem edgeGrid_exit_first : find_exit_loop (boxCell 0 ⟨0, 0, 0⟩ 10 10 10 100).faces
    edgeHeel edgeToe edgeHeel (boxCell 0 ⟨0, 0, 0⟩ 10 10 10 100).faces = some edgeB1 := by
  norm_num [edgeHeel, edgeToe, edgeB1, boxCell, find_exit_loop, planeFace, accept_point,
    Vector3d.lt_norm_iff]

theorem edgeGrid_exit_retry : find_exit_loop (boxCell 0 ⟨0, 0, 0⟩ 10 10 10 100).faces
    edgeHeel edgeToe edgeB1 (boxCell 0 ⟨0, 0, 0⟩ 10 10 10 100).faces = some edgeB2 := by
  norm_num [edgeHeel, edgeToe, edgeB1, edgeB2, boxCell, find_exit_loop, planeFace,
    accept_point, Vector3d.lt_norm_iff]

theorem edgeGrid_exit_back : find_exit_loop (boxCell 0 ⟨0, 0, 0⟩ 10 10 10 100).faces
    edgeB2 edgeToe edgeB2 (boxCell 0 ⟨0, 0, 0⟩ 10 10 10 100).faces = some edgeB1 := by
  norm_num [edgeToe, edgeB1, edgeB2, boxCell, find_exit_loop, planeFace, accept_point,
    Vector3d.lt_norm_iff]

theorem edgeGrid_exit_forth : find_exit_loop (boxCell 0 ⟨0, 0, 0⟩ 10 10 10 100).faces
    edgeB1 edgeToe edgeB1 (boxCell 0 ⟨0, 0, 0⟩ 10 10 10 100).faces = some edgeB2 := by
  norm_num [edgeToe, edgeB1, edgeB2, boxCell, find_exit_loop, planeFace, accept_point,
    Vector3d.lt_norm_iff]

theorem edgeGrid_eps : 0.01 / (edgeToe - edgeB2).norm = edgeEps := by
  have h : (edgeToe - edgeB2).norm = 15 - 1 / 100000 :=
    Vector3d.norm_eq_of_dot _ _ (by norm_num) (by norm_num [edgeToe, edgeB2])
  rw [h, edgeEps]

/-- On `edgeGrid` the traversal loop, entered with the single record of box 0 and either of
the two grazing points as exit point, hops between the two points: it has not stopped after
any number of iterations. -/
theorem edgeGrid_loop (r : ℝ) : ∀ (fuel : Nat) (segs : List Segment)
    (data : Nat → String → Option ℝ) (w : Option ℝ) (log : List (Nat × Segment)),
    traversal_loop edgeGrid [] edgeToe r edgeEps (boxCell 1 ⟨0, 10, 0⟩ 10 10 10 100) fuel
        ⟨[⟨boxCell 0 ⟨0, 0, 0⟩ 10 10 10 100, segs, data, w⟩], log⟩ edgeB1
        = .error .out_of_fuel
      ∧ traversal_loop edgeGrid [] edgeToe r edgeEps (boxCell 1 ⟨0, 10, 0⟩ 10 10 10 100) fuel
        ⟨[⟨boxCell 0 ⟨0, 0, 0⟩ 10 10 10 100, segs, data, w⟩], log⟩ edgeB2
        = .error .out_of_fuel := by
  have hp1 : edgeGrid.GetCellEnvelopingPoint (edgeB1 * (1 - edgeEps) + edgeToe * edgeEps) []
      = boxCell 0 ⟨0, 0, 0⟩ 10 10 10 100 := by
    norm_num [edgeGrid, edgeB1, edgeToe, edgeEps]
  have hp2 : edgeGrid.GetCellEnvelopingPoint (edgeB2 * (1 - edgeEps) + edgeToe * edgeEps) []
      = boxCell 0 ⟨0, 0, 0⟩ 10 10 10 100 := by
    norm_num [edgeGrid, edgeB2, edgeToe, edgeEps]
  intro fuel
  induction fuel with
  | zero => intro segs data w log; simp [traversal_loop]
  | succ fuel ih =>
    intro segs data w log
    constructor
    · simp [traversal_loop, hp1, IntersectedCell.GetIntersectedCellIndex, find_exit_point,
        edgeGrid_exit_forth, add_segment_at, IntersectedCell.add_new_segment, List.findIdx_cons, (ih _ _ _ _).2]
    · simp [traversal_loop, hp2, IntersectedCell.GetIntersectedCellIndex, find_exit_point,
        edgeGrid_exit_back, add_segment_at, IntersectedCell.add_new_segment, List.findIdx_cons, (ih _ _ _ _).1]

/-- C5 on the code: on the regular two-cell grid `edgeGrid`, with heel and toe in different
cells, `ComputeWellBlocks` has not returned after any number of loop iterations: it neither
terminates normally nor fails with the traversal-overflow error, because the number of
records stays at one. -/
theorem ComputeWellBlocks_never_stops :
    (edgeGrid.GetCellEnvelopingPoint edgeToe []).global_index
        ≠ (edgeGrid.GetCellEnvelopingPoint edgeHeel []).global_index
      ∧ ∀ fuel : Nat,
          ComputeWellBlocks edgeGrid fuel edgeHeel edgeToe (1 / 10) = .error .out_of_fuel := by
  have hq : edgeGrid.GetCellEnvelopingPoint edgeHeel [] = boxCell 0 ⟨0, 0, 0⟩ 10 10 10 100 := by
    norm_num [edgeGrid, edgeHeel]
  have hr : edgeGrid.GetCellEnvelopingPoint edgeToe [] = boxCell 1 ⟨0, 10, 0⟩ 10 10 10 100 := by
    norm_num [edgeGrid, edgeToe]
  have hdot : (edgeToe - edgeHeel).dot (edgeB1 - edgeHeel) ≤ 0 := by
    norm_num [edgeToe, edgeHeel, edgeB1]
  refine ⟨by rw [hq, hr]; simp, fun fuel => ?_⟩
  simp [ComputeWellBlocks, collect_intersected_cells, hq, hr, hdot,
    GetIntersectedCellIndex_nil, find_exit_point, IntersectedCell.ofCell, edgeGrid_exit_first,
    edgeGrid_exit_retry, edgeGrid_eps, add_segment_at, IntersectedCell.add_new_segment]
  rw [(edgeGrid_loop _ fuel _ _ _ _).2]

/-- More fuel does not change an outcome other than `out_of_fuel`: the outcome of the loop is
the outcome of the C++ loop as soon as it is not `out_of_fuel`. -/
theorem traversal_loop_fuel_succ (grid : Grid) (bb_cells : List Int) (end_point : Vector3d)
    (r epsilon : ℝ) (last_cell : Cell) :
    ∀ (fuel : Nat) (t : Traversal) (exit_point : Vector3d),
      traversal_loop grid bb_cells end_point r epsilon last_cell fuel t exit_point
          ≠ .error .out_of_fuel →
      traversal_loop grid bb_cells end_point r epsilon last_cell (fuel + 1) t exit_point
        = traversal_loop grid bb_cells end_point r epsilon last_cell fuel t exit_point := by
  intro fuel
  induction fuel with
  | zero => intro t exit_point h; simp [traversal_loop] at h
  | succ fuel ih =>
    intro t exit_point h
    rw [traversal_loop] at h ⊢
    conv_rhs => rw [traversal_loop]
    simp only at h ⊢
    generalize IntersectedCell.GetIntersectedCellIndex t.cells
      (grid.GetCellEnvelopingPoint (exit_point * (1 - epsilon) + end_point * epsilon) bb_cells)
      = found at h ⊢
    cases hic : found.1[found.2]? with
    | none => rfl
    | some ic =>
      simp only [hic] at h ⊢
      by_cases hlast : ic.cell.global_index = last_cell.global_index
      · simp only [hlast, if_true]
      · simp only [hlast, if_false] at h ⊢
        cases hfind : find_exit_point found.1 found.2 exit_point end_point exit_point with
        | error e => rfl
        | ok p =>
          simp only [hfind] at h ⊢
          cases hadd : add_segment_at { cells := found.1, recorded := t.recorded } found.2
              exit_point p r with
          | error e => rfl
          | ok t2 =>
            simp only [hadd] at h ⊢
            by_cases hlen : t2.cells.length < 500
            · simp only [hlen, if_true] at h ⊢
              exact ih _ _ h
            · simp only [hlen, if_false]

/-! ## The stored diagnostics (used by C12, C16 and C20) -/

/-- What one pass of the loop body leaves in the diagnostics: the values of the segment under
its own index, everything else untouched. -/
theorem segment_step_data (acc : WellIndexSums) (i : Nat) (seg : Segment) (j : Nat)
    (name : String) :
    (segment_step acc i seg).icell.calculation_data j name
      = if j = i then
          (match stored_value acc.icell.cell seg name with
            | some v => some v
            | none => acc.icell.calculation_data j name)
        else acc.icell.calculation_data j name := by
  by_cases hj : j = i
  · simp only [segment_step, IntersectedCell.set_segment_calculation_data, stored_value, hj,
      true_and, if_true]
    by_cases h0 : name = "wz"
    · rw [if_pos h0, if_pos h0]
    rw [if_neg h0, if_neg h0]
    by_cases h1 : name = "wy"
    · rw [if_pos h1, if_pos h1]
    rw [if_neg h1, if_neg h1]
    by_cases h2 : name = "wx"
    · rw [if_pos h2, if_pos h2]
    rw [if_neg h2, if_neg h2]
    by_cases h3 : name = "Lz"
    · rw [if_pos h3, if_pos h3]
    rw [if_neg h3, if_neg h3]
    by_cases h4 : name = "Ly"
    · rw [if_pos h4, if_pos h4]
    rw [if_neg h4, if_neg h4]
    by_cases h5 : name = "Lx"
    · rw [if_pos h5, if_pos h5]
    rw [if_neg h5, if_neg h5]
    by_cases h6 : name = "z"
    · rw [if_pos h6, if_pos h6]
    rw [if_neg h6, if_neg h6]
    by_cases h7 : name = "y"
    · rw [if_pos h7, if_pos h7]
    rw [if_neg h7, if_neg h7]
    by_cases h8 : name = "x"
    · rw [if_pos h8, if_pos h8]
    rw [if_neg h8, if_neg h8]
  · simp [segment_step, IntersectedCell.set_segment_calculation_data, hj]

theorem segment_step_cell (acc : WellIndexSums) (i : Nat) (seg : Segment) :
    (segment_step acc i seg).icell.cell = acc.icell.cell := by
  simp [segment_step, IntersectedCell.set_segment_calculation_data]

/-- The diagnostics after the segment loop started at index `i0`: segment `i0 + k` of `segs` has
its values stored under index `i0 + k`; other entries are those on entry. -/
theorem segment_loop_data (segs : List Segment) :
    ∀ (acc : WellIndexSums) (i0 j : Nat) (name : String),
      (segment_loop acc i0 segs).icell.calculation_data j name
        = match (if i0 ≤ j then segs[j - i0]? else none) with
          | some seg =>
            (match stored_value acc.icell.cell seg name with
              | some v => some v
              | none => acc.icell.calculation_data j name)
          | none => acc.icell.calculation_data j name := by
  induction segs with
  | nil => intro acc i0 j name; simp [segment_loop]
  | cons s rest ih =>
    intro acc i0 j name
    simp only [segment_loop]
    rw [ih, segment_step_cell, segment_step_data]
    by_cases h1 : i0 + 1 ≤ j
    · have h2 : i0 ≤ j := by omega
      have h3 : ¬ j = i0 := by omega
      have h4 : j - i0 = (j - (i0 + 1)) + 1 := by omega
      simp only [h1, h2, h3, if_true, if_false]
      rw [h4, List.getElem?_cons_succ]
    · by_cases h2 : j = i0
      · subst h2
        simp
      · have h3 : ¬ i0 ≤ j := by omega
        simp [h1, h2, h3]

/-- The diagnostics after `compute_well_index`: every segment of the record has its values
stored under its index. -/
theorem compute_cell_well_index_data (ic : IntersectedCell) (j : Nat) (name : String) :
    (compute_cell_well_index ic).calculation_data j name
      = match ic.segments[j]? with
        | some seg =>
          (match stored_value ic.cell seg name with
            | some v => some v
            | none => ic.calculation_data j name)
        | none => ic.calculation_data j name := by
  have h := segment_loop_data ic.segments ⟨0, 0, 0, ic⟩ 0 j name
  simp only [Nat.zero_le, if_true, Nat.sub_zero] at h
  simp only [compute_cell_well_index, IntersectedCell.set_cell_well_index]
  exact h

/-! ## C16: the projected length -/

theorem projected_length_eq_abs_div (a v : Vector3d) (ha : a ≠ ⟨0, 0, 0⟩) :
    projected_length a v = |v.dot a| / a.norm := by
  have hne : a.dot a ≠ 0 := by
    intro h0
    apply ha
    have h := Vector3d.eq_of_dot_sub_self_eq_zero ⟨0, 0, 0⟩ a
      (by simpa [Vector3d.dot] using h0)
    exact h.symm
  have hpos : 0 < a.dot a := lt_of_le_of_ne (Vector3d.dot_self_nonneg a) (Ne.symm hne)
  have hcomm : v.dot a = a.dot v := by simp only [Vector3d.dot]; ring
  have hvec : a * a.dot v / a.dot a = a * (a.dot v / a.dot a) := by
    ext <;> simp <;> ring
  have hnorm : a.norm * a.norm = a.dot a := Real.mul_self_sqrt hpos.le
  have hnpos : 0 < a.norm := Real.sqrt_pos.2 hpos
  rw [projected_length, hvec, Vector3d.norm_scale, abs_div, abs_of_pos hpos, hcomm, ← hnorm]
  field_simp
  ring

/-- C16: for every record and every segment of it, the three lengths that `compute_well_index`
stores for the segment are the projected lengths of `v = exit - entry` on the cell's axis
vectors; and for every `v` and every non-zero axis vector `a` the projected length is
non-negative and equals `|v . a| / norm(a)`, hence `|v . a|` when `a` is a unit vector. -/
theorem compute_well_index_projected_length (ic : IntersectedCell) (j : Nat) (seg : Segment)
    (hseg : ic.segments[j]? = some seg) :
    (compute_cell_well_index ic).calculation_data j "Lx"
        = some (projected_length ic.cell.xvec (seg.exit - seg.entry))
      ∧ (compute_cell_well_index ic).calculation_data j "Ly"
        = some (projected_length ic.cell.yvec (seg.exit - seg.entry))
      ∧ (compute_cell_well_index ic).calculation_data j "Lz"
        = some (projected_length ic.cell.zvec (seg.exit - seg.entry))
      ∧ ∀ a v : Vector3d, a ≠ ⟨0, 0, 0⟩ →
          0 ≤ projected_length a v
            ∧ projected_length a v = |v.dot a| / a.norm
            ∧ (a.norm = 1 → projected_length a v = |v.dot a|) := by
  refine ⟨?_, ?_, ?_, ?_⟩
  · rw [compute_cell_well_index_data, hseg]; simp [stored_value]
  · rw [compute_cell_well_index_data, hseg]; simp [stored_value]
  · rw [compute_cell_well_index_data, hseg]; simp [stored_value]
  · intro a v ha
    refine ⟨Vector3d.norm_nonneg _, projected_length_eq_abs_div a v ha, fun h1 => ?_⟩
    rw [projected_length_eq_abs_div a v ha, h1, div_one]

/-- Witness for C16: the second segment of `twoSegmentRecord`. -/
theorem compute_well_index_projected_length_witness :
    (compute_cell_well_index twoSegmentRecord).calculation_data 1 "Lx"
        = some (projected_length twoSegmentRecord.cell.xvec
            ((⟨0, 5, 5⟩ : Vector3d) - ⟨10, 5, 0⟩))
      ∧ (compute_cell_well_index twoSegmentRecord).calculation_data 1 "Ly"
        = some (projected_length twoSegmentRecord.cell.yvec
            ((⟨0, 5, 5⟩ : Vector3d) - ⟨10, 5, 0⟩))
      ∧ (compute_cell_well_index twoSegmentRecord).calculation_data 1 "Lz"
        = some (projected_length twoSegmentRecord.cell.zvec
            ((⟨0, 5, 5⟩ : Vector3d) - ⟨10, 5, 0⟩))
      ∧ ∀ a v : Vector3d, a ≠ ⟨0, 0, 0⟩ →
          0 ≤ projected_length a v
            ∧ projected_length a v = |v.dot a| / a.norm
            ∧ (a.norm = 1 → projected_length a v = |v.dot a|) :=
  compute_well_index_projected_length twoSegmentRecord 1 ⟨⟨10, 5, 0⟩, ⟨0, 5, 5⟩, 1 / 5⟩ rfl

/-! ## C17: additivity in the length -/

theorem dir_well_index_add (L1 L2 d1 d2 k1 k2 r : ℝ) :
    dir_well_index (L1 + L2) d1 d2 k1 k2 r
      = dir_well_index L1 d1 d2 k1 k2 r + dir_well_index L2 d1 d2 k1 k2 r := by
  simp only [dir_well_index]
  ring

theorem dir_well_index_zero (d1 d2 k1 k2 r : ℝ) : dir_well_index 0 d1 d2 k1 k2 r = 0 := by
  simp [dir_well_index]

/-- The sum of the directional formula over segments of one radius is the formula at the sum
of the lengths. -/
theorem sum_dir_well_index (L : Segment → ℝ) (d1 d2 k1 k2 r : ℝ) :
    ∀ segs : List Segment, (∀ s ∈ segs, s.radius = r) →
      (segs.map (fun s => dir_well_index (L s) d1 d2 k1 k2 s.radius)).sum
        = dir_well_index (segs.map L).sum d1 d2 k1 k2 r := by
  intro segs
  induction segs with
  | nil => intro _; simp [dir_well_index_zero]
  | cons s rest ih =>
    intro h
    simp only [List.map_cons, List.sum_cons]
    rw [ih (fun s1 hs1 => h s1 (List.mem_cons_of_mem _ hs1)), h s (List.mem_cons_self _ _),
      dir_well_index_add]

/-- C17: `dir_well_index` is additive in its length argument, and for a record whose segments
all have the same radius `r` each of the three directional sums that `compute_well_index`
accumulates equals the formula applied once to the total projected length. -/
theorem dir_well_index_additive (ic : IntersectedCell) (r : ℝ)
    (h : ∀ s ∈ ic.segments, s.radius = r) :
    (∀ L1 L2 d1 d2 k1 k2 r1 : ℝ, dir_well_index (L1 + L2) d1 d2 k1 k2 r1
        = dir_well_index L1 d1 d2 k1 k2 r1 + dir_well_index L2 d1 d2 k1 k2 r1)
      ∧ (segment_loop ⟨0, 0, 0, ic⟩ 0 ic.segments).well_index_x
        = dir_well_index
            (ic.segments.map (fun s => projected_length ic.cell.xvec (s.exit - s.entry))).sum
            ic.cell.dy ic.cell.dz ic.cell.permy ic.cell.permz r
      ∧ (segment_loop ⟨0, 0, 0, ic⟩ 0 ic.segments).well_index_y
        = dir_well_index
            (ic.segments.map (fun s => projected_length ic.cell.yvec (s.exit - s.entry))).sum
            ic.cell.dx ic.cell.dz ic.cell.permx ic.cell.permz r
      ∧ (segment_loop ⟨0, 0, 0, ic⟩ 0 ic.segments).well_index_z
        = dir_well_index
            (ic.segments.map (fun s => projected_length ic.cell.zvec (s.exit - s.entry))).sum
            ic.cell.dx ic.cell.dy ic.cell.permx ic.cell.permy r := by
  obtain ⟨h1, h2, h3⟩ := segment_loop_sums ic.segments ⟨0, 0, 0, ic⟩ 0
  refine ⟨dir_well_index_add, ?_, ?_, ?_⟩
  · rw [h1, zero_add]
    exact sum_dir_well_index _ _ _ _ _ r ic.segments h
  · rw [h2, zero_add]
    exact sum_dir_well_index _ _ _ _ _ r ic.segments h
  · rw [h3, zero_add]
    exact sum_dir_well_index _ _ _ _ _ r ic.segments h

/-- Witness for C17: the record with two segments of radius `1/10`. -/
theorem dir_well_index_additive_witness :
    (∀ L1 L2 d1 d2 k1 k2 r1 : ℝ, dir_well_index (L1 + L2) d1 d2 k1 k2 r1
        = dir_well_index L1 d1 d2 k1 k2 r1 + dir_well_index L2 d1 d2 k1 k2 r1)
      ∧ (segment_loop ⟨0, 0, 0, equalRadiusRecord⟩ 0 equalRadiusRecord.segments).well_index_x
        = dir_well_index
            (equalRadiusRecord.segments.map
              (fun s => projected_length equalRadiusRecord.cell.xvec (s.exit - s.entry))).sum
            equalRadiusRecord.cell.dy equalRadiusRecord.cell.dz equalRadiusRecord.cell.permy
            equalRadiusRecord.cell.permz (1 / 10)
      ∧ (segment_loop ⟨0, 0, 0, equalRadiusRecord⟩ 0 equalRadiusRecord.segments).well_index_y
        = dir_well_index
            (equalRadiusRecord.segments.map
              (fun s => projected_length equalRadiusRecord.cell.yvec (s.exit - s.entry))).sum
            equalRadiusRecord.cell.dx equalRadiusRecord.cell.dz equalRadiusRecord.cell.permx
            equalRadiusRecord.cell.permz (1 / 10)
      ∧ (segment_loop ⟨0, 0, 0, equalRadiusRecord⟩ 0 equalRadiusRecord.segments).well_index_z
        = dir_well_index
            (equalRadiusRecord.segments.map
              (fun s => projected_length equalRadiusRecord.cell.zvec (s.exit - s.entry))).sum
            equalRadiusRecord.cell.dx equalRadiusRecord.cell.dy equalRadiusRecord.cell.permx
            equalRadiusRecord.cell.permy (1 / 10) :=
  dir_well_index_additive equalRadiusRecord (1 / 10) (by
    intro s hs
    simp only [equalRadiusRecord, List.mem_cons, List.mem_singleton, List.not_mem_nil,
      or_false] at hs
    rcases hs with rfl | rfl <;> rfl)

/-! ## C19: the equivalent radius -/

/-- C19: for equal positive permeabilities the equivalent wellblock radius is
`0.14 * sqrt(d1^2 + d2^2)`, whatever the permeability value, and for all positive `k1`, `k2` it
is unchanged when the two transverse directions are exchanged. -/
theorem dir_wellblock_radius_isotropic_symmetric (d1 d2 k1 k2 : ℝ) (h1 : 0 < k1)
    (h2 : 0 < k2) :
    (k1 = k2 → dir_wellblock_radius d1 d2 k1 k2 = 0.14 * Real.sqrt (d1 ^ 2 + d2 ^ 2))
      ∧ dir_wellblock_radius d1 d2 k1 k2 = dir_wellblock_radius d2 d1 k2 k1 := by
  constructor
  · intro hk
    subst hk
    simp only [dir_wellblock_radius, div_self h1.ne', Real.sqrt_one, mul_one]
    rw [show d1 * d1 + d2 * d2 = d1 ^ 2 + d2 ^ 2 by ring]
    ring
  · simp only [dir_wellblock_radius]
    rw [add_comm (d1 * d1 * Real.sqrt (k2 / k1)), add_comm (Real.sqrt (Real.sqrt (k1 / k2)))]

/-- Witness for C19: sides 3 and 4 with permeability 100 in both directions. -/
theorem dir_wellblock_radius_isotropic_symmetric_witness :
    ((100 : ℝ) = 100 → dir_wellblock_radius 3 4 100 100 = 0.14 * Real.sqrt (3 ^ 2 + 4 ^ 2))
      ∧ dir_wellblock_radius 3 4 100 100 = dir_wellblock_radius 4 3 100 100 :=
  dir_wellblock_radius_isotropic_symmetric 3 4 100 100 (by norm_num) (by norm_num)

/-! ## C12: isotropic cube -/

/-- C12: for a record whose cell has `kx = ky = kz = k` and `dx = dy = dz = d` and which holds
a single segment whose three projected lengths are equal, `compute_well_index` stores the same
value as `wx`, `wy` and `wz` of that segment (for every `k` and `d`, positive or not). -/
theorem compute_well_index_isotropic (cells : List IntersectedCell) (cell_index : Nat)
    (ic : IntersectedCell) (seg : Segment) (k d : ℝ)
    (hic : cells[cell_index]? = some ic) (hseg : ic.segments = [seg])
    (hkx : ic.cell.permx = k) (hky : ic.cell.permy = k) (hkz : ic.cell.permz = k)
    (hdx : ic.cell.dx = d) (hdy : ic.cell.dy = d) (hdz : ic.cell.dz = d)
    (hxy : projected_length ic.cell.xvec (seg.exit - seg.entry)
      = projected_length ic.cell.yvec (seg.exit - seg.entry))
    (hyz : projected_length ic.cell.yvec (seg.exit - seg.entry)
      = projected_length ic.cell.zvec (seg.exit - seg.entry)) :
    ∃ (ic1 : IntersectedCell) (w : ℝ),
      compute_well_index cells cell_index = .ok (cells.set cell_index ic1)
        ∧ ic1.calculation_data 0 "wx" = some w
        ∧ ic1.calculation_data 0 "wy" = some w
        ∧ ic1.calculation_data 0 "wz" = some w := by
  refine ⟨compute_cell_well_index ic,
    dir_well_index (projected_length ic.cell.zvec (seg.exit - seg.entry)) d d k k seg.radius,
    by simp [compute_well_index, hic], ?_, ?_, ?_⟩
  · rw [compute_cell_well_index_data, hseg]
    simp [stored_value, hkx, hky, hkz, hdx, hdy, hdz, hxy, hyz]
  · rw [compute_cell_well_index_data, hseg]
    simp [stored_value, hkx, hky, hkz, hdx, hdy, hdz, hxy, hyz]
  · rw [compute_cell_well_index_data, hseg]
    simp [stored_value, hkx, hky, hkz, hdx, hdy, hdz, hxy, hyz]

theorem diagonalRecord_lengths :
    projected_length diagonalRecord.cell.xvec ((⟨5, 5, 5⟩ : Vector3d) - ⟨0, 0, 0⟩)
        = projected_length diagonalRecord.cell.yvec ((⟨5, 5, 5⟩ : Vector3d) - ⟨0, 0, 0⟩)
      ∧ projected_length diagonalRecord.cell.yvec ((⟨5, 5, 5⟩ : Vector3d) - ⟨0, 0, 0⟩)
        = projected_length diagonalRecord.cell.zvec ((⟨5, 5, 5⟩ : Vector3d) - ⟨0, 0, 0⟩) := by
  constructor <;> norm_num [projected_length, diagonalRecord, boxCell, Vector3d.norm]

/-- Witness for C12: the diagonal of the box `[0,10]^3` with permeability 100. -/
theorem compute_well_index_isotropic_witness :
    ∃ (ic1 : IntersectedCell) (w : ℝ),
      compute_well_index [diagonalRecord] 0 = .ok ([diagonalRecord].set 0 ic1)
        ∧ ic1.calculation_data 0 "wx" = some w
        ∧ ic1.calculation_data 0 "wy" = some w
        ∧ ic1.calculation_data 0 "wz" = some w :=
  compute_well_index_isotropic [diagonalRecord] 0 diagonalRecord
    ⟨⟨0, 0, 0⟩, ⟨5, 5, 5⟩, 1 / 10⟩ 100 10 rfl rfl rfl rfl rfl rfl rfl rfl
    diagonalRecord_lengths.1 diagonalRecord_lengths.2

/-! ## C20: the direction of travel -/

theorem projected_length_swap (a p q : Vector3d) :
    projected_length a (p - q) = projected_length a (q - p) := by
  simp only [projected_length, Vector3d.norm]
  congr 1
  simp only [Vector3d.dot, Vector3d.sdiv_x, Vector3d.sdiv_y, Vector3d.sdiv_z, Vector3d.scale_x,
    Vector3d.scale_y, Vector3d.scale_z, Vector3d.sub_x, Vector3d.sub_y, Vector3d.sub_z]
  ring

theorem map_set_of_eq {α β : Type} (f : α → β) : ∀ (l : List α) (i : Nat) (a b : α),
    l[i]? = some b → f a = f b → (l.set i a).map f = l.map f := by
  intro l
  induction l with
  | nil => intro i a b h; simp at h
  | cons x rest ih =>
    intro i a b h hf
    cases i with
    | zero =>
      simp only [List.getElem?_cons_zero, Option.some.injEq] at h
      simp [hf, h]
    | succ i =>
      simp only [List.getElem?_cons_succ] at h
      simp [ih i a b h hf]

/-- C20: exchanging the entry and the exit point of the segment with index `i` of a record
leaves the cell's well index and, for every segment, the stored `Lx`, `Ly`, `Lz`, `wx`, `wy`,
`wz` unchanged; of segment `i` only the stored components `x`, `y`, `z` change, to their
negatives. -/
theorem compute_well_index_reversed (ic : IntersectedCell) (i : Nat) (seg : Segment)
    (hseg : ic.segments[i]? = some seg) :
    (compute_cell_well_index { ic with segments := ic.segments.set i seg.reversed }).well_index
        = (compute_cell_well_index ic).well_index
      ∧ (∀ (j : Nat) (name : String), name ∈ ["Lx", "Ly", "Lz", "wx", "wy", "wz"] →
          (compute_cell_well_index { ic with segments := ic.segments.set i seg.reversed }
            ).calculation_data j name
            = (compute_cell_well_index ic).calculation_data j name)
      ∧ (∀ (j : Nat) (name : String), j ≠ i →
          (compute_cell_well_index { ic with segments := ic.segments.set i seg.reversed }
            ).calculation_data j name
            = (compute_cell_well_index ic).calculation_data j name)
      ∧ (compute_cell_well_index ic).calculation_data i "x" = some (seg.exit - seg.entry).x
      ∧ (compute_cell_well_index ic).calculation_data i "y" = some (seg.exit - seg.entry).y
      ∧ (compute_cell_well_index ic).calculation_data i "z" = some (seg.exit - seg.entry).z
      ∧ (compute_cell_well_index { ic with segments := ic.segments.set i seg.reversed }
          ).calculation_data i "x" = some (-(seg.exit - seg.entry).x)
      ∧ (compute_cell_well_index { ic with segments := ic.segments.set i seg.reversed }
          ).calculation_data i "y" = some (-(seg.exit - seg.entry).y)
      ∧ (compute_cell_well_index { ic with segments := ic.segments.set i seg.reversed }
          ).calculation_data i "z" = some (-(seg.exit - seg.entry).z) := by
  have hlt : i < ic.segments.length := (List.getElem?_eq_some_iff.1 hseg).1
  have hrev : (ic.segments.set i seg.reversed)[i]? = some seg.reversed :=
    List.getElem?_set_self hlt
  have hstored : ∀ name : String, name ∈ ["Lx", "Ly", "Lz", "wx", "wy", "wz"] →
      stored_value ic.cell seg.reversed name = stored_value ic.cell seg name := by
    intro name hname
    simp only [List.mem_cons, List.mem_singleton, List.not_mem_nil, or_false] at hname
    rcases hname with rfl | rfl | rfl | rfl | rfl | rfl <;>
      simp [stored_value, Segment.reversed, projected_length_swap _ seg.entry seg.exit]
  refine ⟨?_, ?_, ?_, ?_, ?_, ?_, ?_, ?_, ?_⟩
  · rw [compute_cell_well_index_value, compute_cell_well_index_value]
    obtain ⟨a1, a2, a3⟩ := segment_loop_sums (ic.segments.set i seg.reversed)
      ⟨0, 0, 0, { ic with segments := ic.segments.set i seg.reversed }⟩ 0
    obtain ⟨b1, b2, b3⟩ := segment_loop_sums ic.segments ⟨0, 0, 0, ic⟩ 0
    simp only [a1, a2, a3, b1, b2, b3]
    rw [map_set_of_eq _ ic.segments i seg.reversed seg hseg
        (by simp [Segment.reversed, projected_length_swap _ seg.entry seg.exit]),
      map_set_of_eq _ ic.segments i seg.reversed seg hseg
        (by simp [Segment.reversed, projected_length_swap _ seg.entry seg.exit]),
      map_set_of_eq _ ic.segments i seg.reversed seg hseg
        (by simp [Segment.reversed, projected_length_swap _ seg.entry seg.exit])]
  · intro j name hname
    rw [compute_cell_well_index_data, compute_cell_well_index_data]
    by_cases hj : i = j
    · subst hj
      simp only [hrev, hseg, hstored name hname]
    · simp only [List.getElem?_set_ne hj]
  · intro j name hj
    rw [compute_cell_well_index_data, compute_cell_well_index_data]
    simp only [List.getElem?_set_ne (Ne.symm hj)]
  · rw [compute_cell_well_index_data, hseg]; simp [stored_value]
  · rw [compute_cell_well_index_data, hseg]; simp [stored_value]
  · rw [compute_cell_well_index_data, hseg]; simp [stored_value]
  · rw [compute_cell_well_index_data]
    simp only [hrev]
    simp [stored_value, Segment.reversed]
  · rw [compute_cell_well_index_data]
    simp only [hrev]
    simp [stored_value, Segment.reversed]
  · rw [compute_cell_well_index_data]
    simp only [hrev]
    simp [stored_value, Segment.reversed]

/-- Witness for C20: the second segment of `twoSegmentRecord`. -/
theorem compute_well_index_reversed_witness :
    (compute_cell_well_index reversedRecord).well_index
        = (compute_cell_well_index twoSegmentRecord).well_index
      ∧ (∀ (j : Nat) (name : String), name ∈ ["Lx", "Ly", "Lz", "wx", "wy", "wz"] →
          (compute_cell_well_index reversedRecord).calculation_data j name
            = (compute_cell_well_index twoSegmentRecord).calculation_data j name)
      ∧ (∀ (j : Nat) (name : String), j ≠ 1 →
          (compute_cell_well_index reversedRecord).calculation_data j name
            = (compute_cell_well_index twoSegmentRecord).calculation_data j name)
      ∧ (compute_cell_well_index twoSegmentRecord).calculation_data 1 "x"
          = some ((⟨0, 5, 5⟩ : Vector3d) - ⟨10, 5, 0⟩).x
      ∧ (compute_cell_well_index twoSegmentRecord).calculation_data 1 "y"
          = some ((⟨0, 5, 5⟩ : Vector3d) - ⟨10, 5, 0⟩).y
      ∧ (compute_cell_well_index twoSegmentRecord).calculation_data 1 "z"
          = some ((⟨0, 5, 5⟩ : Vector3d) - ⟨10, 5, 0⟩).z
      ∧ (compute_cell_well_index reversedRecord).calculation_data 1 "x"
          = some (-((⟨0, 5, 5⟩ : Vector3d) - ⟨10, 5, 0⟩).x)
      ∧ (compute_cell_well_index reversedRecord).calculation_data 1 "y"
          = some (-((⟨0, 5, 5⟩ : Vector3d) - ⟨10, 5, 0⟩).y)
      ∧ (compute_cell_well_index reversedRecord).calculation_data 1 "z"
          = some (-((⟨0, 5, 5⟩ : Vector3d) - ⟨10, 5, 0⟩).z) :=
  compute_well_index_reversed twoSegmentRecord 1 ⟨⟨10, 5, 0⟩, ⟨0, 5, 5⟩, 1 / 5⟩ rfl

/-! ## C11: the thresholds of the acceptance test -/

/-- C11 fails on the code: in the box `[0,10]^3` the candidate `edgeB1 = (0, -0.000008, 5)` is
accepted although the same-side predicate of the face `y = 0` fails for it with tolerance
`0.000001`; and the candidate `(10,5,5)` is rejected for the exception point
`(10 - 0.0000000005, 5, 5)` although it is on the right side of every face with tolerance
`0.000001`, farther than `0.0000000001` from the exception point and not beyond the end. -/
theorem accept_point_not_1e6 :
    accept_point (boxCell 0 ⟨0, 0, 0⟩ 10 10 10 100).faces edgeHeel edgeToe edgeHeel edgeB1
        = true
      ∧ ¬ (∀ f ∈ (boxCell 0 ⟨0, 0, 0⟩ 10 10 10 100).faces,
          f.point_on_same_side edgeB1 0.000001 = true)
      ∧ accept_point (boxCell 0 ⟨0, 0, 0⟩ 10 10 10 100).faces ⟨5, 5, 5⟩ ⟨15, 5, 5⟩
          ⟨10 - 0.0000000005, 5, 5⟩ ⟨10, 5, 5⟩ = false
      ∧ (∀ f ∈ (boxCell 0 ⟨0, 0, 0⟩ 10 10 10 100).faces,
          f.point_on_same_side ⟨10, 5, 5⟩ 0.000001 = true)
      ∧ ((⟨10 - 0.0000000005, 5, 5⟩ : Vector3d) - ⟨10, 5, 5⟩).norm > 0.0000000001
      ∧ ((⟨15, 5, 5⟩ : Vector3d) - ⟨5, 5, 5⟩).dot ((⟨15, 5, 5⟩ : Vector3d) - ⟨10, 5, 5⟩) ≥ 0 := by
  refine ⟨?_, ?_, ?_, ?_, ?_, ?_⟩
  · norm_num [edgeHeel, edgeToe, edgeB1, boxCell, planeFace, accept_point,
      Vector3d.lt_norm_iff]
  · norm_num [edgeB1, boxCell, planeFace]
  · have h : ¬ ((10e-10 : ℝ) < ((⟨10 - 0.0000000005, 5, 5⟩ : Vector3d) - ⟨10, 5, 5⟩).norm) := by
      rw [Vector3d.lt_norm_iff (by norm_num)]
      norm_num
    simp only [accept_point, decide_eq_false h, Bool.and_false, Bool.false_and]
  · norm_num [boxCell, planeFace]
  · rw [gt_iff_lt, Vector3d.lt_norm_iff (by norm_num)]
    norm_num
  · norm_num

/-- C11 as amended: in `find_exit_point` a candidate is accepted exactly when every face's
same-side predicate holds for it with tolerance `10e-6 = 0.00001`, its distance from the
exception point is greater than `10e-10 = 0.000000001`, and it is not beyond the end point;
these are the thresholds the code passes and compares against. -/
theorem accept_point_thresholds (faces : List Face)
    (entry_point end_point exception_point candidate : Vector3d) :
    accept_point faces entry_point end_point exception_point candidate = true
      ↔ (∀ f ∈ faces, f.point_on_same_side candidate 0.00001 = true)
        ∧ (exception_point - candidate).norm > 0.000000001
        ∧ (end_point - entry_point).dot (end_point - candidate) ≥ 0 := by
  have h1 : (10e-6 : ℝ) = 0.00001 := by norm_num
  have h2 : (10e-10 : ℝ) = 0.000000001 := by norm_num
  simp only [accept_point, Bool.and_eq_true, List.all_eq_true, decide_eq_true_eq, h1, h2,
    and_assoc]

/-! ## C15: the search box -/

/-- The two inflation statements of one axis: the lower side moves by 10% of the extent, the
upper side by 11%, because it is computed from the already lowered lower side. -/
theorem inflate_axis (a b : ℝ) :
    (if a < b then a else b) - 0.1 * ((if a < b then b else a) - (if a < b then a else b))
        = min a b - 0.1 * (max a b - min a b)
      ∧ (if a < b then b else a) + 0.1 * ((if a < b then b else a)
          - ((if a < b then a else b)
            - 0.1 * ((if a < b then b else a) - (if a < b then a else b))))
        = max a b + 0.11 * (max a b - min a b) := by
  by_cases h : a < b
  · simp only [h, if_true, min_eq_left h.le, max_eq_right h.le]
    constructor <;> ring_nf
  · have h1 : b ≤ a := not_lt.1 h
    simp only [h, if_false, min_eq_right h1, max_eq_left h1]
    constructor <;> ring_nf

/-- C15 on the code: for heel `(0,0,0)` and toe `(10,10,10)` the search box is
`[-1, 11.1]` on every axis, not `[-1, 11]`: the upper side is computed from the already lowered
lower side. In general, on each axis the lower side is `lo - 0.1*(hi - lo)` and the upper side
`hi + 0.11*(hi - lo)`. -/
theorem search_box_upper_side :
    search_box ⟨0, 0, 0⟩ ⟨10, 10, 10⟩ = (-1, -1, -1, 11.1, 11.1, 11.1)
      ∧ (11.1 : ℝ) ≠ 10 + 0.1 * (10 - 0)
      ∧ ∀ heel toe : Vector3d,
          search_box heel toe
            = (min heel.x toe.x - 0.1 * (max heel.x toe.x - min heel.x toe.x),
               min heel.y toe.y - 0.1 * (max heel.y toe.y - min heel.y toe.y),
               min heel.z toe.z - 0.1 * (max heel.z toe.z - min heel.z toe.z),
               max heel.x toe.x + 0.11 * (max heel.x toe.x - min heel.x toe.x),
               max heel.y toe.y + 0.11 * (max heel.y toe.y - min heel.y toe.y),
               max heel.z toe.z + 0.11 * (max heel.z toe.z - min heel.z toe.z)) := by
  refine ⟨?_, by norm_num, ?_⟩
  · norm_num [search_box]
  · intro heel toe
    simp only [search_box]
    rw [(inflate_axis heel.x toe.x).2, (inflate_axis heel.y toe.y).2,
      (inflate_axis heel.z toe.z).2, (inflate_axis heel.x toe.x).1,
      (inflate_axis heel.y toe.y).1, (inflate_axis heel.z toe.z).1]

/-! ## C14: the postcondition of the traversal -/

/-- The record that `GetIntersectedCellIndex` points to has the global index of the grid
cell. -/
theorem GetIntersectedCellIndex_spec (cells : List IntersectedCell) (c : Cell) :
    ∃ ic : IntersectedCell,
      (IntersectedCell.GetIntersectedCellIndex cells c).1[
          (IntersectedCell.GetIntersectedCellIndex cells c).2]? = some ic
        ∧ ic.cell.global_index = c.global_index := by
  unfold IntersectedCell.GetIntersectedCellIndex
  by_cases h : cells.findIdx (fun ic => decide (ic.cell.global_index = c.global_index))
      < cells.length
  · refine ⟨cells[cells.findIdx (fun ic => decide (ic.cell.global_index = c.global_index))],
      by simp [h], ?_⟩
    have hp := List.findIdx_getElem (w := h)
    simpa using hp
  · refine ⟨IntersectedCell.ofCell c, by simp [h], rfl⟩

/-- A segment appended to a record is the last entry of the log and leaves the cell of the
record as it is. -/
theorem add_segment_at_last (t t2 : Traversal) (idx : Nat) (a b : Vector3d) (r : ℝ)
    (ic : IntersectedCell) (hic : t.cells[idx]? = some ic)
    (h : add_segment_at t idx a b r = .ok t2) :
    t2.recorded.getLast? = some (idx, ⟨a, b, r⟩)
      ∧ ∃ ic2 : IntersectedCell, t2.cells[idx]? = some ic2 ∧ ic2.cell = ic.cell := by
  obtain ⟨ic0, hic0, hcells, hlog⟩ := add_segment_at_ok t t2 idx a b r h
  have hlt : idx < t.cells.length := (List.getElem?_eq_some_iff.1 hic).1
  rw [hic] at hic0
  simp only [Option.some.injEq] at hic0
  refine ⟨by rw [hlog]; simp, ic0.add_new_segment a b r, ?_, ?_⟩
  · rw [hcells, List.getElem?_set_self hlt]
  · rw [← hic0]; rfl

/-- When the traversal loop stops normally, the record that received the final segment has the
global index of the last cell, and the final segment is the last entry of the log and ends at
the end point. -/
theorem traversal_loop_final (grid : Grid) (bb_cells : List Int) (end_point : Vector3d)
    (r epsilon : ℝ) (last_cell : Cell) :
    ∀ (fuel : Nat) (t : Traversal) (exit_point : Vector3d) (t1 : Traversal) (idx : Nat),
      traversal_loop grid bb_cells end_point r epsilon last_cell fuel t exit_point
        = .ok (t1, idx) →
      ∃ (ic : IntersectedCell) (seg : Segment),
        t1.cells[idx]? = some ic ∧ ic.cell.global_index = last_cell.global_index
          ∧ t1.recorded.getLast? = some (idx, seg) ∧ seg.exit = end_point := by
  intro fuel
  induction fuel with
  | zero => intro t exit_point t1 idx h; simp [traversal_loop] at h
  | succ fuel ih =>
    intro t exit_point t1 idx h
    rw [traversal_loop] at h
    simp only at h
    generalize IntersectedCell.GetIntersectedCellIndex t.cells
      (grid.GetCellEnvelopingPoint (exit_point * (1 - epsilon) + end_point * epsilon) bb_cells)
      = found at h
    cases hic : found.1[found.2]? with
    | none => simp only [hic] at h; cases h
    | some ic =>
      simp only [hic] at h
      by_cases hlast : ic.cell.global_index = last_cell.global_index
      · simp only [hlast, if_true] at h
        cases hadd : add_segment_at { cells := found.1, recorded := t.recorded } found.2
            exit_point end_point r with
        | error e => simp only [hadd] at h; cases h
        | ok t2 =>
          simp only [hadd, Except.ok.injEq, Prod.mk.injEq] at h
          obtain ⟨h1, h2⟩ := h
          subst h1
          subst h2
          obtain ⟨hl, ic2, hic2, hcell⟩ := add_segment_at_last _ _ _ _ _ _ ic hic hadd
          exact ⟨ic2, _, hic2, by rw [hcell]; exact hlast, hl, rfl⟩
      · simp only [hlast, if_false] at h
        cases hfind : find_exit_point found.1 found.2 exit_point end_point exit_point with
        | error e => simp only [hfind] at h; cases h
        | ok p =>
          simp only [hfind] at h
          cases hadd : add_segment_at { cells := found.1, recorded := t.recorded } found.2
              exit_point p r with
          | error e => simp only [hadd] at h; cases h
          | ok t2 =>
            simp only [hadd] at h
            by_cases hlen : t2.cells.length < 500
            · simp only [hlen, if_true] at h
              exact ih _ _ _ _ h
            · simp only [hlen, if_false] at h
              cases h

theorem add_segment_at_error (t : Traversal) (idx : Nat) (a b : Vector3d) (r : ℝ) (e : Err)
    (h : add_segment_at t idx a b r = .error e) : e = .out_of_range := by
  unfold add_segment_at at h
  split at h
  · simp only [Except.error.injEq] at h; exact h.symm
  · cases h

theorem find_exit_point_error (cells : List IntersectedCell) (idx : Nat)
    (a b c : Vector3d) (e : Err) (h : find_exit_point cells idx a b c = .error e) :
    e = .out_of_range := by
  unfold find_exit_point at h
  split at h
  · simp only [Except.error.injEq] at h; exact h.symm
  · split at h <;> cases h

/-- The traversal loop itself never fails with the postcondition error. -/
theorem traversal_loop_ne_postcondition (grid : Grid) (bb_cells : List Int)
    (end_point : Vector3d) (r epsilon : ℝ) (last_cell : Cell) :
    ∀ (fuel : Nat) (t : Traversal) (exit_point : Vector3d),
      traversal_loop grid bb_cells end_point r epsilon last_cell fuel t exit_point
        ≠ .error .postcondition_failed := by
  intro fuel
  induction fuel with
  | zero => intro t exit_point; simp [traversal_loop]
  | succ fuel ih =>
    intro t exit_point
    rw [traversal_loop]
    simp only
    generalize IntersectedCell.GetIntersectedCellIndex t.cells
      (grid.GetCellEnvelopingPoint (exit_point * (1 - epsilon) + end_point * epsilon) bb_cells)
      = found
    cases hic : found.1[found.2]? with
    | none => simp
    | some ic =>
      simp only
      by_cases hlast : ic.cell.global_index = last_cell.global_index
      · simp only [hlast, if_true]
        cases hadd : add_segment_at { cells := found.1, recorded := t.recorded } found.2
            exit_point end_point r with
        | error e => rw [add_segment_at_error _ _ _ _ _ _ hadd]; simp
        | ok t2 => simp
      · simp only [hlast, if_false]
        cases hfind : find_exit_point found.1 found.2 exit_point end_point exit_point with
        | error e => rw [find_exit_point_error _ _ _ _ _ _ hfind]; simp
        | ok p =>
          simp only
          cases hadd : add_segment_at { cells := found.1, recorded := t.recorded } found.2
              exit_point p r with
          | error e => rw [add_segment_at_error _ _ _ _ _ _ hadd]; simp
          | ok t2 =>
            simp only
            by_cases hlen : t2.cells.length < 500
            · simp only [hlen, if_true]
              exact ih _ _
            · simp [hlen]

/-- C14: the traversal never fails with the postcondition (geometric-consistency) error, and
whenever it terminates normally the record that received the final segment, the last one of
the log, which ends at the toe, has the global index of the grid-resolved toe cell. -/
theorem collect_intersected_cells_postcondition (grid : Grid) (fuel : Nat) (t : Traversal)
    (heel toe : Vector3d) (wellbore_radius : ℝ) :
    collect_intersected_cells grid fuel t heel toe wellbore_radius
        ≠ .error .postcondition_failed
      ∧ ∀ t1 : Traversal,
          collect_intersected_cells grid fuel t heel toe wellbore_radius = .ok t1 →
          ∃ (idx : Nat) (seg : Segment) (ic : IntersectedCell),
            t1.recorded.getLast? = some (idx, seg) ∧ seg.exit = toe
              ∧ t1.cells[idx]? = some ic
              ∧ ic.cell.global_index = (grid.GetCellEnvelopingPoint toe []).global_index := by
  simp only [collect_intersected_cells, Int.reduceLT, if_false]
  obtain ⟨ic0, hic0, hidx0⟩ := GetIntersectedCellIndex_spec t.cells
    (grid.GetCellEnvelopingPoint heel [])
  generalize IntersectedCell.GetIntersectedCellIndex t.cells
    (grid.GetCellEnvelopingPoint heel []) = found at hic0 ⊢
  by_cases hsame : (grid.GetCellEnvelopingPoint toe []).global_index
      = (grid.GetCellEnvelopingPoint heel []).global_index
  · simp only [hsame, if_true]
    constructor
    · intro h
      simp [add_segment_at, hic0] at h
    · intro t1 h
      obtain ⟨hl, ic2, hic2, hcell⟩ := add_segment_at_last _ _ _ _ _ _ ic0 hic0 h
      exact ⟨_, _, ic2, hl, rfl, hic2, by rw [hcell, hidx0]⟩
  · simp only [hsame, if_false]
    cases hfirst : find_exit_point found.1 found.2 heel toe heel with
    | error e =>
      simp only [hfirst]
      refine ⟨?_, fun t1 h => by cases h⟩
      simp only [find_exit_point, hic0] at hfirst
      split at hfirst <;> cases hfirst
    | ok first_try =>
      simp only [hfirst]
      generalize hretry : (if (toe - heel).dot (first_try - heel) ≤ 0 then
        find_exit_point found.1 found.2 heel toe first_try else Except.ok first_try) = retried
      cases retried with
      | error e =>
        refine ⟨?_, fun t1 h => by cases h⟩
        simp only [find_exit_point, hic0] at hretry
        split at hretry
        · split at hretry <;> cases hretry
        · cases hretry
      | ok exit_point =>
        simp only
        cases hadd : add_segment_at { cells := found.1, recorded := t.recorded } found.2
            heel exit_point wellbore_radius with
        | error e =>
          refine ⟨?_, fun t1 h => by cases h⟩
          simp only [add_segment_at, hic0] at hadd
          cases hadd
        | ok t2 =>
          simp only
          cases hloop : traversal_loop grid [] toe wellbore_radius
              (0.01 / (toe - exit_point).norm) (grid.GetCellEnvelopingPoint toe []) fuel t2
              exit_point with
          | error e =>
            refine ⟨?_, fun t1 h => by cases h⟩
            simp only
            intro h
            simp only [Except.error.injEq] at h
            subst h
            exact traversal_loop_ne_postcondition _ _ _ _ _ _ _ _ _ hloop
          | ok res =>
            obtain ⟨t3, last_index⟩ := res
            obtain ⟨ic, seg, hic, hgi, hl, hseg⟩ :=
              traversal_loop_final grid [] toe wellbore_radius _ _ fuel t2 exit_point t3
                last_index hloop
            simp only [hic, hgi, if_true]
            refine ⟨by simp, fun t1 h => ?_⟩
            simp only [Except.ok.injEq] at h
            subst h
            exact ⟨last_index, seg, ic, hl, hseg, hic, hgi⟩

/-! ## The probe log agrees with the traversal (used by C13 and C18) -/

/-- The traced loop has the outcome of the loop. -/
theorem traversal_loop_traced_fst (grid : Grid) (bb_cells : List Int) (end_point : Vector3d)
    (r epsilon : ℝ) (last_cell : Cell) :
    ∀ (fuel : Nat) (t : Traversal) (exit_point : Vector3d),
      (traversal_loop_traced grid bb_cells end_point r epsilon last_cell fuel t exit_point).1
        = traversal_loop grid bb_cells end_point r epsilon last_cell fuel t exit_point := by
  intro fuel
  induction fuel with
  | zero => intro t exit_point; simp [traversal_loop, traversal_loop_traced]
  | succ fuel ih =>
    intro t exit_point
    rw [traversal_loop, traversal_loop_traced]
    simp only
    generalize IntersectedCell.GetIntersectedCellIndex t.cells
      (grid.GetCellEnvelopingPoint (exit_point * (1 - epsilon) + end_point * epsilon) bb_cells)
      = found
    cases hic : found.1[found.2]? with
    | none => rfl
    | some ic =>
      simp only
      by_cases hlast : ic.cell.global_index = last_cell.global_index
      · simp only [hlast, if_true]
        cases hadd : add_segment_at { cells := found.1, recorded := t.recorded } found.2
            exit_point end_point r with
        | error e => rfl
        | ok t2 => rfl
      · simp only [hlast, if_false]
        cases hfind : find_exit_point found.1 found.2 exit_point end_point exit_point with
        | error e => rfl
        | ok p =>
          simp only
          cases hadd : add_segment_at { cells := found.1, recorded := t.recorded } found.2
              exit_point p r with
          | error e => rfl
          | ok t2 =>
            simp only
            by_cases hlen : t2.cells.length < 500
            · simp only [hlen, if_true]
              exact ih _ _
            · simp only [hlen, if_false]

/-- The traced traversal has the outcome of the traversal. -/
theorem collect_intersected_cells_traced_fst (grid : Grid) (fuel : Nat) (t : Traversal)
    (start_point end_point : Vector3d) (r : ℝ) :
    (collect_intersected_cells_traced grid fuel t start_point end_point r).1
      = collect_intersected_cells grid fuel t start_point end_point r := by
  simp only [collect_intersected_cells_traced, collect_intersected_cells,
    traversal_loop_traced_fst, Int.reduceLT, if_false]
  generalize IntersectedCell.GetIntersectedCellIndex t.cells
    (grid.GetCellEnvelopingPoint start_point []) = found
  by_cases hsame : (grid.GetCellEnvelopingPoint end_point []).global_index
      = (grid.GetCellEnvelopingPoint start_point []).global_index
  · simp only [hsame, if_true]
  · simp only [hsame, if_false]
    cases hfirst : find_exit_point found.1 found.2 start_point end_point start_point with
    | error e => rfl
    | ok first_try =>
      simp only
      generalize (if (end_point - start_point).dot (first_try - start_point) ≤ 0 then
        find_exit_point found.1 found.2 start_point end_point first_try
        else Except.ok first_try) = retried
      cases retried with
      | error e => rfl
      | ok exit_point =>
        simp only
        cases hadd : add_segment_at { cells := found.1, recorded := t.recorded } found.2
            start_point exit_point r with
        | error e => rfl
        | ok t2 => rfl

/-- Every entry of the probe log of the loop pairs an exit point with the point
`exit + (end - exit) * epsilon`, for the one `epsilon` the loop was entered with; the first
entry is for the exit point the loop was entered with. -/
theorem traversal_loop_traced_probes (grid : Grid) (bb_cells : List Int) (end_point : Vector3d)
    (r epsilon : ℝ) (last_cell : Cell) :
    ∀ (fuel : Nat) (t : Traversal) (exit_point : Vector3d),
      (∀ ep ∈ (traversal_loop_traced grid bb_cells end_point r epsilon last_cell fuel t
          exit_point).2, ep.2 = ep.1 + (end_point - ep.1) * epsilon)
        ∧ ∀ ep, (traversal_loop_traced grid bb_cells end_point r epsilon last_cell fuel t
            exit_point).2.head? = some ep → ep.1 = exit_point := by
  have hprobe : ∀ e : Vector3d,
      e * (1 - epsilon) + end_point * epsilon = e + (end_point - e) * epsilon := by
    intro e; ext <;> simp <;> ring
  intro fuel
  induction fuel with
  | zero => intro t exit_point; simp [traversal_loop_traced]
  | succ fuel ih =>
    intro t exit_point
    rw [traversal_loop_traced]
    simp only
    generalize IntersectedCell.GetIntersectedCellIndex t.cells
      (grid.GetCellEnvelopingPoint (exit_point * (1 - epsilon) + end_point * epsilon) bb_cells)
      = found
    cases hic : found.1[found.2]? with
    | none => simp [hprobe]
    | some ic =>
      simp only
      by_cases hlast : ic.cell.global_index = last_cell.global_index
      · simp only [hlast, if_true]
        cases hadd : add_segment_at { cells := found.1, recorded := t.recorded } found.2
            exit_point end_point r with
        | error e => simp [hprobe]
        | ok t2 => simp [hprobe]
      · simp only [hlast, if_false]
        cases hfind : find_exit_point found.1 found.2 exit_point end_point exit_point with
        | error e => simp [hprobe]
        | ok p =>
          simp only
          cases hadd : add_segment_at { cells := found.1, recorded := t.recorded } found.2
              exit_point p r with
          | error e => simp [hprobe]
          | ok t2 =>
            simp only
            by_cases hlen : t2.cells.length < 500
            · simp only [hlen, if_true]
              refine ⟨?_, by simp⟩
              intro ep hep
              rcases List.mem_cons.1 hep with rfl | hep
              · exact hprobe _
              · exact (ih t2 p).1 ep hep
            · simp [hlen, hprobe]

/-! ## C13: the probe point -/

@[simp] theorem rowCell_global_index (d k : ℝ) (j : Nat) :
    (rowCell d k j).global_index = (j : Int) := rfl

theorem threeCellGrid_exit_first : find_exit_loop (rowCell 10 100 0).faces rowHeel rowToe
    rowHeel (rowCell 10 100 0).faces = some rowExit1 := by
  norm_num [rowHeel, rowToe, rowExit1, rowCell, boxCell, find_exit_loop, planeFace,
    accept_point, Vector3d.lt_norm_iff]

theorem threeCellGrid_exit_second : find_exit_loop (rowCell 10 100 1).faces rowExit1 rowToe
    rowExit1 (rowCell 10 100 1).faces = some rowExit2 := by
  norm_num [rowToe, rowExit1, rowExit2, rowCell, boxCell, find_exit_loop, planeFace,
    accept_point, Vector3d.lt_norm_iff]

theorem threeCellGrid_eps : 0.01 / (rowToe - rowExit1).norm = rowEps := by
  have h : (rowToe - rowExit1).norm = 20 :=
    Vector3d.norm_eq_of_dot _ _ (by norm_num) (by norm_num [rowToe, rowExit1])
  rw [h, rowEps]

/-- The probe log of the traversal of `threeCellGrid` from `rowHeel` to `rowToe`: two
iterations, entered with the exit points `rowExit1` and `rowExit2`. -/
theorem threeCellGrid_probes :
    (collect_intersected_cells_traced threeCellGrid 2 ⟨[], []⟩ rowHeel rowToe (1 / 10)).2
      = (some rowExit1,
          [(rowExit1, rowExit1 * (1 - rowEps) + rowToe * rowEps),
            (rowExit2, rowExit2 * (1 - rowEps) + rowToe * rowEps)]) := by
  have hq : threeCellGrid.GetCellEnvelopingPoint rowHeel [] = rowCell 10 100 0 := by
    norm_num [threeCellGrid, rowHeel]
  have hr : threeCellGrid.GetCellEnvelopingPoint rowToe [] = rowCell 10 100 2 := by
    norm_num [threeCellGrid, rowToe]
  have hp1 : threeCellGrid.GetCellEnvelopingPoint
      (rowExit1 * (1 - rowEps) + rowToe * rowEps) [] = rowCell 10 100 1 := by
    norm_num [threeCellGrid, rowExit1, rowToe, rowEps]
  have hp2 : threeCellGrid.GetCellEnvelopingPoint
      (rowExit2 * (1 - rowEps) + rowToe * rowEps) [] = rowCell 10 100 2 := by
    norm_num [threeCellGrid, rowExit2, rowToe, rowEps]
  have hdot : ¬ ((rowToe - rowHeel).dot (rowExit1 - rowHeel) ≤ 0) := by
    norm_num [rowToe, rowHeel, rowExit1]
  simp [collect_intersected_cells_traced, traversal_loop_traced, hq, hr, hp1, hp2, hdot,
    GetIntersectedCellIndex_nil, IntersectedCell.GetIntersectedCellIndex, find_exit_point,
    IntersectedCell.ofCell, threeCellGrid_exit_first, threeCellGrid_exit_second,
    threeCellGrid_eps, add_segment_at, IntersectedCell.add_new_segment, List.findIdx_cons]

/-- C13 fails on the code: on `threeCellGrid` the second iteration of the loop is entered with
the exit point `(20,0,0)` and probes `(20.005,0,0)`, at distance `0.005` from it, whereas
`exit + (0.01 / norm(toe - exit)) * (toe - exit)` is `(20.01,0,0)`. -/
theorem probe_point_not_at_fixed_distance :
    (collect_intersected_cells_traced threeCellGrid 2 ⟨[], []⟩ rowHeel rowToe (1 / 10)).2.2
        = [(rowExit1, ⟨10.01, 0, 0⟩), (rowExit2, ⟨20.005, 0, 0⟩)]
      ∧ rowExit2 + (rowToe - rowExit2) * (0.01 / (rowToe - rowExit2).norm) = ⟨20.01, 0, 0⟩
      ∧ ((⟨20.005, 0, 0⟩ : Vector3d) - rowExit2).norm = 0.005 := by
  have hn : (rowToe - rowExit2).norm = 10 :=
    Vector3d.norm_eq_of_dot _ _ (by norm_num) (by norm_num [rowToe, rowExit2])
  refine ⟨?_, ?_, ?_⟩
  · rw [threeCellGrid_probes]
    norm_num [rowExit1, rowExit2, rowToe, rowEps]
  · rw [hn]
    norm_num [rowExit2, rowToe]
  · exact Vector3d.norm_eq_of_dot _ _ (by norm_num) (by norm_num [rowExit2])

/-- C13 as amended: the fraction `epsilon = 0.01 / norm(toe - first_exit)` is computed once,
before the loop, from the first exit point. In every iteration the probe point is
`exit + epsilon * (toe - exit)` for the exit point `exit` the iteration is entered with, so it
lies at distance `0.01 * norm(toe - exit) / norm(toe - first_exit)` from it; the first
iteration is entered with the first exit point. -/
theorem probe_point_fixed_fraction (grid : Grid) (fuel : Nat) (t : Traversal)
    (heel toe : Vector3d) (wellbore_radius : ℝ) (first_exit : Vector3d)
    (h : (collect_intersected_cells_traced grid fuel t heel toe wellbore_radius).2.1
      = some first_exit) :
    (∀ ep ∈ (collect_intersected_cells_traced grid fuel t heel toe wellbore_radius).2.2,
        ep.2 = ep.1 + (toe - ep.1) * (0.01 / (toe - first_exit).norm)
          ∧ (ep.2 - ep.1).norm = 0.01 * ((toe - ep.1).norm / (toe - first_exit).norm))
      ∧ ∀ ep, (collect_intersected_cells_traced grid fuel t heel toe wellbore_radius
          ).2.2.head? = some ep → ep.1 = first_exit := by
  have hdist : ∀ e p : Vector3d, p = e + (toe - e) * (0.01 / (toe - first_exit).norm) →
      (p - e).norm = 0.01 * ((toe - e).norm / (toe - first_exit).norm) := by
    intro e p hp
    have hsub : p - e = (toe - e) * (0.01 / (toe - first_exit).norm) := by
      rw [hp]; ext <;> simp
    have hnonneg : 0 ≤ 0.01 / (toe - first_exit).norm :=
      div_nonneg (by norm_num) (Vector3d.norm_nonneg _)
    rw [hsub, Vector3d.norm_scale, abs_of_nonneg hnonneg]
    ring
  simp only [collect_intersected_cells_traced, Int.reduceLT, if_false] at h ⊢
  generalize IntersectedCell.GetIntersectedCellIndex t.cells
    (grid.GetCellEnvelopingPoint heel []) = found at h ⊢
  by_cases hsame : (grid.GetCellEnvelopingPoint toe []).global_index
      = (grid.GetCellEnvelopingPoint heel []).global_index
  · simp only [hsame, if_true] at h
    cases h
  · simp only [hsame, if_false] at h ⊢
    cases hfirst : find_exit_point found.1 found.2 heel toe heel with
    | error e => simp only [hfirst] at h; cases h
    | ok first_try =>
      simp only [hfirst] at h ⊢
      generalize (if (toe - heel).dot (first_try - heel) ≤ 0 then
        find_exit_point found.1 found.2 heel toe first_try
        else Except.ok first_try) = retried at h ⊢
      cases retried with
      | error e => simp only at h; cases h
      | ok exit_point =>
        simp only at h ⊢
        cases hadd : add_segment_at { cells := found.1, recorded := t.recorded } found.2
            heel exit_point wellbore_radius with
        | error e => simp
        | ok t2 =>
          simp only [hadd, Option.some.injEq] at h ⊢
          subst h
          obtain ⟨h1, h2⟩ := traversal_loop_traced_probes grid [] toe wellbore_radius
            (0.01 / (toe - exit_point).norm) (grid.GetCellEnvelopingPoint toe []) fuel t2
            exit_point
          exact ⟨fun ep hep => ⟨h1 ep hep, hdist _ _ (h1 ep hep)⟩, h2⟩

/-- Witness for C13 as amended: the traversal of `threeCellGrid`. -/
theorem probe_point_fixed_fraction_witness :
    (∀ ep ∈ (collect_intersected_cells_traced threeCellGrid 2 ⟨[], []⟩ rowHeel rowToe
          (1 / 10)).2.2,
        ep.2 = ep.1 + (rowToe - ep.1) * (0.01 / (rowToe - rowExit1).norm)
          ∧ (ep.2 - ep.1).norm = 0.01 * ((rowToe - ep.1).norm / (rowToe - rowExit1).norm))
      ∧ ∀ ep, (collect_intersected_cells_traced threeCellGrid 2 ⟨[], []⟩ rowHeel rowToe
          (1 / 10)).2.2.head? = some ep → ep.1 = rowExit1 :=
  probe_point_fixed_fraction threeCellGrid 2 ⟨[], []⟩ rowHeel rowToe (1 / 10) rowExit1
    (by rw [threeCellGrid_probes])

/-! ## C18: the division that computes the probe fraction -/

theorem faceGrid_exit_first : find_exit_loop (boxCell 0 ⟨0, 0, 0⟩ 10 10 10 100).faces
    faceHeel faceToe faceHeel (boxCell 0 ⟨0, 0, 0⟩ 10 10 10 100).faces = some faceBack := by
  norm_num [faceHeel, faceToe, faceBack, boxCell, find_exit_loop, planeFace, accept_point,
    Vector3d.lt_norm_iff]

theorem faceGrid_exit_retry : find_exit_loop (boxCell 0 ⟨0, 0, 0⟩ 10 10 10 100).faces
    faceHeel faceToe faceBack (boxCell 0 ⟨0, 0, 0⟩ 10 10 10 100).faces = some faceToe := by
  norm_num [faceHeel, faceToe, faceBack, boxCell, find_exit_loop, planeFace, accept_point,
    Vector3d.lt_norm_iff]

/-- C18 on the code: on `faceGrid`, with the heel `(5,5,5)` in box 0 and the toe `(10,5,5)`
resolved to box 1, the first exit point chosen by the traversal is the toe itself, so
`norm(toe - exit)` is zero and `epsilon = 0.01 / norm(toe - exit)` divides by zero. -/
theorem first_exit_point_is_toe :
    (faceGrid.GetCellEnvelopingPoint faceToe []).global_index
        ≠ (faceGrid.GetCellEnvelopingPoint faceHeel []).global_index
      ∧ (∀ fuel : Nat,
          (collect_intersected_cells_traced faceGrid fuel ⟨[], []⟩ faceHeel faceToe (1 / 10)).2.1
            = some faceToe)
      ∧ (faceToe - faceToe).norm = 0 := by
  have hq : faceGrid.GetCellEnvelopingPoint faceHeel [] = boxCell 0 ⟨0, 0, 0⟩ 10 10 10 100 := by
    norm_num [faceGrid, faceHeel]
  have hr : faceGrid.GetCellEnvelopingPoint faceToe [] = boxCell 1 ⟨10, 0, 0⟩ 10 10 10 100 := by
    norm_num [faceGrid, faceToe]
  have hdot : (faceToe - faceHeel).dot (faceBack - faceHeel) ≤ 0 := by
    norm_num [faceToe, faceHeel, faceBack]
  refine ⟨by rw [hq, hr]; simp, fun fuel => ?_, Vector3d.norm_sub_self _⟩
  simp [collect_intersected_cells_traced, hq, hr, hdot, GetIntersectedCellIndex_nil,
    find_exit_point, IntersectedCell.ofCell, faceGrid_exit_first, faceGrid_exit_retry,
    add_segment_at]

/-! ## C7: the sign of the well index -/

/-! The checked copy of `compute_well_index`: where it ends in a number it agrees with
`compute_well_index`, and on the domain of the formula it ends in a number. -/

theorem checked_div_ok (a b : ℝ) (hb : b ≠ 0) : checked_div a b = .ok (a / b) := by
  simp [checked_div, hb]

theorem checked_sqrt_ok (a : ℝ) (ha : 0 ≤ a) : checked_sqrt a = .ok (Real.sqrt a) := by
  simp [checked_sqrt, not_lt.2 ha]

theorem checked_log_ok (a : ℝ) (ha : 0 < a) : checked_log a = .ok (Real.log a) := by
  simp [checked_log, not_lt.2 ha.le, ha.ne']

theorem checked_div_value (a b w : ℝ) (h : checked_div a b = .ok w) : w = a / b := by
  unfold checked_div at h
  split_ifs at h
  cases h
  rfl

theorem checked_sqrt_value (a w : ℝ) (h : checked_sqrt a = .ok w) : w = Real.sqrt a := by
  unfold checked_sqrt at h
  split_ifs at h
  cases h
  rfl

theorem checked_log_value (a w : ℝ) (h : checked_log a = .ok w) : w = Real.log a := by
  unfold checked_log at h
  split_ifs at h
  cases h
  rfl

/-- A bind of checked operations that ends in a number went through a number. -/
theorem except_bind_ok {α β : Type} (x : Except Special α) (f : α → Except Special β) (w : β)
    (h : (x >>= f) = .ok w) : ∃ a, x = .ok a ∧ f a = .ok w := by
  cases x with
  | error e => cases h
  | ok a => exact ⟨a, rfl, h⟩

theorem dir_wellblock_radius_checked_value (dx dy kx ky w : ℝ)
    (h : dir_wellblock_radius_checked dx dy kx ky = .ok w) :
    w = dir_wellblock_radius dx dy kx ky := by
  unfold dir_wellblock_radius_checked at h
  obtain ⟨a1, h1, h⟩ := except_bind_ok _ _ _ h
  obtain ⟨a2, h2, h⟩ := except_bind_ok _ _ _ h
  obtain ⟨a3, h3, h⟩ := except_bind_ok _ _ _ h
  obtain ⟨a4, h4, h⟩ := except_bind_ok _ _ _ h
  obtain ⟨a5, h5, h⟩ := except_bind_ok _ _ _ h
  obtain ⟨a6, h6, h⟩ := except_bind_ok _ _ _ h
  obtain ⟨a7, h7, h⟩ := except_bind_ok _ _ _ h
  rw [checked_div_value _ _ _ h, checked_sqrt_value _ _ h7, checked_sqrt_value _ _ h6,
    checked_sqrt_value _ _ h5, checked_sqrt_value _ _ h4, checked_div_value _ _ _ h3,
    checked_sqrt_value _ _ h2, checked_div_value _ _ _ h1]
  rfl

theorem dir_well_index_checked_value (L dy dz ky kz r w : ℝ)
    (h : dir_well_index_checked L dy dz ky kz r = .ok w) :
    w = dir_well_index L dy dz ky kz r := by
  unfold dir_well_index_checked at h
  obtain ⟨a1, h1, h⟩ := except_bind_ok _ _ _ h
  obtain ⟨a2, h2, h⟩ := except_bind_ok _ _ _ h
  obtain ⟨a3, h3, h⟩ := except_bind_ok _ _ _ h
  obtain ⟨a4, h4, h⟩ := except_bind_ok _ _ _ h
  rw [checked_div_value _ _ _ h, checked_log_value _ _ h4, checked_div_value _ _ _ h3,
    dir_wellblock_radius_checked_value _ _ _ _ _ h2, checked_sqrt_value _ _ h1]
  rfl

theorem projected_length_checked_value (a v : Vector3d) (w : ℝ)
    (h : projected_length_checked a v = .ok w) : w = projected_length a v := by
  unfold projected_length_checked at h
  obtain ⟨a1, h1, h⟩ := except_bind_ok _ _ _ h
  obtain ⟨a2, h2, h⟩ := except_bind_ok _ _ _ h
  obtain ⟨a3, h3, h⟩ := except_bind_ok _ _ _ h
  rw [checked_sqrt_value _ _ h, checked_div_value _ _ _ h3, checked_div_value _ _ _ h2,
    checked_div_value _ _ _ h1]
  rfl

theorem segment_step_checked_value (c : Cell) (acc acc1 : ℝ × ℝ × ℝ) (seg : Segment)
    (h : segment_step_checked c acc seg = .ok acc1) :
    acc1 = (acc.1 + dir_well_index (projected_length c.xvec (seg.exit - seg.entry))
              c.dy c.dz c.permy c.permz seg.radius,
            acc.2.1 + dir_well_index (projected_length c.yvec (seg.exit - seg.entry))
              c.dx c.dz c.permx c.permz seg.radius,
            acc.2.2 + dir_well_index (projected_length c.zvec (seg.exit - seg.entry))
              c.dx c.dy c.permx c.permy seg.radius) := by
  unfold segment_step_checked at h
  obtain ⟨a1, h1, h⟩ := except_bind_ok _ _ _ h
  obtain ⟨a2, h2, h⟩ := except_bind_ok _ _ _ h
  obtain ⟨a3, h3, h⟩ := except_bind_ok _ _ _ h
  obtain ⟨a4, h4, h⟩ := except_bind_ok _ _ _ h
  obtain ⟨a5, h5, h⟩ := except_bind_ok _ _ _ h
  obtain ⟨a6, h6, h⟩ := except_bind_ok _ _ _ h
  rw [dir_well_index_checked_value _ _ _ _ _ _ _ h4,
    projected_length_checked_value _ _ _ h1] at h
  rw [dir_well_index_checked_value _ _ _ _ _ _ _ h5,
    projected_length_checked_value _ _ _ h2] at h
  rw [dir_well_index_checked_value _ _ _ _ _ _ _ h6,
    projected_length_checked_value _ _ _ h3] at h
  cases h
  rfl

theorem segment_loop_checked_value (c : Cell) : ∀ (segs : List Segment) (acc s : ℝ × ℝ × ℝ),
    segment_loop_checked c acc segs = .ok s →
    s.1 = acc.1 + (segs.map (fun g => dir_well_index
            (projected_length c.xvec (g.exit - g.entry)) c.dy c.dz c.permy c.permz
            g.radius)).sum
      ∧ s.2.1 = acc.2.1 + (segs.map (fun g => dir_well_index
            (projected_length c.yvec (g.exit - g.entry)) c.dx c.dz c.permx c.permz
            g.radius)).sum
      ∧ s.2.2 = acc.2.2 + (segs.map (fun g => dir_well_index
            (projected_length c.zvec (g.exit - g.entry)) c.dx c.dy c.permx c.permy
            g.radius)).sum := by
  intro segs
  induction segs with
  | nil =>
    intro acc s h
    simp only [segment_loop_checked] at h
    cases h
    simp
  | cons g rest ih =>
    intro acc s h
    simp only [segment_loop_checked] at h
    cases hstep : segment_step_checked c acc g with
    | error e => rw [hstep] at h; cases h
    | ok acc1 =>
      rw [hstep] at h
      obtain ⟨h1, h2, h3⟩ := ih acc1 s h
      rw [segment_step_checked_value c acc acc1 g hstep] at h1 h2 h3
      simp only [List.map_cons, List.sum_cons]
      exact ⟨by rw [h1, add_assoc], by rw [h2, add_assoc], by rw [h3, add_assoc]⟩

/-- The checked copy agrees with `compute_well_index`: when it ends in a number, that number is
the well index that `compute_well_index` stores. -/
theorem compute_well_index_checked_value (ic : IntersectedCell) (w : ℝ)
    (h : compute_well_index_checked ic = .ok w) :
    (compute_cell_well_index ic).well_index = some w := by
  unfold compute_well_index_checked at h
  cases hloop : segment_loop_checked ic.cell (0, 0, 0) ic.segments with
  | error e => rw [hloop] at h; cases h
  | ok s =>
    rw [hloop] at h
    obtain ⟨h1, h2, h3⟩ := segment_loop_checked_value ic.cell ic.segments (0, 0, 0) s hloop
    obtain ⟨g1, g2, g3⟩ := segment_loop_sums ic.segments ⟨0, 0, 0, ic⟩ 0
    rw [compute_cell_well_index_value, checked_sqrt_value _ _ h, g1, g2, g3, h1, h2, h3]

/-- A number stored by the checked copy is never negative. -/
theorem compute_well_index_checked_nonneg (ic : IntersectedCell) (w : ℝ)
    (h : compute_well_index_checked ic = .ok w) : 0 ≤ w := by
  unfold compute_well_index_checked at h
  cases hloop : segment_loop_checked ic.cell (0, 0, 0) ic.segments with
  | error e => rw [hloop] at h; cases h
  | ok s =>
    rw [hloop] at h
    rw [checked_sqrt_value _ _ h]
    exact Real.sqrt_nonneg _

theorem dir_wellblock_radius_checked_ok (dx dy kx ky : ℝ) (hkx : 0 < kx) (hky : 0 < ky) :
    dir_wellblock_radius_checked dx dy kx ky = .ok (dir_wellblock_radius dx dy kx ky) := by
  have h1 : (0 : ℝ) ≤ ky / kx := (div_pos hky hkx).le
  have h2 : (0 : ℝ) ≤ kx / ky := (div_pos hkx hky).le
  have h3 : (0 : ℝ) ≤ (dx * dx) * Real.sqrt (ky / kx) + (dy * dy) * Real.sqrt (kx / ky) :=
    add_nonneg (mul_nonneg (mul_self_nonneg dx) (Real.sqrt_nonneg _))
      (mul_nonneg (mul_self_nonneg dy) (Real.sqrt_nonneg _))
  have h4 : Real.sqrt (Real.sqrt (kx / ky)) + Real.sqrt (Real.sqrt (ky / kx)) ≠ 0 := by
    have : 0 < Real.sqrt (Real.sqrt (kx / ky)) :=
      Real.sqrt_pos.2 (Real.sqrt_pos.2 (div_pos hkx hky))
    have := Real.sqrt_nonneg (Real.sqrt (ky / kx))
    linarith
  unfold dir_wellblock_radius_checked
  rw [checked_div_ok _ _ hkx.ne']
  simp only [bind, Except.bind]
  rw [checked_sqrt_ok _ h1]
  simp only
  rw [checked_div_ok _ _ hky.ne']
  simp only
  rw [checked_sqrt_ok _ h2]
  simp only
  rw [checked_sqrt_ok _ h3]
  simp only
  rw [checked_sqrt_ok _ (Real.sqrt_nonneg _)]
  simp only
  rw [checked_sqrt_ok _ (Real.sqrt_nonneg _)]
  simp only
  rw [checked_div_ok _ _ h4]
  rfl

theorem dir_wellblock_radius_pos (dx dy kx ky : ℝ) (hkx : 0 < kx) (hky : 0 < ky)
    (hdx : 0 < dx) : 0 < dir_wellblock_radius dx dy kx ky := by
  unfold dir_wellblock_radius
  have h1 : 0 < Real.sqrt (ky / kx) := Real.sqrt_pos.2 (div_pos hky hkx)
  have h2 : 0 < Real.sqrt (kx / ky) := Real.sqrt_pos.2 (div_pos hkx hky)
  have h3 : 0 < (dx * dx) * Real.sqrt (ky / kx) + (dy * dy) * Real.sqrt (kx / ky) :=
    add_pos_of_pos_of_nonneg (mul_pos (mul_pos hdx hdx) h1)
      (mul_nonneg (mul_self_nonneg dy) h2.le)
  have h4 : 0 < Real.sqrt (Real.sqrt (kx / ky)) + Real.sqrt (Real.sqrt (ky / kx)) :=
    add_pos (Real.sqrt_pos.2 h2) (Real.sqrt_pos.2 h1)
  exact div_pos (mul_pos (by norm_num) (Real.sqrt_pos.2 h3)) h4

theorem dir_well_index_checked_ok (L dy dz ky kz r : ℝ) (hky : 0 < ky) (hkz : 0 < kz)
    (hdy : 0 < dy) (hr : 0 < r) (hne : r ≠ dir_wellblock_radius dy dz ky kz) :
    dir_well_index_checked L dy dz ky kz r = .ok (dir_well_index L dy dz ky kz r) := by
  have hpos := dir_wellblock_radius_pos dy dz ky kz hky hkz hdy
  have hratio : 0 < dir_wellblock_radius dy dz ky kz / r := div_pos hpos hr
  have hlog : Real.log (dir_wellblock_radius dy dz ky kz / r) ≠ 0 := by
    intro h0
    have h1 : dir_wellblock_radius dy dz ky kz / r = 1 :=
      Real.eq_one_of_pos_of_log_eq_zero hratio h0
    rw [div_eq_one_iff_eq hr.ne'] at h1
    exact hne h1.symm
  unfold dir_well_index_checked
  rw [checked_sqrt_ok _ (mul_pos hky hkz).le]
  simp only [bind, Except.bind]
  rw [dir_wellblock_radius_checked_ok _ _ _ _ hky hkz]
  simp only
  rw [checked_div_ok _ _ hr.ne']
  simp only
  rw [checked_log_ok _ hratio]
  simp only
  rw [checked_div_ok _ _ hlog]
  rfl

/-- With a negative wellbore radius the argument of the logarithm is negative, and the
directional well index is NaN whatever the projected length. -/
theorem dir_well_index_checked_nan (L dy dz ky kz r : ℝ) (hky : 0 < ky) (hkz : 0 < kz)
    (hdy : 0 < dy) (hr : r < 0) :
    dir_well_index_checked L dy dz ky kz r = .error .nan := by
  have hpos := dir_wellblock_radius_pos dy dz ky kz hky hkz hdy
  have hratio : dir_wellblock_radius dy dz ky kz / r < 0 := div_neg_of_pos_of_neg hpos hr
  unfold dir_well_index_checked
  rw [checked_sqrt_ok _ (mul_pos hky hkz).le]
  simp only [bind, Except.bind]
  rw [dir_wellblock_radius_checked_ok _ _ _ _ hky hkz]
  simp only
  rw [checked_div_ok _ _ hr.ne]
  simp only
  simp [checked_log, hratio]

theorem Vector3d.dot_self_ne_zero (a : Vector3d) (ha : a ≠ ⟨0, 0, 0⟩) : a.dot a ≠ 0 := by
  intro h
  apply ha
  have hx := mul_self_nonneg a.x
  have hy := mul_self_nonneg a.y
  have hz := mul_self_nonneg a.z
  simp only [Vector3d.dot] at h
  ext
  · exact mul_self_eq_zero.1 (by linarith)
  · exact mul_self_eq_zero.1 (by linarith)
  · exact mul_self_eq_zero.1 (by linarith)

theorem projected_length_checked_ok (a v : Vector3d) (ha : a ≠ ⟨0, 0, 0⟩) :
    projected_length_checked a v = .ok (projected_length a v) := by
  have hq := Vector3d.dot_self_ne_zero a ha
  unfold projected_length_checked
  simp only [bind, Except.bind]
  simp only [checked_div_ok _ _ hq]
  rw [checked_sqrt_ok _ (add_nonneg (add_nonneg (mul_self_nonneg _) (mul_self_nonneg _))
      (mul_self_nonneg _))]
  rfl

theorem segment_loop_checked_ok (c : Cell)
    (hkx : 0 < c.permx) (hky : 0 < c.permy) (hkz : 0 < c.permz)
    (hdx : 0 < c.dx) (hdy : 0 < c.dy)
    (hax : c.xvec ≠ ⟨0, 0, 0⟩) (hay : c.yvec ≠ ⟨0, 0, 0⟩) (haz : c.zvec ≠ ⟨0, 0, 0⟩) :
    ∀ (segs : List Segment) (acc : ℝ × ℝ × ℝ),
      (∀ seg ∈ segs, 0 < seg.radius
        ∧ seg.radius ≠ dir_wellblock_radius c.dy c.dz c.permy c.permz
        ∧ seg.radius ≠ dir_wellblock_radius c.dx c.dz c.permx c.permz
        ∧ seg.radius ≠ dir_wellblock_radius c.dx c.dy c.permx c.permy) →
      ∃ s, segment_loop_checked c acc segs = .ok s := by
  intro segs
  induction segs with
  | nil => intro acc _; exact ⟨acc, rfl⟩
  | cons g rest ih =>
    intro acc hr
    obtain ⟨hg0, hg1, hg2, hg3⟩ := hr g (List.mem_cons_self _ _)
    have hstep : ∃ acc1, segment_step_checked c acc g = .ok acc1 := by
      unfold segment_step_checked
      simp only [bind, Except.bind]
      rw [projected_length_checked_ok _ _ hax, projected_length_checked_ok _ _ hay,
        projected_length_checked_ok _ _ haz]
      simp only
      rw [dir_well_index_checked_ok _ _ _ _ _ _ hky hkz hdy hg0 hg1,
        dir_well_index_checked_ok _ _ _ _ _ _ hkx hkz hdx hg0 hg2,
        dir_well_index_checked_ok _ _ _ _ _ _ hkx hky hdx hg0 hg3]
      exact ⟨_, rfl⟩
    obtain ⟨acc1, hacc1⟩ := hstep
    obtain ⟨s, hs⟩ := ih acc1 (fun seg hseg => hr seg (List.mem_cons_of_mem _ hseg))
    exact ⟨s, by simp only [segment_loop_checked, hacc1, hs]⟩

/-- The equivalent wellblock radius of the cube of side 10 with equal permeabilities lies
between 1 and 3 (it is `0.14 * sqrt 200`). -/
theorem dir_wellblock_radius_cube_bounds :
    1 < dir_wellblock_radius 10 10 100 100 ∧ dir_wellblock_radius 10 10 100 100 < 3 := by
  have h : dir_wellblock_radius 10 10 100 100 = 0.14 * Real.sqrt 200 := by
    unfold dir_wellblock_radius
    norm_num
    ring
  have h1 : (14 : ℝ) < Real.sqrt 200 := by
    rw [Real.lt_sqrt (by norm_num)]
    norm_num
  have h2 : Real.sqrt 200 < 15 := by
    rw [Real.sqrt_lt' (by norm_num)]
    norm_num
  rw [h]
  constructor <;> linarith

/-- The directional well index is positive for a positive length and a radius below the
equivalent wellblock radius, and negative for a radius above it. -/
theorem dir_well_index_sign (L dy dz ky kz r : ℝ) (hL : 0 < L) (hky : 0 < ky) (hkz : 0 < kz)
    (hdy : 0 < dy) (hr : 0 < r) :
    (r < dir_wellblock_radius dy dz ky kz → 0 < dir_well_index L dy dz ky kz r)
      ∧ (dir_wellblock_radius dy dz ky kz < r → dir_well_index L dy dz ky kz r < 0) := by
  have hpos := dir_wellblock_radius_pos dy dz ky kz hky hkz hdy
  have hnum : 0 < (0.008527 : ℝ) * (2 * Real.pi * Real.sqrt (ky * kz) * L) :=
    mul_pos (by norm_num)
      (mul_pos (mul_pos (mul_pos (by norm_num) Real.pi_pos)
        (Real.sqrt_pos.2 (mul_pos hky hkz))) hL)
  constructor
  · intro h
    exact div_pos hnum (Real.log_pos ((one_lt_div hr).2 h))
  · intro h
    exact div_neg_of_pos_of_neg hnum (Real.log_neg (div_pos hpos hr) ((div_lt_one hr).2 h))

/-- In `mixedSignRecord` the accumulated directional sum along x is positive and the one along
y is negative. -/
theorem mixedSignRecord_sums :
    0 < (segment_loop ⟨0, 0, 0, mixedSignRecord⟩ 0 mixedSignRecord.segments).well_index_x
      ∧ (segment_loop ⟨0, 0, 0, mixedSignRecord⟩ 0 mixedSignRecord.segments).well_index_y
          < 0 := by
  obtain ⟨hlo, hhi⟩ := dir_wellblock_radius_cube_bounds
  obtain ⟨g1, g2, _⟩ := segment_loop_sums mixedSignRecord.segments ⟨0, 0, 0, mixedSignRecord⟩ 0
  have hx1 : projected_length ⟨1, 0, 0⟩ ((⟨10, 0, 0⟩ : Vector3d) - ⟨0, 0, 0⟩) = 10 := by
    rw [projected_length_eq_abs_div _ _ (by simp [Vector3d.ext_iff])]
    norm_num [Vector3d.norm]
  have hx2 : projected_length ⟨1, 0, 0⟩ ((⟨10, 10, 0⟩ : Vector3d) - ⟨10, 0, 0⟩) = 0 := by
    rw [projected_length_eq_abs_div _ _ (by simp [Vector3d.ext_iff])]
    norm_num [Vector3d.norm]
  have hy1 : projected_length ⟨0, 1, 0⟩ ((⟨10, 0, 0⟩ : Vector3d) - ⟨0, 0, 0⟩) = 0 := by
    rw [projected_length_eq_abs_div _ _ (by simp [Vector3d.ext_iff])]
    norm_num [Vector3d.norm]
  have hy2 : projected_length ⟨0, 1, 0⟩ ((⟨10, 10, 0⟩ : Vector3d) - ⟨10, 0, 0⟩) = 10 := by
    rw [projected_length_eq_abs_div _ _ (by simp [Vector3d.ext_iff])]
    norm_num [Vector3d.norm]
  have hwide := (dir_well_index_sign 10 10 10 100 100 5 (by norm_num) (by norm_num)
    (by norm_num) (by norm_num) (by norm_num)).2 (by linarith)
  have hthin := (dir_well_index_sign 10 10 10 100 100 (1 / 10) (by norm_num) (by norm_num)
    (by norm_num) (by norm_num) (by norm_num)).1 (by linarith)
  rw [g1, g2]
  simp only [mixedSignRecord, boxCell, List.map_cons, List.map_nil, List.sum_cons,
    List.sum_nil, hx1, hx2, hy1, hy2, dir_well_index_zero]
  constructor <;> linarith

/-- The record `negativeRadiusRecord` is the record that the traversal hands to
`compute_well_index` for the heel `(0,0,0)`, the toe `(10,0,0)` and the radius `-1/10` on the
grid of the single box `[0,10]^3`: nothing rejects the radius. -/
theorem negativeRadiusRecord_collected :
    collect_intersected_cells oneCellGrid 0 ⟨[], []⟩ ⟨0, 0, 0⟩ ⟨10, 0, 0⟩ (-(1 / 10))
      = .ok ⟨[negativeRadiusRecord], [(0, ⟨⟨0, 0, 0⟩, ⟨10, 0, 0⟩, -(1 / 10)⟩)]⟩ := by
  simp [collect_intersected_cells, oneCellGrid, GetIntersectedCellIndex_nil, add_segment_at,
    negativeRadiusRecord, IntersectedCell.ofCell, IntersectedCell.add_new_segment]

/-- C7 fails on the code: for the record `negativeRadiusRecord` (one segment along the x axis
of the box `[0,10]^3`, radius `-1/10`, as the traversal collects it, see
`negativeRadiusRecord_collected`) the argument of the logarithm is negative, the directional
well index is NaN, and so is the stored well index: no number greater than or equal to zero is
stored. -/
theorem compute_well_index_negative_radius :
    dir_wellblock_radius 10 10 100 100 / -(1 / 10) < 0
      ∧ compute_well_index_checked negativeRadiusRecord = .error .nan
      ∧ ¬ ∃ w : ℝ, compute_well_index_checked negativeRadiusRecord = .ok w ∧ 0 ≤ w := by
  have hnan : compute_well_index_checked negativeRadiusRecord = .error .nan := by
    simp only [compute_well_index_checked, negativeRadiusRecord, segment_loop_checked,
      segment_step_checked, bind, Except.bind, boxCell]
    rw [projected_length_checked_ok _ _ (by simp [Vector3d.ext_iff]),
      projected_length_checked_ok _ _ (by simp [Vector3d.ext_iff]),
      projected_length_checked_ok _ _ (by simp [Vector3d.ext_iff])]
    simp only
    rw [dir_well_index_checked_nan _ _ _ _ _ _ (by norm_num) (by norm_num) (by norm_num)
      (by norm_num)]
  refine ⟨div_neg_of_pos_of_neg
    (dir_wellblock_radius_pos 10 10 100 100 (by norm_num) (by norm_num) (by norm_num))
    (by norm_num), hnan, ?_⟩
  rintro ⟨w, hw, _⟩
  rw [hnan] at hw
  cases hw

/-- C7 as amended: for every record without segments, and for every record whose cell has
positive permeabilities, positive dimensions `dx` and `dy` and non-zero axis vectors and whose
segments have radii that are positive and different from the three equivalent wellblock radii
of the cell, `compute_well_index` on an index in range stores a well index that is a number (no
operation of the computation leaves the real numbers) greater than or equal to zero, whatever
the signs of the three accumulated directional sums. -/
theorem compute_well_index_nonneg (cells : List IntersectedCell) (cell_index : Nat)
    (ic : IntersectedCell) (hic : cells[cell_index]? = some ic)
    (hdom : ic.segments = []
      ∨ (0 < ic.cell.permx ∧ 0 < ic.cell.permy ∧ 0 < ic.cell.permz
        ∧ 0 < ic.cell.dx ∧ 0 < ic.cell.dy
        ∧ ic.cell.xvec ≠ ⟨0, 0, 0⟩ ∧ ic.cell.yvec ≠ ⟨0, 0, 0⟩ ∧ ic.cell.zvec ≠ ⟨0, 0, 0⟩
        ∧ ∀ seg ∈ ic.segments, 0 < seg.radius
          ∧ seg.radius
              ≠ dir_wellblock_radius ic.cell.dy ic.cell.dz ic.cell.permy ic.cell.permz
          ∧ seg.radius
              ≠ dir_wellblock_radius ic.cell.dx ic.cell.dz ic.cell.permx ic.cell.permz
          ∧ seg.radius
              ≠ dir_wellblock_radius ic.cell.dx ic.cell.dy ic.cell.permx ic.cell.permy)) :
    ∃ (cells1 : List IntersectedCell) (ic1 : IntersectedCell) (w : ℝ),
      compute_well_index cells cell_index = .ok cells1
        ∧ cells1[cell_index]? = some ic1 ∧ ic1.well_index = some w
        ∧ compute_well_index_checked ic = .ok w ∧ 0 ≤ w := by
  have hlt : cell_index < cells.length := (List.getElem?_eq_some_iff.1 hic).1
  have hloop : ∃ s, segment_loop_checked ic.cell (0, 0, 0) ic.segments = .ok s := by
    rcases hdom with hnil | ⟨hkx, hky, hkz, hdx, hdy, hax, hay, haz, hr⟩
    · rw [hnil]
      exact ⟨(0, 0, 0), rfl⟩
    · exact segment_loop_checked_ok ic.cell hkx hky hkz hdx hdy hax hay haz ic.segments
        (0, 0, 0) hr
  obtain ⟨s, hs⟩ := hloop
  have hw : compute_well_index_checked ic
      = .ok (Real.sqrt (s.1 * s.1 + s.2.1 * s.2.1 + s.2.2 * s.2.2)) := by
    simp only [compute_well_index_checked, hs]
    exact checked_sqrt_ok _ (add_nonneg (add_nonneg (mul_self_nonneg _) (mul_self_nonneg _))
      (mul_self_nonneg _))
  refine ⟨cells.set cell_index (compute_cell_well_index ic), compute_cell_well_index ic, _,
    by simp [compute_well_index, hic], by simp [List.getElem?_set, hlt],
    compute_well_index_checked_value ic _ hw, hw, Real.sqrt_nonneg _⟩

/-- Witness for C7 as amended: the record `mixedSignRecord`, with a segment of radius below
and a segment of radius above the equivalent radius, whose directional sums have both signs
(`mixedSignRecord_sums`). -/
theorem compute_well_index_nonneg_witness :
    ∃ (cells1 : List IntersectedCell) (ic1 : IntersectedCell) (w : ℝ),
      compute_well_index [mixedSignRecord] 0 = .ok cells1
        ∧ cells1[0]? = some ic1 ∧ ic1.well_index = some w
        ∧ compute_well_index_checked mixedSignRecord = .ok w ∧ 0 ≤ w :=
  compute_well_index_nonneg [mixedSignRecord] 0 mixedSignRecord rfl
    (Or.inr ⟨by norm_num [mixedSignRecord, boxCell], by norm_num [mixedSignRecord, boxCell],
      by norm_num [mixedSignRecord, boxCell], by norm_num [mixedSignRecord, boxCell],
      by norm_num [mixedSignRecord, boxCell],
      by simp [mixedSignRecord, boxCell, Vector3d.ext_iff],
      by simp [mixedSignRecord, boxCell, Vector3d.ext_iff],
      by simp [mixedSignRecord, boxCell, Vector3d.ext_iff],
      by
        obtain ⟨hlo, hhi⟩ := dir_wellblock_radius_cube_bounds
        intro seg hseg
        simp only [mixedSignRecord, List.mem_cons, List.mem_singleton, List.not_mem_nil,
          or_false] at hseg
        rcases hseg with rfl | rfl
        · simp only [mixedSignRecord, boxCell]
          refine ⟨by norm_num, ?_, ?_, ?_⟩ <;> exact ne_of_lt (by linarith)
        · simp only [mixedSignRecord, boxCell]
          refine ⟨by norm_num, ?_, ?_, ?_⟩ <;> exact ne_of_gt (by linarith)⟩)

end WellIndexCalculation

end
